import Mathlib

/-!
CLIProxyAPI: session selector and request log.

A shallow embedding of `sdk/cliproxy/auth/session_selector.go`,
`sdk/cliproxy/auth/session_context.go` and `internal/usage/request_logs.go`,
followed by theorems about the embedded code.

Modelling conventions.

* `time.Time` is an integer number of nanoseconds counted from Go's zero time,
  so the zero `time.Time` is `0`; `time.Duration` is an integer number of
  nanoseconds. Monotonic clock readings are not modelled.
* `float64` is modelled by exact rationals.
* Go maps from strings to pointers are total functions into `Option`;
  `none` stands for an absent key and for a nil pointer alike.
* A mutex-protected method becomes a function from the state before the call
  to the state after it; the clock reading taken by the method is an argument.
* Candidate lists hold auth values, so a nil `*Auth` is not representable.
* `strings.ToLower`, `strings.ToUpper` and `strings.EqualFold` are modelled on ASCII
  letters; string comparison `<` is the lexicographic order on code points, which
  is Go's byte order on valid UTF-8.
* `sort.Slice` is a parameter of type `SortSlice`: an arbitrary permutation that
  agrees with insertion sort on slices of at most 12 elements (what the Go library
  runs there) and sorts whenever the comparison is a strict weak ordering.
-/

namespace CLIProxy

/-! ## Time -/

/-- Nanoseconds since Go's zero time. -/
abbrev Time := Int

/-- Nanoseconds. -/
abbrev Duration := Int

/-- One `time.Millisecond`. -/
def Millisecond : Duration := 1000000

/-- One `time.Second`. -/
def Second : Duration := 1000000000

/-- One `time.Minute`. -/
def Minute : Duration := 60 * Second

/-- The method `Time.IsZero`. -/
def Time.IsZero (t : Time) : Bool := decide (t = 0)

/-- The method `Time.Add`. -/
def Time.Add (t : Time) (d : Duration) : Time := t + d

/-- The method `Time.After`: `t` is strictly later than `u`. -/
def Time.After (t u : Time) : Bool := decide (u < t)

/-- The method `Time.Before`: `t` is strictly earlier than `u`. -/
def Time.Before (t u : Time) : Bool := decide (t < u)

/-- Largest `time.Duration` (`math.MaxInt64`). -/
def maxDuration : Duration := 9223372036854775807

/-- Smallest `time.Duration` (`math.MinInt64`). -/
def minDuration : Duration := -9223372036854775808

/-- The method `Time.Sub`: the difference `t - u`, saturating at the largest and
smallest representable duration. -/
def Time.Sub (t u : Time) : Duration :=
  if t - u > maxDuration then maxDuration
  else if t - u < minDuration then minDuration
  else t - u

/-- The method `Duration.Milliseconds`: whole milliseconds, rounding toward zero. -/
def Duration.Milliseconds (d : Duration) : Int := Int.tdiv d 1000000

/-! ## Strings -/

/-- The predicate `unicode.IsSpace`. -/
def isSpace (c : Char) : Bool :=
  c = '\t' || c = '\n' || c.val = 0x0B || c.val = 0x0C || c = '\r' || c = ' ' ||
  c.val = 0x85 || c.val = 0xA0 || c.val = 0x1680 ||
  (0x2000 ≤ c.val && c.val ≤ 0x200A) ||
  c.val = 0x2028 || c.val = 0x2029 || c.val = 0x202F || c.val = 0x205F || c.val = 0x3000

/-- The function `strings.TrimSpace`: leading and trailing white space removed. -/
def TrimSpace (s : String) : String :=
  String.mk (((s.data.dropWhile isSpace).reverse.dropWhile isSpace).reverse)

/-- The function `strings.ToLower`, on its ASCII fragment: the letters `A`..`Z` are
mapped to `a`..`z`, every other character is kept. -/
def ToLower (s : String) : String := String.mk (s.data.map Char.toLower)

/-- The function `strings.ToUpper`, on its ASCII fragment. -/
def ToUpper (s : String) : String := String.mk (s.data.map Char.toUpper)

/-- The function `strings.EqualFold`, on its ASCII fragment: equality up to the case
of ASCII letters. -/
def EqualFold (a b : String) : Bool := decide (ToLower a = ToLower b)

/-! ## The library sort -/

/-- The insertion step of Go's `insertionSortLessFunc`, on the reversed sorted
prefix: the new element `x` moves left past every element it is `less` than and
stops at the first element it is not `less` than. -/
def insertLeft {α : Type} (less : α → α → Bool) (x : α) : List α → List α
  | [] => [x]
  | y :: ys => if less x y then y :: insertLeft less x ys else x :: y :: ys

/-- Go's `insertionSortLessFunc`: for `i = 1 .. n-1`, element `i` is swapped
leftwards while it is `less` than its left neighbour. -/
def insertionSortLess {α : Type} (less : α → α → Bool) (l : List α) : List α :=
  (l.foldl (fun accRev x => insertLeft less x accRev) []).reverse

/-- A strict weak ordering, the contract `sort.Slice` asks of its comparison:
asymmetric and negatively transitive. -/
def StrictWeak {α : Type} (less : α → α → Bool) : Prop :=
  (∀ a b, less a b = true → less b a = false) ∧
  (∀ a b c, less a b = false → less b c = false → less a c = false)

/-- The library function `sort.Slice`, as far as its behaviour is fixed: it
permutes the slice; on a slice of at most 12 elements it runs exactly
`insertionSortLessFunc`; and when the comparison is a strict weak ordering the
result is sorted (no element is `less` than an element placed before it). On
longer slices with other comparisons the permutation is left open. -/
structure SortSlice (α : Type) where
  /-- The sorting function. -/
  sort : (α → α → Bool) → List α → List α
  /-- The result is a rearrangement of the input. -/
  perm : ∀ less l, List.Perm (sort less l) l
  /-- Short slices are sorted by insertion. -/
  small : ∀ less l, l.length ≤ 12 → sort less l = insertionSortLess less l
  /-- With a strict weak ordering the result is sorted. -/
  sorted : ∀ less l, StrictWeak less →
    List.Pairwise (fun a b => less b a = false) (sort less l)

/-! ## Request log (`internal/usage/request_logs.go`) -/

/-- The constant `maxRequestLogEntries`. -/
def maxRequestLogEntries : Nat := 500

/-- The struct `RequestLogEntry`. -/
structure RequestLogEntry where
  ID : String
  Method : String
  Path : String
  APIKey : String
  RequestType : String
  Model : String
  SessionID : String
  StatusCode : Int
  ErrorMessage : String
  StartedAt : Time
  CompletedAt : Time
  DurationMs : Int
  Pending : Bool
deriving DecidableEq, Repr

/-- The struct `RequestLogUpdate`. -/
structure RequestLogUpdate where
  APIKey : String
  RequestType : String
  Model : String
  SessionID : String
deriving DecidableEq, Repr

/-- The struct `requestLogStore`, without its mutex. -/
structure requestLogStore where
  order : List String
  entries : String → Option RequestLogEntry

/-- The constructor `newRequestLogStore`. -/
def newRequestLogStore : requestLogStore :=
  { order := [], entries := fun _ => none }

/-- Assignment `m[k] = v` on a Go map. -/
def mapSet {V : Type} (m : String → Option V) (k : String) (v : V) : String → Option V :=
  fun x => if x = k then some v else m x

/-- The builtin `delete(m, k)` on a Go map. -/
def mapDelete {V : Type} (m : String → Option V) (k : String) : String → Option V :=
  fun x => if x = k then none else m x

/-- The eviction loop of `upsert`: every non-empty id among the dropped ones is
deleted from the map. -/
def evictIDs (entries : String → Option RequestLogEntry) :
    List String → String → Option RequestLogEntry
  | [] => entries
  | oldID :: rest =>
    if oldID ≠ "" then evictIDs (mapDelete entries oldID) rest else evictIDs entries rest

/-- The method `requestLogStore.upsert`. The argument `entry` is the pointee of a
freshly allocated entry, `none` for a nil pointer. -/
def requestLogStore.upsert (s : requestLogStore) (id : String)
    (entry : Option RequestLogEntry) : requestLogStore :=
  match entry with
  | none => s
  | some entry =>
    if id = "" then s
    else
      match s.entries id with
      | some existing =>
        let existing : RequestLogEntry :=
          { existing with
            Method := entry.Method
            Path := entry.Path
            StartedAt := entry.StartedAt
            Pending := entry.Pending }
        { s with entries := mapSet s.entries id existing }
      | none =>
        let entries := mapSet s.entries id entry
        let order := s.order ++ [id]
        if order.length > maxRequestLogEntries then
          let excess := order.length - maxRequestLogEntries
          { order := order.drop excess
            entries := evictIDs entries (order.take excess) }
        else
          { order := order, entries := entries }

/-- The method `requestLogStore.update`. -/
def requestLogStore.update (s : requestLogStore) (id : String)
    (update : RequestLogUpdate) : requestLogStore :=
  if id = "" then s
  else
    match s.entries id with
    | none => s
    | some entry =>
      let entry := if update.APIKey ≠ "" then { entry with APIKey := update.APIKey } else entry
      let entry :=
        if update.RequestType ≠ "" then { entry with RequestType := update.RequestType }
        else entry
      let entry := if update.Model ≠ "" then { entry with Model := update.Model } else entry
      let entry :=
        if update.SessionID ≠ "" then { entry with SessionID := update.SessionID } else entry
      { s with entries := mapSet s.entries id entry }

/-- The method `requestLogStore.finish`. -/
def requestLogStore.finish (s : requestLogStore) (id : String) (status : Int)
    (errorMessage : String) (completedAt : Time) : requestLogStore :=
  if id = "" then s
  else
    match s.entries id with
    | none => s
    | some entry =>
      let entry := if status > 0 then { entry with StatusCode := status } else entry
      let entry :=
        if errorMessage ≠ "" then { entry with ErrorMessage := errorMessage } else entry
      let entry := { entry with CompletedAt := completedAt }
      let entry :=
        if !Time.IsZero entry.StartedAt then
          { entry with
            DurationMs := Duration.Milliseconds (Time.Sub completedAt entry.StartedAt) }
        else entry
      let entry := { entry with Pending := false }
      { s with entries := mapSet s.entries id entry }

/-- The collecting loop of `snapshot`: `ids` are the ids still to visit, newest
first; the loop stops as soon as `limit` entries have been collected and skips
ids without an entry. -/
def snapshotCollect (entries : String → Option RequestLogEntry) (limit : Nat) :
    List String → List RequestLogEntry → List RequestLogEntry
  | [], acc => acc
  | id :: rest, acc =>
    if acc.length < limit then
      match entries id with
      | none => snapshotCollect entries limit rest acc
      | some entry => snapshotCollect entries limit rest (acc ++ [entry])
    else acc

/-- The comparison handed to `sort.Slice` by `snapshot`. -/
def startedAfter (a b : RequestLogEntry) : Bool := Time.After a.StartedAt b.StartedAt

/-- The method `requestLogStore.snapshot`. It leaves the store unchanged. -/
def requestLogStore.snapshot (srt : SortSlice RequestLogEntry) (s : requestLogStore)
    (limit : Int) : List RequestLogEntry :=
  let limit : Nat :=
    if limit ≤ 0 ∨ limit > (s.order.length : Int) then s.order.length else limit.toNat
  srt.sort startedAfter (snapshotCollect s.entries limit s.order.reverse [])

/-- The function `StartRequestLog` on a store; `clock` is the value `time.Now()`
would return. -/
def StartRequestLog (s : requestLogStore) (clock : Time) (id method path : String)
    (startedAt : Time) : requestLogStore :=
  if id = "" then s
  else
    let startedAt := if Time.IsZero startedAt then clock else startedAt
    s.upsert id (some
      { ID := id
        Method := ToUpper (TrimSpace method)
        Path := TrimSpace path
        APIKey := ""
        RequestType := ""
        Model := ""
        SessionID := ""
        StatusCode := 0
        ErrorMessage := ""
        StartedAt := startedAt
        CompletedAt := 0
        DurationMs := 0
        Pending := true })

/-- The function `UpdateRequestLog` on a store. -/
def UpdateRequestLog (s : requestLogStore) (id : String) (update : RequestLogUpdate) :
    requestLogStore :=
  if id = "" then s else s.update id update

/-- The function `FinishRequestLog` on a store; `clock` is the value `time.Now()`
would return. -/
def FinishRequestLog (s : requestLogStore) (clock : Time) (id : String) (status : Int)
    (errorMessage : String) (completedAt : Time) : requestLogStore :=
  if id = "" then s
  else
    let completedAt := if Time.IsZero completedAt then clock else completedAt
    s.finish id status (TrimSpace errorMessage) completedAt

/-- The function `SnapshotRequestLogs` on a store. -/
def SnapshotRequestLogs (srt : SortSlice RequestLogEntry) (s : requestLogStore)
    (limit : Int) : List RequestLogEntry :=
  s.snapshot srt limit

/-- One call of the request log's public API. -/
inductive LogOp where
  | start (clock : Time) (id method path : String) (startedAt : Time)
  | update (id : String) (update : RequestLogUpdate)
  | finish (clock : Time) (id : String) (status : Int) (errorMessage : String)
      (completedAt : Time)

/-- The effect of one call on the store. -/
def LogOp.apply (s : requestLogStore) : LogOp → requestLogStore
  | .start clock id method path startedAt => StartRequestLog s clock id method path startedAt
  | .update id u => UpdateRequestLog s id u
  | .finish clock id status msg completedAt => FinishRequestLog s clock id status msg completedAt

/-- The store after a sequence of calls, starting from the empty store. -/
def runLog (ops : List LogOp) : requestLogStore :=
  ops.foldl LogOp.apply newRequestLogStore

/-! ## Auth model and request data -/

/-- Modelled from the spec: the status of an auth (section 3, "one of Active,
Disabled, Invalid"); the type `Status` is declared outside the files embedded here. -/
inductive Status where
  | Active
  | Disabled
  | Invalid
deriving DecidableEq, Repr

/-- Modelled from the spec: the struct `QuotaState` (section 3), declared outside the
files embedded here. -/
structure QuotaState where
  Exceeded : Bool
  Reason : String
  NextRecoverAt : Time
deriving DecidableEq, Repr

/-- Modelled from the spec: the struct `ModelState`, the per-model override holding
its own quota state. -/
structure ModelState where
  Quota : QuotaState
deriving DecidableEq, Repr

/-- Modelled from the spec: the struct `Auth` (section 3), declared outside the files
embedded here. The map `ModelStates` is an association list read by its first
match; a missing key stands for an absent or nil entry. -/
structure Auth where
  ID : String
  Provider : String
  FileName : String
  Status : Status
  Quota : QuotaState
  ModelStates : List (String × ModelState)
deriving DecidableEq, Repr

/-- Modelled from the spec: the struct `Error` carried by a failed result
(section 6, `error{httpStatus, message}`). -/
structure Error where
  HTTPStatus : Int
  Message : String
deriving DecidableEq, Repr

/-- Modelled from the spec: the struct `Result` reported per request (section 6);
`Error` is `none` for a nil pointer. -/
structure Result where
  AuthID : String
  Provider : String
  Model : String
  Success : Bool
  Error : Option Error
deriving DecidableEq, Repr

/-- A value stored under `any`: a string, or a value of some other dynamic type. -/
inductive AnyValue where
  | str (value : String)
  | other
deriving DecidableEq, Repr

/-- Modelled from the spec: the struct `cliproxyexecutor.Options`, of which only the
metadata map is read; `none` is the nil map. -/
structure Options where
  Metadata : Option (List (String × AnyValue))
deriving DecidableEq, Repr

/-! ## Session context (`sdk/cliproxy/auth/session_context.go`) -/

/-- Keys of context values: the private `sessionIDContextKey` and any other key. -/
inductive ContextKey where
  | sessionIDContextKey
  | otherKey (name : String)
deriving DecidableEq, Repr

/-- A non-nil `context.Context`, as the chain of values attached to it, the most
recently attached first. -/
abbrev Context := List (ContextKey × AnyValue)

/-- The method `Context.Value`: the most recently attached value of the key. -/
def Context.Value (ctx : Context) (key : ContextKey) : Option AnyValue :=
  ctx.lookup key

/-- The function `WithSessionID`; `none` is the nil context. -/
def WithSessionID (ctx : Option Context) (sessionID : String) : Option Context :=
  match ctx with
  | none => none
  | some c =>
    if sessionID = "" then some c
    else some ((ContextKey.sessionIDContextKey, AnyValue.str sessionID) :: c)

/-- The function `SessionIDFromContext`. -/
def SessionIDFromContext (ctx : Option Context) : String :=
  match ctx with
  | none => ""
  | some c =>
    match Context.Value c ContextKey.sessionIDContextKey with
    | some (AnyValue.str value) => value
    | _ => ""

/-! ## Session selector (`sdk/cliproxy/auth/session_selector.go`) -/

/-- The struct `SessionSelectorConfig`. -/
structure SessionSelectorConfig where
  Enabled : Bool
  Providers : List String
  TTL : Duration
  FailureThreshold : Int
  Cooldown : Duration
  LoadWindow : Duration
  LoadWeight : ℚ
  HealthWindow : Int
  WeightSuccess : ℚ
  WeightQuota : ℚ
  Penalty429 : ℚ
  Penalty403 : ℚ
  Penalty5xx : ℚ
deriving DecidableEq

/-- The struct `sessionBinding`. -/
structure sessionBinding where
  authID : String
  lastUsed : Time
  failCount : Int
  cooldownUntil : Time
deriving DecidableEq, Repr

/-- The struct `resultSample`. -/
structure resultSample where
  timestamp : Time
  success : Bool
  status : Int
deriving DecidableEq, Repr

/-- The struct `authStats`. -/
structure authStats where
  recentResults : List resultSample
  recentRequests : List Time
  pendingRequests : List Time
deriving DecidableEq, Repr

/-- The struct `SessionSelector`, without its mutex and clock. -/
structure SessionSelector where
  cfg : SessionSelectorConfig
  sessions : String → Option sessionBinding
  stats : String → Option authStats

/-- The function `normaliseSessionConfig`. -/
def normaliseSessionConfig (cfg : SessionSelectorConfig) : SessionSelectorConfig :=
  let out := cfg
  let out := if out.TTL ≤ 0 then { out with TTL := 5 * Minute } else out
  let out := if out.FailureThreshold ≤ 0 then { out with FailureThreshold := 3 } else out
  let out := if out.Cooldown ≤ 0 then { out with Cooldown := 5 * Minute } else out
  let out := if out.LoadWindow ≤ 0 then { out with LoadWindow := 10 * Minute } else out
  let out := if out.LoadWeight < 0 then { out with LoadWeight := 0 } else out
  let out := if out.LoadWeight > 1 then { out with LoadWeight := 1 } else out
  let out := if out.HealthWindow ≤ 0 then { out with HealthWindow := 50 } else out
  let out :=
    if out.WeightSuccess ≤ 0 ∧ out.WeightQuota ≤ 0 then
      { out with WeightSuccess := 3 / 5, WeightQuota := 2 / 5 }
    else out
  let out := if out.Penalty429 ≤ 0 then { out with Penalty429 := 1 } else out
  let out := if out.Penalty403 ≤ 0 then { out with Penalty403 := 7 / 10 } else out
  let out := if out.Penalty5xx ≤ 0 then { out with Penalty5xx := 2 / 5 } else out
  out

/-- The constructor `NewSessionSelector`. -/
def NewSessionSelector (cfg : SessionSelectorConfig) : SessionSelector :=
  { cfg := normaliseSessionConfig cfg
    sessions := fun _ => none
    stats := fun _ => none }

/-- The method `UpdateConfig`. -/
def SessionSelector.UpdateConfig (s : SessionSelector) (cfg : SessionSelectorConfig) :
    SessionSelector :=
  { s with cfg := normaliseSessionConfig cfg }

/-- The method `isProviderEnabled`. -/
def SessionSelector.isProviderEnabled (s : SessionSelector) (provider : String) : Bool :=
  if s.cfg.Providers.length = 0 then true
  else s.cfg.Providers.any (fun name => EqualFold (TrimSpace name) provider)

/-- The method `sessionKey`. -/
def sessionKey (provider sessionID : String) : String :=
  ToLower provider ++ ":" ++ sessionID

/-- The function `pruneOldTimestamps`: the leading timestamps before the cutoff are
dropped; the scan stops at the first timestamp that is not before the cutoff. -/
def pruneOldTimestamps (values : List Time) (cutoff : Time) : List Time :=
  values.dropWhile (fun v => Time.Before v cutoff)

/-- The function `clamp01`. -/
def clamp01 (value : ℚ) : ℚ :=
  if value < 0 then 0 else if value > 1 then 1 else value

/-- The method `cleanupLocked`. -/
def SessionSelector.cleanupLocked (s : SessionSelector) (now : Time) : SessionSelector :=
  let ttlCutoff := Time.Add now (-s.cfg.TTL)
  let sessions : String → Option sessionBinding := fun key =>
    match s.sessions key with
    | none => none
    | some binding => if Time.Before binding.lastUsed ttlCutoff then none else some binding
  if s.cfg.LoadWindow ≤ 0 then { s with sessions := sessions }
  else
    let cutoff := Time.Add now (-s.cfg.LoadWindow)
    { s with
      sessions := sessions
      stats := fun id =>
        match s.stats id with
        | none => none
        | some stats =>
          some { stats with
            recentRequests := pruneOldTimestamps stats.recentRequests cutoff
            pendingRequests := pruneOldTimestamps stats.pendingRequests cutoff } }

/-- The function `quotaHealth` on a non-nil auth. -/
def quotaHealth (auth : Auth) (model : String) (now : Time) : ℚ :=
  let quota :=
    if model ≠ "" then
      match auth.ModelStates.lookup model with
      | some state => state.Quota
      | none => auth.Quota
    else auth.Quota
  if quota.Exceeded then 0
  else if !Time.IsZero quota.NextRecoverAt && Time.After quota.NextRecoverAt now then 1 / 5
  else 1

/-- The sample counts taken by the loop of `scoreAuthLocked`:
successes, 429, 403 or 402, and 5xx. -/
def countSamples : List resultSample → Nat × Nat × Nat × Nat
  | [] => (0, 0, 0, 0)
  | sample :: rest =>
    let (successCount, count429, count403, count5xx) := countSamples rest
    if sample.success then (successCount + 1, count429, count403, count5xx)
    else if sample.status = 429 then (successCount, count429 + 1, count403, count5xx)
    else if sample.status = 403 ∨ sample.status = 402 then
      (successCount, count429, count403 + 1, count5xx)
    else if sample.status ≥ 500 ∧ sample.status ≤ 599 then
      (successCount, count429, count403, count5xx + 1)
    else (successCount, count429, count403, count5xx)

/-- The method `scoreAuthLocked`: the score, the load count, and the selector after
the call (the timestamp lists of the scored auth are pruned in place). -/
def SessionSelector.scoreAuthLocked (s : SessionSelector) (auth : Auth) (model : String)
    (now : Time) : ℚ × Int × SessionSelector :=
  let rates : ℚ × ℚ :=
    match s.stats auth.ID with
    | none => (1 / 2, 0)
    | some stats =>
      let recent := stats.recentResults
      if recent.length > 0 then
        let (successCount, count429, count403, count5xx) := countSamples recent
        ((successCount : ℚ) / (recent.length : ℚ),
          clamp01 (((count429 : ℚ) * s.cfg.Penalty429 + (count403 : ℚ) * s.cfg.Penalty403 +
            (count5xx : ℚ) * s.cfg.Penalty5xx) / (recent.length : ℚ)))
      else (1 / 2, 0)
  let successRate := rates.1
  let penaltyRatio := rates.2
  let pruned : Option authStats :=
    match s.stats auth.ID with
    | none => none
    | some stats =>
      if s.cfg.LoadWindow > 0 then
        some { stats with
          recentRequests :=
            pruneOldTimestamps stats.recentRequests (Time.Add now (-s.cfg.LoadWindow))
          pendingRequests :=
            pruneOldTimestamps stats.pendingRequests (Time.Add now (-s.cfg.LoadWindow)) }
      else some stats
  let loadCount : Int :=
    match pruned with
    | none => 0
    | some stats =>
      if s.cfg.LoadWindow > 0 then
        (stats.recentRequests.length : Int) + (stats.pendingRequests.length : Int)
      else 0
  let quotaScore := quotaHealth auth model now
  let weightTotal := s.cfg.WeightSuccess + s.cfg.WeightQuota
  let weighted : ℚ :=
    if weightTotal > 0 then
      (successRate * s.cfg.WeightSuccess + quotaScore * s.cfg.WeightQuota) / weightTotal
    else 0
  let loadPenalty : ℚ :=
    if loadCount > 0 then (loadCount : ℚ) / ((loadCount + 1 : Int) : ℚ) else 0
  let score := weighted - loadPenalty * s.cfg.LoadWeight
  let score := score * (1 - penaltyRatio)
  let score := if score < 0 then 0 else score
  let s' : SessionSelector :=
    match pruned with
    | none => s
    | some stats => { s with stats := mapSet s.stats auth.ID stats }
  (score, loadCount, s')

/-- The local struct `scored` of `pickBestCandidateLocked`. -/
structure scored where
  auth : Auth
  score : ℚ
  load : Int
deriving DecidableEq

/-- The function `math.Abs` on rationals. -/
def absQ (x : ℚ) : ℚ := if x < 0 then -x else x

/-- The comparison handed to `sort.Slice` by `pickBestCandidateLocked`. -/
def scoredLess (a b : scored) : Bool :=
  if absQ (a.score - b.score) > 1 / 10000 then decide (a.score > b.score)
  else if a.load ≠ b.load then decide (a.load < b.load)
  else decide (a.auth.ID < b.auth.ID)

/-- The scoring loop of `pickBestCandidateLocked`: the candidates are scored in
order, each on the selector left by the previous call. -/
def scoreAll (s : SessionSelector) (model : String) (now : Time) :
    List Auth → List scored → List scored × SessionSelector
  | [], scoredList => (scoredList, s)
  | auth :: rest, scoredList =>
    let r := s.scoreAuthLocked auth model now
    scoreAll r.2.2 model now rest (scoredList ++ [{ auth := auth, score := r.1, load := r.2.1 }])

/-- The method `pickBestCandidateLocked`. The result is `none` where the Go code
indexes an empty slice. -/
def SessionSelector.pickBestCandidateLocked (srt : SortSlice scored) (s : SessionSelector)
    (candidates : List Auth) (model : String) (now : Time) : Option Auth × SessionSelector :=
  match candidates with
  | [auth] => (some auth, s)
  | _ =>
    let r := scoreAll s model now candidates []
    ((srt.sort scoredLess r.1).head?.map (fun x => x.auth), r.2)

/-- The function `extractSessionIDFromOptions`; `metadataKey` is the constant
`cliproxyexecutor.SessionIDMetadataKey`, declared outside the files embedded here. -/
def extractSessionIDFromOptions (metadataKey : String) (opts : Options) : String :=
  match opts.Metadata with
  | none => ""
  | some metadata =>
    match metadata.lookup metadataKey with
    | none => ""
    | some (AnyValue.str value) => TrimSpace value
    | some AnyValue.other => ""

/-- The function `findAuthByID`. -/
def findAuthByID (auths : List Auth) (id : String) : Option Auth :=
  if id = "" then none else auths.find? (fun auth => decide (auth.ID = id))

/-- The function `filterAuthsByID`. -/
def filterAuthsByID (auths : List Auth) (excludedID : String) : List Auth :=
  if excludedID = "" then auths else auths.filter (fun auth => !decide (auth.ID = excludedID))

/-- The pending-request bookkeeping shared by both return paths of `Pick`. -/
def SessionSelector.addPending (s : SessionSelector) (id : String) (now : Time) :
    SessionSelector :=
  if s.cfg.LoadWindow > 0 then
    let stats : authStats :=
      match s.stats id with
      | some stats => stats
      | none => { recentResults := [], recentRequests := [], pendingRequests := [] }
    let stats : authStats :=
      { stats with
        pendingRequests :=
          pruneOldTimestamps (stats.pendingRequests ++ [now]) (Time.Add now (-s.cfg.LoadWindow)) }
    { s with stats := mapSet s.stats id stats }
  else s

/-- How a call of `Pick` can fail: with the error of `getAvailableAuths`, or by
indexing an empty candidate slice. -/
inductive PickError where
  | unavailable (err : Error)
  | indexOutOfRange
deriving DecidableEq, Repr

/-- What the binding lookup of `Pick` decides: return the bound auth at once, or go
on to a fresh selection with an auth id to exclude (`""` for none). -/
inductive BindingLookup where
  | sticky (auth : Auth) (s : SessionSelector)
  | fresh (excludedAuthID : String) (s : SessionSelector)

/-- The binding lookup of `Pick` (the block guarded by
`providerEnabled && sessionID != ""`), on the selector left by `cleanupLocked`. -/
def SessionSelector.lookupBinding (s : SessionSelector) (now : Time) (providerEnabled : Bool)
    (provider sessionID : String) (available : List Auth) : BindingLookup :=
  if providerEnabled = true ∧ sessionID ≠ "" then
    let key := sessionKey provider sessionID
    match s.sessions key with
    | none => BindingLookup.fresh "" s
    | some binding =>
      if Time.After (Time.Add binding.lastUsed s.cfg.TTL) now = true ∧
          Time.After binding.cooldownUntil now = true then
        BindingLookup.fresh binding.authID s
      else if Time.After (Time.Add binding.lastUsed s.cfg.TTL) now = true then
        match findAuthByID available binding.authID with
        | some auth =>
          let s1 : SessionSelector :=
            { s with sessions := mapSet s.sessions key { binding with lastUsed := now } }
          BindingLookup.sticky auth (s1.addPending auth.ID now)
        | none => BindingLookup.fresh "" s
      else BindingLookup.fresh "" { s with sessions := mapDelete s.sessions key }
  else BindingLookup.fresh "" s

/-- The method `SessionSelector.Pick` on a non-nil selector. `now` is the clock
reading; `available` is what `getAvailableAuths(auths, provider, model, now)`
returned (that function is declared outside the files embedded here);
`metadataKey` is the constant `SessionIDMetadataKey`. The result is the returned
auth or failure, and the selector after the call. -/
def SessionSelector.Pick (srt : SortSlice scored) (metadataKey : String) (s : SessionSelector)
    (now : Time) (provider model : String) (opts : Options)
    (available : Except Error (List Auth)) : Except PickError Auth × SessionSelector :=
  match available with
  | Except.error err => (Except.error (PickError.unavailable err), s)
  | Except.ok available =>
    let sessionID := extractSessionIDFromOptions metadataKey opts
    let providerEnabled := s.isProviderEnabled provider
    let s := s.cleanupLocked now
    match s.lookupBinding now providerEnabled provider sessionID available with
    | BindingLookup.sticky auth s => (Except.ok auth, s)
    | BindingLookup.fresh excludedAuthID s =>
      let candidates := filterAuthsByID available excludedAuthID
      let candidates := if candidates.length = 0 then available else candidates
      match s.pickBestCandidateLocked srt candidates model now with
      | (none, s) => (Except.error PickError.indexOutOfRange, s)
      | (some selected, s) =>
        let s : SessionSelector :=
          if providerEnabled = true ∧ sessionID ≠ "" then
            { s with
              sessions := mapSet s.sessions (sessionKey provider sessionID)
                { authID := selected.ID, lastUsed := now, failCount := 0, cooldownUntil := 0 } }
          else s
        (Except.ok selected, s.addPending selected.ID now)

/-- The statistics half of `RecordResult`: the sample is appended and the lists are
trimmed to the health window and pruned to the load window. -/
def SessionSelector.recordStats (s : SessionSelector) (now : Time) (result : Result) :
    SessionSelector :=
  let status : Int :=
    match result.Error with
    | some err => err.HTTPStatus
    | none => 0
  let stats : authStats :=
    match s.stats result.AuthID with
    | some stats => stats
    | none => { recentResults := [], recentRequests := [], pendingRequests := [] }
  let recentResults :=
    stats.recentResults ++ [{ timestamp := now, success := result.Success, status := status }]
  let recentResults :=
    if s.cfg.HealthWindow > 0 ∧ (recentResults.length : Int) > s.cfg.HealthWindow then
      recentResults.drop (recentResults.length - s.cfg.HealthWindow.toNat)
    else recentResults
  let stats : authStats := { stats with recentResults := recentResults }
  let stats : authStats :=
    if s.cfg.LoadWindow > 0 then
      let pending :=
        if stats.pendingRequests.length > 0 then stats.pendingRequests.drop 1
        else stats.pendingRequests
      { stats with
        recentRequests :=
          pruneOldTimestamps (stats.recentRequests ++ [now]) (Time.Add now (-s.cfg.LoadWindow))
        pendingRequests := pruneOldTimestamps pending (Time.Add now (-s.cfg.LoadWindow)) }
    else stats
  { s with stats := mapSet s.stats result.AuthID stats }

/-- The transition of a binding on a result for its auth: `lastUsed` is refreshed;
a success clears the failure count and the cooldown; a failure counts up and, when
the threshold is reached, starts the cooldown and resets the count. -/
def sessionBinding.record (binding : sessionBinding) (cfg : SessionSelectorConfig) (now : Time)
    (success : Bool) : sessionBinding :=
  let binding := { binding with lastUsed := now }
  if success then { binding with failCount := 0, cooldownUntil := 0 }
  else
    let binding := { binding with failCount := binding.failCount + 1 }
    if cfg.FailureThreshold > 0 ∧ binding.failCount ≥ cfg.FailureThreshold then
      let binding :=
        if cfg.Cooldown > 0 then { binding with cooldownUntil := Time.Add now cfg.Cooldown }
        else binding
      { binding with failCount := 0 }
    else binding

/-- The binding half of `RecordResult`, for the session id read from the context. -/
def SessionSelector.recordBinding (s : SessionSelector) (now : Time) (sessionID : String)
    (result : Result) : SessionSelector :=
  if sessionID = "" ∨ s.isProviderEnabled result.Provider = false then s
  else
    let key := sessionKey result.Provider sessionID
    match s.sessions key with
    | none => s
    | some binding =>
      if binding.authID ≠ result.AuthID then s
      else { s with sessions := mapSet s.sessions key (binding.record s.cfg now result.Success) }

/-- The method `SessionSelector.RecordResult` on a non-nil selector; `now` is the
clock reading and `ctx` the request context (`none` for nil). -/
def SessionSelector.RecordResult (s : SessionSelector) (now : Time) (ctx : Option Context)
    (result : Result) : SessionSelector :=
  if result.AuthID = "" then s
  else (s.recordStats now result).recordBinding now (SessionIDFromContext ctx) result

/-- The arguments of one call of `StartRequestLog`, with the clock reading of the call. -/
structure StartCall where
  clock : Time
  id : String
  method : String
  path : String
  startedAt : Time
deriving DecidableEq, Repr

/-- The call as an operation on the store. -/
def StartCall.op (c : StartCall) : LogOp :=
  LogOp.start c.clock c.id c.method c.path c.startedAt

/-- The start time the call records: the argument, or the clock reading when the
argument is the zero time. -/
def StartCall.effectiveStart (c : StartCall) : Time :=
  if Time.IsZero c.startedAt then c.clock else c.startedAt

/-- The store after starting the given calls, in order, on the empty store. -/
def startAll (calls : List StartCall) : requestLogStore :=
  runLog (calls.map StartCall.op)

/-- The id `req-i` of the request log window scenario. -/
def reqID (i : Nat) : String := "req-" ++ toString i

/-- Reads back the decimal number of a `req-i` id. -/
def reqIndex (id : String) : Nat :=
  (id.data.drop 4).foldl (fun n c => 10 * n + (c.toNat - '0'.toNat)) 0

/-- The calls of the request log window scenario: `req-0` .. `req-500`, started
one second apart. -/
def reqCalls : List StartCall :=
  (List.range 501).map (fun i =>
    { clock := 0, id := reqID i, method := "GET", path := "/v1/responses",
      startedAt := 1 + (i : Int) * Second })

/-- The insertion sort as an instance of the library sort: what `sort.Slice` does on
slices of at most 12 elements, applied at every length. -/
def insertionSlice (α : Type) : SortSlice α where
  sort := insertionSortLess
  perm := by
    intro less l
    have hins : ∀ (x : α) (acc : List α), List.Perm (insertLeft less x acc) (x :: acc) := by
      intro x acc
      induction acc with
      | nil => exact List.Perm.refl _
      | cons y ys ih =>
        simp only [insertLeft]
        split
        · exact (List.Perm.cons y ih).trans (List.Perm.swap x y ys)
        · exact List.Perm.refl _
    have hfold : ∀ (l acc : List α),
        List.Perm (l.foldl (fun accRev x => insertLeft less x accRev) acc) (l.reverse ++ acc) := by
      intro l
      induction l with
      | nil => intro acc; simp
      | cons x xs ih =>
        intro acc
        simp only [List.foldl_cons, List.reverse_cons, List.append_assoc, List.singleton_append]
        exact (ih _).trans (List.Perm.append_left _ (hins x acc))
    unfold insertionSortLess
    have h := hfold l []
    simp only [List.append_nil] at h
    exact (List.reverse_perm _).trans (h.trans (List.reverse_perm l))
  small := fun _ _ _ => rfl
  sorted := by
    intro less l hsw
    obtain ⟨hasym, hneg⟩ := hsw
    have hmem : ∀ (x : α) (acc : List α) (z : α), z ∈ insertLeft less x acc → z = x ∨ z ∈ acc := by
      intro x acc
      induction acc with
      | nil => intro z hz; simpa [insertLeft] using hz
      | cons y ys ih =>
        intro z hz
        simp only [insertLeft] at hz
        split at hz
        · rcases List.mem_cons.1 hz with h | h
          · exact Or.inr (h ▸ List.mem_cons_self _ _)
          · rcases ih z h with h | h
            · exact Or.inl h
            · exact Or.inr (List.mem_cons_of_mem _ h)
        · rcases List.mem_cons.1 hz with h | h
          · exact Or.inl h
          · exact Or.inr h
    have hins : ∀ (x : α) (acc : List α), List.Pairwise (fun a b => less a b = false) acc →
        List.Pairwise (fun a b => less a b = false) (insertLeft less x acc) := by
      intro x acc
      induction acc with
      | nil => intro _; simp [insertLeft]
      | cons y ys ih =>
        intro hp
        rw [List.pairwise_cons] at hp
        simp only [insertLeft]
        split
        · rename_i hxy
          rw [List.pairwise_cons]
          refine ⟨?_, ih hp.2⟩
          intro z hz
          rcases hmem x ys z hz with h | h
          · subst h; exact hasym _ _ hxy
          · exact hp.1 z h
        · rename_i hxy
          have hxy' : less x y = false := by simpa using hxy
          rw [List.pairwise_cons]
          refine ⟨?_, List.pairwise_cons.2 hp⟩
          intro z hz
          rcases List.mem_cons.1 hz with h | h
          · subst h; exact hxy'
          · exact hneg x y z hxy' (hp.1 z h)
    have hfold : ∀ (l acc : List α), List.Pairwise (fun a b => less a b = false) acc →
        List.Pairwise (fun a b => less a b = false)
          (l.foldl (fun accRev x => insertLeft less x accRev) acc) := by
      intro l
      induction l with
      | nil => intro acc h; simpa using h
      | cons x xs ih => intro acc h; exact ih _ (hins x acc h)
    unfold insertionSortLess
    rw [List.pairwise_reverse]
    exact hfold l [] List.Pairwise.nil

/-- Three calls recorded one second apart, the snapshot ordering scenario. -/
def orderCall1 : StartCall :=
  { clock := 0, id := "first", method := "get", path := "/v1/a", startedAt := 1000 }

/-- The second call of the snapshot ordering scenario. -/
def orderCall2 : StartCall :=
  { clock := 0, id := "middle", method := "get", path := "/v1/b", startedAt := 1000 + Second }

/-- The third call of the snapshot ordering scenario; its start time is taken from
the clock. -/
def orderCall3 : StartCall :=
  { clock := 1000 + 2 * Second, id := "last", method := "post", path := "/v1/c", startedAt := 0 }

/-- The score that `scoreAuthLocked` returns. -/
def SessionSelector.scoreOf (s : SessionSelector) (auth : Auth) (model : String)
    (now : Time) : ℚ :=
  (s.scoreAuthLocked auth model now).1

/-- The load count that `scoreAuthLocked` returns. -/
def SessionSelector.loadOf (s : SessionSelector) (auth : Auth) (model : String)
    (now : Time) : Int :=
  (s.scoreAuthLocked auth model now).2.1

/-- The `scored` record built for a candidate by `pickBestCandidateLocked`. -/
def SessionSelector.scoredOf (s : SessionSelector) (model : String) (now : Time)
    (auth : Auth) : scored :=
  { auth := auth, score := s.scoreOf auth model now, load := s.loadOf auth model now }

/-- The two timestamp lists of an auth pruned to the load window, as `cleanupLocked`
and `scoreAuthLocked` do when the window is positive. -/
def authStats.pruned (stats : authStats) (cfg : SessionSelectorConfig) (now : Time) :
    authStats :=
  if cfg.LoadWindow > 0 then
    { stats with
      recentRequests := pruneOldTimestamps stats.recentRequests (Time.Add now (-cfg.LoadWindow))
      pendingRequests :=
        pruneOldTimestamps stats.pendingRequests (Time.Add now (-cfg.LoadWindow)) }
  else stats

/-- The configuration of the selector tests: providers `["codex"]`, TTL and cooldown
of five minutes, failure threshold 1, every other field zero. -/
def testConfig : SessionSelectorConfig :=
  { Enabled := true, Providers := ["codex"], TTL := 5 * Minute, FailureThreshold := 1,
    Cooldown := 5 * Minute, LoadWindow := 0, LoadWeight := 0, HealthWindow := 0,
    WeightSuccess := 0, WeightQuota := 0, Penalty429 := 0, Penalty403 := 0, Penalty5xx := 0 }

/-- An active auth of the given id and provider with a clear quota. -/
def activeAuth (id provider : String) : Auth :=
  { ID := id, Provider := provider, FileName := "", Status := Status.Active,
    Quota := { Exceeded := false, Reason := "", NextRecoverAt := 0 }, ModelStates := [] }

/-- Options carrying the session id `session-1` under the metadata key `session_id`. -/
def sessionOpts : Options :=
  { Metadata := some [("session_id", AnyValue.str "session-1")] }

/-- The recent result samples stored for an auth id, none when the id has no
statistics. -/
def SessionSelector.recentOf (s : SessionSelector) (id : String) : List resultSample :=
  match s.stats id with
  | some stats => stats.recentResults
  | none => []

/-- The weighted health of an auth without samples. -/
def SessionSelector.baseWeighted (s : SessionSelector) (auth : Auth) (model : String)
    (now : Time) : ℚ :=
  if s.cfg.WeightSuccess + s.cfg.WeightQuota > 0 then
    (1 / 2 * s.cfg.WeightSuccess + quotaHealth auth model now * s.cfg.WeightQuota) /
      (s.cfg.WeightSuccess + s.cfg.WeightQuota)
  else 0

/-- The selector a binding lookup hands on. -/
def BindingLookup.state : BindingLookup → SessionSelector
  | BindingLookup.sticky _ s => s
  | BindingLookup.fresh _ s => s

/-- The auth `auth-a` of the selector tests. -/
def authA : Auth := activeAuth "auth-a" "codex"

/-- The auth `auth-b` of the selector tests. -/
def authB : Auth := activeAuth "auth-b" "codex"

/-- An active auth whose id is the empty string. -/
def emptyIDAuth : Auth := activeAuth "" "codex"

/-- The auth `auth-b` with its quota marked exceeded. -/
def exceededB : Auth :=
  { activeAuth "auth-b" "codex" with
    Quota := { Exceeded := true, Reason := "quota", NextRecoverAt := 0 } }

/-- The auth `auth-a` with a quota recovery time one hour ahead and not exceeded. -/
def warnedA : Auth :=
  { activeAuth "auth-a" "codex" with
    Quota := { Exceeded := false, Reason := "", NextRecoverAt := 1000 + 60 * Minute } }

/-- The request context of the selector tests, carrying `session-1`. -/
def sessionCtx : Option Context := WithSessionID (some []) "session-1"

/-- A failed result for `auth-a` with the given provider and HTTP status. -/
def failedResult (provider : String) (status : Int) : Result :=
  { AuthID := "auth-a", Provider := provider, Model := "test-model", Success := false,
    Error := some { HTTPStatus := status, Message := "failed" } }

/-- The test configuration with a cooldown of ten minutes, longer than the TTL. -/
def longCooldownConfig : SessionSelectorConfig :=
  { testConfig with Cooldown := 10 * Minute }

/-- The test configuration without a provider allow-list. -/
def openConfig : SessionSelectorConfig :=
  { testConfig with Providers := [] }

/-- A fresh selector after one pick for `session-1` over the auth with the empty id. -/
def emptyBoundState : SessionSelector :=
  ((NewSessionSelector testConfig).Pick (insertionSlice scored) "session_id" 1000 "codex"
    "test-model" sessionOpts (Except.ok [emptyIDAuth])).2

/-- A fresh selector with the long cooldown after one pick of `auth-a` for
`session-1` at time 1000 and one failed result for it at time 2000. -/
def cooledState (cfg : SessionSelectorConfig) (status : Int) : SessionSelector :=
  (((NewSessionSelector cfg).Pick (insertionSlice scored) "session_id" 1000 "codex"
    "test-model" sessionOpts (Except.ok [authA])).2).RecordResult 2000 sessionCtx
    (failedResult "codex" status)

/-- A fresh test selector after one pick of `auth-a` for `session-1` at time 1000. -/
def boundState : SessionSelector :=
  ((NewSessionSelector testConfig).Pick (insertionSlice scored) "session_id" 1000 "codex"
    "test-model" sessionOpts (Except.ok [authA])).2

/-- The well-formedness invariant of the request log store. -/
structure LogInv (s : requestLogStore) : Prop where
  nodup : s.order.Nodup
  bound : s.order.length ≤ maxRequestLogEntries
  dom : ∀ id, s.entries id ≠ none ↔ id ∈ s.order
  nonempty : "" ∉ s.order
  ident : ∀ id e, s.entries id = some e → e.ID = id

/-- The number of entries a snapshot with the given limit returns from a store
whose order list has `n` ids. -/
def snapshotCount (n : Nat) (limit : Int) : Nat :=
  if limit ≤ 0 ∨ limit > (n : Int) then n else limit.toNat

/-- The entry `StartRequestLog` allocates for a call. -/
def StartCall.entry (c : StartCall) : RequestLogEntry :=
  { ID := c.id
    Method := ToUpper (TrimSpace c.method)
    Path := TrimSpace c.path
    APIKey := ""
    RequestType := ""
    Model := ""
    SessionID := ""
    StatusCode := 0
    ErrorMessage := ""
    StartedAt := c.effectiveStart
    CompletedAt := 0
    DurationMs := 0
    Pending := true }

/-- The fields `update` assigns: each of the four is taken from the update when it
is non-empty there and kept otherwise. -/
def RequestLogEntry.updated (e : RequestLogEntry) (u : RequestLogUpdate) : RequestLogEntry :=
  { e with
    APIKey := if u.APIKey ≠ "" then u.APIKey else e.APIKey
    RequestType := if u.RequestType ≠ "" then u.RequestType else e.RequestType
    Model := if u.Model ≠ "" then u.Model else e.Model
    SessionID := if u.SessionID ≠ "" then u.SessionID else e.SessionID }

/-- The fields `finish` assigns. -/
def RequestLogEntry.finished (e : RequestLogEntry) (status : Int) (errorMessage : String)
    (completedAt : Time) : RequestLogEntry :=
  { e with
    StatusCode := if status > 0 then status else e.StatusCode
    ErrorMessage := if errorMessage ≠ "" then errorMessage else e.ErrorMessage
    CompletedAt := completedAt
    DurationMs :=
      if e.StartedAt ≠ 0 then Duration.Milliseconds (Time.Sub completedAt e.StartedAt)
      else e.DurationMs
    Pending := false }

/-- The operation is a Start of the given id (a call with the empty id does nothing
and does not count). -/
def LogOp.startsID (id : String) : LogOp → Bool
  | LogOp.start _ id' _ _ _ => decide (id' = id ∧ id' ≠ "")
  | _ => false

/-- The operation is a Finish of the given id. -/
def LogOp.finishesID (id : String) : LogOp → Bool
  | LogOp.finish _ id' _ _ _ => decide (id' = id ∧ id' ≠ "")
  | _ => false

/-- A request started at 10s, finished at 20s and started again at 15s. -/
def restartOps : List LogOp :=
  [LogOp.start 0 "req-1" "GET" "/v1/a" (10 * Second),
   LogOp.finish 0 "req-1" 200 "" (20 * Second),
   LogOp.start 0 "req-1" "GET" "/v1/a" (15 * Second)]

/-- A request started at time 7 and updated with an API key and a model. -/
def updatedOps : List LogOp :=
  [LogOp.start 7 "req-1" "get" "/v1/a" 0,
   LogOp.update "req-1" { APIKey := "k", RequestType := "", Model := "m", SessionID := "" }]

/-- A request started at 10s and finished at 20s. -/
def finishedOps : List LogOp :=
  [LogOp.start 0 "req-1" "GET" "/v1/a" (10 * Second),
   LogOp.finish 0 "req-1" 200 "" (20 * Second)]

/-- A failed result whose auth id is the empty string. -/
def emptyIDResult : Result :=
  { AuthID := "", Provider := "codex", Model := "test-model", Success := false,
    Error := some { HTTPStatus := 500, Message := "failed" } }

/-- The arithmetic of `scoreAuthLocked`, on the recent samples of the auth, its quota
score and its load count. -/
def scoreValue (cfg : SessionSelectorConfig) (recent : List resultSample) (quotaScore : ℚ)
    (loadCount : Int) : ℚ :=
  let rates : ℚ × ℚ :=
    if recent.length > 0 then
      let (successCount, count429, count403, count5xx) := countSamples recent
      ((successCount : ℚ) / (recent.length : ℚ),
        clamp01 (((count429 : ℚ) * cfg.Penalty429 + (count403 : ℚ) * cfg.Penalty403 +
          (count5xx : ℚ) * cfg.Penalty5xx) / (recent.length : ℚ)))
    else (1 / 2, 0)
  let successRate := rates.1
  let penaltyRatio := rates.2
  let weightTotal := cfg.WeightSuccess + cfg.WeightQuota
  let weighted : ℚ :=
    if weightTotal > 0 then
      (successRate * cfg.WeightSuccess + quotaScore * cfg.WeightQuota) / weightTotal
    else 0
  let loadPenalty : ℚ :=
    if loadCount > 0 then (loadCount : ℚ) / ((loadCount + 1 : Int) : ℚ) else 0
  let score := weighted - loadPenalty * cfg.LoadWeight
  let score := score * (1 - penaltyRatio)
  if score < 0 then 0 else score

/-- Spec formula: `successRate`, successes over samples, one half with no samples. -/
def specSuccessRate (samples : List resultSample) : ℚ :=
  if samples.length = 0 then 1 / 2
  else ((samples.filter (fun x => x.success)).length : ℚ) / (samples.length : ℚ)

/-- Spec formula: `penaltyRatio`, the penalties of the failed samples with status 429,
with status 403 or 402, and with a status from 500 to 599, summed, divided by the
number of samples and clamped to [0,1]; zero with no samples. -/
def specPenaltyRatio (cfg : SessionSelectorConfig) (samples : List resultSample) : ℚ :=
  if samples.length = 0 then 0
  else
    max 0 (min 1
      ((((samples.filter (fun x => !x.success && decide (x.status = 429))).length : ℚ) *
          cfg.Penalty429 +
        ((samples.filter (fun x =>
          !x.success && (decide (x.status = 403) || decide (x.status = 402)))).length : ℚ) *
          cfg.Penalty403 +
        ((samples.filter (fun x =>
          !x.success && (decide (500 ≤ x.status) && decide (x.status ≤ 599)))).length : ℚ) *
          cfg.Penalty5xx) / (samples.length : ℚ)))

/-- Spec formula: the number of timestamps inside the load window that ends at `now`. -/
def specWindowCount (values : List Time) (now : Time) (window : Duration) : Int :=
  ((values.filter (fun v => decide (now - window ≤ v))).length : Int)

/-- Spec formula: `loadCount`, the number of recent plus pending timestamps inside the
load window; zero for an auth without statistics. -/
def specLoadCount (cfg : SessionSelectorConfig) (stats : Option authStats) (now : Time) : Int :=
  match stats with
  | none => 0
  | some st =>
    specWindowCount st.recentRequests now cfg.LoadWindow +
      specWindowCount st.pendingRequests now cfg.LoadWindow

/-- Spec formula: `weighted`. -/
def specWeighted (cfg : SessionSelectorConfig) (successRate quotaScore : ℚ) : ℚ :=
  (successRate * cfg.WeightSuccess + quotaScore * cfg.WeightQuota) /
    (cfg.WeightSuccess + cfg.WeightQuota)

/-- Spec formula: `loadPenalty`. -/
def specLoadPenalty (loadCount : Int) : ℚ := (loadCount : ℚ) / ((loadCount : ℚ) + 1)

/-- Spec formula: `score`. -/
def specScore (cfg : SessionSelectorConfig) (samples : List resultSample) (quotaScore : ℚ)
    (loadCount : Int) : ℚ :=
  max 0 (specWeighted cfg (specSuccessRate samples) quotaScore -
      specLoadPenalty loadCount * cfg.LoadWeight) *
    (1 - specPenaltyRatio cfg samples)

/-- The test configuration with the weights 1 and -2. -/
def skewedConfig : SessionSelectorConfig :=
  { testConfig with WeightSuccess := 1, WeightQuota := -2 }

/-- A successful result for `auth-a`. -/
def okResult : Result :=
  { AuthID := "auth-a", Provider := "codex", Model := "test-model", Success := true,
    Error := none }

/-- A fresh test selector after two results for `auth-a`, the first recorded with the
clock reading 640s and the second with the earlier reading 1s. -/
def unorderedState : SessionSelector :=
  ((NewSessionSelector testConfig).RecordResult (640 * Second) none okResult).RecordResult
    (1 * Second) none okResult

/-- The test configuration with load weight 1. -/
def loadedConfig : SessionSelectorConfig :=
  { testConfig with LoadWeight := 1 }

/-- A selector with load weight 1 after one pick of `auth-a` at time 1000. -/
def loadedState : SessionSelector :=
  ((NewSessionSelector loadedConfig).Pick (insertionSlice scored)
    "session_id" 1000 "codex" "test-model" sessionOpts (Except.ok [authA])).2

/-- The comparison is a strict weak ordering on the elements of the slice: asymmetric
and negatively transitive there. -/
def StrictWeakOn {α : Type} (less : α → α → Bool) (l : List α) : Prop :=
  (∀ a ∈ l, ∀ b ∈ l, less a b = true → less b a = false) ∧
  (∀ a ∈ l, ∀ b ∈ l, ∀ c ∈ l, less a b = false → less b c = false → less a c = false)

/-- Spec formula: candidate `d` is preferred to candidate `c` in the order
(score desc, load asc, id asc) with scores within 1e-4 taken as equal. -/
def specPreferred (d c : scored) : Prop :=
  d.score - c.score > 1 / 10000 ∨
  (|d.score - c.score| ≤ 1 / 10000 ∧ d.load < c.load) ∨
  (|d.score - c.score| ≤ 1 / 10000 ∧ d.load = c.load ∧ d.auth.ID < c.auth.ID)

/-- The auth `auth-c`. -/
def authC : Auth := activeAuth "auth-c" "codex"

/-- The test configuration with the weights 1 and 7999. -/
def closeConfig : SessionSelectorConfig :=
  { testConfig with WeightSuccess := 1, WeightQuota := 7999 }

/-- A successful result for `auth-c`. -/
def okResultC : Result :=
  { AuthID := "auth-c", Provider := "codex", Model := "test-model", Success := true,
    Error := none }

/-- A fresh selector with the weights 1 and 7999 after a failed result with status
400 for `auth-a` and a successful result for `auth-c`, both at time 1000. -/
def closeState : SessionSelector :=
  ((NewSessionSelector closeConfig).RecordResult 1000 none (failedResult "codex" 400)).RecordResult
    1000 none okResultC

/-- The quota `quotaHealth` reads: that of the model's state when the model is
non-empty and has one, the auth's own quota otherwise. -/
def governingQuota (auth : Auth) (model : String) : QuotaState :=
  if model ≠ "" then
    match auth.ModelStates.lookup model with
    | some state => state.Quota
    | none => auth.Quota
  else auth.Quota

/-- An auth whose quota is marked exceeded with a recovery time one minute before
the time ten minutes, the input of `TestResolveAuthCooldown_IgnoresExpiredQuota`. -/
def expiredAuth : Auth :=
  { activeAuth "auth-a" "codex" with
    Quota := { Exceeded := true, Reason := "codex_5h_limit", NextRecoverAt := 9 * Minute } }

/-- The auth `expiredAuth` with the exceeded flag cleared. -/
def clearedAuth : Auth :=
  { activeAuth "auth-a" "codex" with
    Quota := { Exceeded := false, Reason := "codex_5h_limit", NextRecoverAt := 9 * Minute } }

/-- An auth with a clear quota of its own and, for the model `gpt-5`, a quota with a
recovery time one hour ahead of time 1000 that is not exceeded. -/
def modelWarnedAuth : Auth :=
  { activeAuth "auth-a" "codex" with
    ModelStates :=
      [("gpt-5", { Quota := { Exceeded := false, Reason := "", NextRecoverAt := 1000 + 60 * Minute } })] }

/-- The test configuration with the weights -1 and 3. -/
def negativeWeightConfig : SessionSelectorConfig :=
  { testConfig with WeightSuccess := -1, WeightQuota := 3 }

/-- One `time.Hour`. -/
def Hour : Duration := 60 * Minute

/-- Modelled from the spec: the candidate cooldowns of `resolveAuthCooldown`
(section 4.1, "gather candidate cooldowns from the global `auth.quota` and every
`auth.modelStates[*].quota`"). The entries of the map are the first matches of the
keys of the association list. -/
def cooldownCandidates (auth : Auth) : List QuotaState :=
  auth.Quota ::
    (auth.ModelStates.map Prod.fst).dedup.filterMap
      (fun model => (auth.ModelStates.lookup model).map (fun state => state.Quota))

/-- Modelled from the spec: the choice of `resolveAuthCooldown` among the candidates
that survive (section 4.1, "choose the one with the earliest `nextRecoverAt`"); of
two candidates with the same time the one met first is kept. -/
def earliestRecover : List QuotaState → Option QuotaState
  | [] => none
  | q :: rest =>
    match earliestRecover rest with
    | none => some q
    | some best => if Time.Before best.NextRecoverAt q.NextRecoverAt then some best else some q

/-- Modelled from the spec: the function `resolveAuthCooldown(auth, now)` of the
management handlers (section 4.1), of which only the tests are among the files
embedded here. A candidate is included only if `exceeded = true` and
`nextRecoverAt > now`; the reason and time of the earliest one are returned with
`active = true`; if no candidate survives `active = false`. -/
def resolveAuthCooldown (auth : Auth) (now : Time) : Bool × String × Time :=
  match earliestRecover ((cooldownCandidates auth).filter
      (fun q => q.Exceeded && Time.After q.NextRecoverAt now)) with
  | some q => (true, q.Reason, q.NextRecoverAt)
  | none => (false, "", 0)

/-- The auth of `TestResolveAuthCooldown_PrefersEarliestRecoverTime`, for `now` = 1000:
the weekly limit of the auth recovers in seven days, the limit of `gpt-5` in five
hours. -/
def twoLimitsAuth : Auth :=
  { activeAuth "auth-a" "codex" with
    Quota := { Exceeded := true, Reason := "codex_weekly_limit",
               NextRecoverAt := 1000 + 7 * 24 * Hour }
    ModelStates :=
      [("gpt-5", { Quota := { Exceeded := true, Reason := "codex_5h_limit",
                              NextRecoverAt := 1000 + 5 * Hour } })] }

/-- The auth of `TestResolveAuthCooldown_IgnoresExpiredQuota`, for `now` = 10 minutes:
its only exceeded quota recovered one minute ago. -/
def recoveredAuth : Auth :=
  { activeAuth "auth-a" "codex" with
    Quota := { Exceeded := true, Reason := "codex_5h_limit",
               NextRecoverAt := 10 * Minute + (-1) * Minute } }

/-- The sample `RecordResult` appends for a result at time `now`: its status is the
HTTP status of the error, 0 without error. -/
def sampleOf (now : Time) (result : Result) : resultSample :=
  { timestamp := now
    success := result.Success
    status :=
      match result.Error with
      | some err => err.HTTPStatus
      | none => 0 }

/-- A sequence of `RecordResult` calls under one request context, each with its
clock reading. -/
def SessionSelector.recordAll (s : SessionSelector) (ctx : Option Context) :
    List (Time × Result) → SessionSelector
  | [] => s
  | call :: rest => (s.RecordResult call.1 ctx call.2).recordAll ctx rest

/-- The test configuration with failure threshold 3. -/
def threeStrikesConfig : SessionSelectorConfig :=
  { testConfig with FailureThreshold := 3 }

/-- A fresh selector with failure threshold 3 after one pick of `auth-a` for
`session-1` at time 1000. -/
def threeStrikesState : SessionSelector :=
  ((NewSessionSelector threeStrikesConfig).Pick (insertionSlice scored) "session_id" 1000
    "codex" "test-model" sessionOpts (Except.ok [authA])).2

/-- The test configuration with health window 2. -/
def smallWindowConfig : SessionSelectorConfig :=
  { testConfig with HealthWindow := 2 }

/-- A fresh selector with health window 2 after two results for `auth-a`, a failure
at time 1000 and a success at time 2000. -/
def smallWindowState : SessionSelector :=
  ((NewSessionSelector smallWindowConfig).RecordResult 1000 none
    (failedResult "codex" 500)).RecordResult 2000 none okResult

/-- One call of the selector's public API: `Pick` with its clock reading, its
arguments and what `getAvailableAuths` returned; `RecordResult` with its clock
reading; `UpdateConfig`. -/
inductive SelOp where
  | pick (now : Time) (provider model : String) (opts : Options)
      (available : Except Error (List Auth))
  | record (now : Time) (ctx : Option Context) (result : Result)
  | config (cfg : SessionSelectorConfig)

/-- The effect of one call on the selector. -/
def SelOp.apply (srt : SortSlice scored) (metadataKey : String) (s : SessionSelector) :
    SelOp → SessionSelector
  | SelOp.pick now provider model opts available =>
    (s.Pick srt metadataKey now provider model opts available).2
  | SelOp.record now ctx result => s.RecordResult now ctx result
  | SelOp.config cfg => s.UpdateConfig cfg

/-- The selector after a sequence of calls on `NewSessionSelector cfg`. -/
def runSel (srt : SortSlice scored) (metadataKey : String) (cfg : SessionSelectorConfig)
    (ops : List SelOp) : SessionSelector :=
  ops.foldl (SelOp.apply srt metadataKey) (NewSessionSelector cfg)

/-- The clock reading of a call, none for `UpdateConfig`. -/
def SelOp.clock : SelOp → Option Time
  | SelOp.pick now _ _ _ _ => some now
  | SelOp.record now _ _ => some now
  | SelOp.config _ => none

/-- Both timestamp lists of every auth with statistics satisfy `Q`. -/
def StatsAll (Q : List Time → Prop) (stats : String → Option authStats) : Prop :=
  ∀ id st, stats id = some st → Q st.recentRequests ∧ Q st.pendingRequests

/-- A pick of `auth-a` at time 1000, a failed result at 2000 and a pick among two
auths at 3000. -/
def timelineOps : List SelOp :=
  [SelOp.pick 1000 "codex" "test-model" sessionOpts (Except.ok [authA]),
   SelOp.record 2000 sessionCtx (failedResult "codex" 500),
   SelOp.pick 3000 "codex" "test-model" sessionOpts (Except.ok [authA, authB])]

/-- A pick of `auth-a` at time 1000 and, twenty minutes later, a pick for which
`getAvailableAuths` returned an error. -/
def failedPickOps : List SelOp :=
  [SelOp.pick 1000 "codex" "test-model" sessionOpts (Except.ok [authA]),
   SelOp.pick (1000 + 20 * Minute) "codex" "test-model" sessionOpts
     (Except.error { HTTPStatus := 503, Message := "no auth available" })]

/-! ## Theorems -/

/-! ## Request log: invariant and helper lemmas -/

theorem evictIDs_apply (ids : List String) (m : String → Option RequestLogEntry) (x : String) :
    evictIDs m ids x = if x ∈ ids ∧ x ≠ "" then none else m x := by
  induction ids generalizing m with
  | nil => simp [evictIDs]
  | cons y ys ih =>
    simp only [evictIDs]
    by_cases hy : y = ""
    · subst hy
      simp only [ne_eq, not_true_eq_false, ↓reduceIte, ih, List.mem_cons]
      by_cases hx : x = ""
      · simp [hx]
      · simp [hx]
    · simp only [ne_eq, hy, not_false_eq_true, ↓reduceIte, ih, List.mem_cons, mapDelete]
      by_cases hxy : x = y
      · subst hxy; simp [hy]
      · simp [hxy]

theorem logInv_empty : LogInv newRequestLogStore :=
  ⟨List.nodup_nil, Nat.zero_le _, fun id => by simp [newRequestLogStore],
    by simp [newRequestLogStore], fun id e h => by simp [newRequestLogStore] at h⟩

theorem upsert_existing (s : requestLogStore) (id : String) (entry existing : RequestLogEntry)
    (hid : id ≠ "") (hex : s.entries id = some existing) :
    s.upsert id (some entry) =
      { order := s.order
        entries := mapSet s.entries id
          { existing with
            Method := entry.Method
            Path := entry.Path
            StartedAt := entry.StartedAt
            Pending := entry.Pending } } := by
  simp [requestLogStore.upsert, hid, hex]

theorem upsert_fresh (s : requestLogStore) (id : String) (entry : RequestLogEntry)
    (hid : id ≠ "") (hex : s.entries id = none) :
    s.upsert id (some entry) =
      { order := (s.order ++ [id]).drop ((s.order ++ [id]).length - maxRequestLogEntries)
        entries := evictIDs (mapSet s.entries id entry)
          ((s.order ++ [id]).take ((s.order ++ [id]).length - maxRequestLogEntries)) } := by
  simp only [requestLogStore.upsert, hid, hex, ↓reduceIte]
  split
  · rfl
  · rename_i h
    have h0 : (s.order ++ [id]).length - maxRequestLogEntries = 0 := by omega
    rw [h0]
    simp only [List.drop_zero, List.take_zero, evictIDs]

theorem mem_drop_iff_of_nodup {l : List String} (hl : l.Nodup) (n : Nat) (x : String) :
    x ∈ l.drop n ↔ x ∈ l ∧ x ∉ l.take n := by
  have h := List.take_append_drop n l
  have hd : (l.take n ++ l.drop n).Nodup := by rw [h]; exact hl
  rw [List.nodup_append] at hd
  constructor
  · intro hx
    exact ⟨List.mem_of_mem_drop hx, fun ht => hd.2.2 ht hx⟩
  · intro ⟨hx, hnt⟩
    rw [← h] at hx
    rcases List.mem_append.1 hx with h1 | h1
    · exact absurd h1 hnt
    · exact h1

theorem logInv_upsert {s : requestLogStore} (hs : LogInv s) (id : String)
    (entry : RequestLogEntry) (hident : entry.ID = id) : LogInv (s.upsert id (some entry)) := by
  by_cases hid : id = ""
  · simpa [requestLogStore.upsert, hid] using hs
  · cases hex : s.entries id with
    | some existing =>
      rw [upsert_existing s id entry existing hid hex]
      refine ⟨hs.nodup, hs.bound, ?_, hs.nonempty, ?_⟩
      · intro x
        simp only [mapSet]
        by_cases hx : x = id
        · subst hx
          simp only [↓reduceIte, ne_eq, reduceCtorEq, not_false_eq_true, true_iff]
          exact (hs.dom x).1 (by simp [hex])
        · simp only [hx, ↓reduceIte]
          exact hs.dom x
      · intro x e hx
        simp only [mapSet] at hx
        by_cases hxi : x = id
        · subst hxi
          simp only [↓reduceIte, Option.some.injEq] at hx
          subst hx
          exact hs.ident x existing hex
        · simp only [hxi, ↓reduceIte] at hx
          exact hs.ident x e hx
    | none =>
      rw [upsert_fresh s id entry hid hex]
      have hlen : (s.order ++ [id]).length -
          ((s.order ++ [id]).length - maxRequestLogEntries) ≤ maxRequestLogEntries := by
        have := hs.bound
        simp only [List.length_append, List.length_singleton]
        omega
      generalize (s.order ++ [id]).length - maxRequestLogEntries = k at hlen ⊢
      have hnotin : id ∉ s.order := fun h => ((hs.dom id).2 h) hex
      have hnd : (s.order ++ [id]).Nodup := by
        rw [List.nodup_append]
        refine ⟨hs.nodup, List.nodup_singleton _, ?_⟩
        intro a ha hb
        rw [List.mem_singleton] at hb
        subst hb
        exact hnotin ha
      have hne : "" ∉ s.order ++ [id] := by
        intro h
        rcases List.mem_append.1 h with h | h
        · exact hs.nonempty h
        · exact hid (List.mem_singleton.1 h).symm
      refine ⟨?_, ?_, ?_, ?_, ?_⟩
      · exact List.Nodup.sublist (List.drop_sublist _ _) hnd
      · simpa only [List.length_drop] using hlen
      · intro x
        simp only [evictIDs_apply, mapSet]
        rw [mem_drop_iff_of_nodup hnd]
        by_cases hx0 : x = ""
        · subst hx0
          have h1 : ¬ ("" = id) := fun h => hid h.symm
          have h2 : s.entries "" = none := by
            by_contra h
            exact hs.nonempty ((hs.dom "").1 h)
          simp [h1, h2, hne]
        · by_cases hxt : x ∈ (s.order ++ [id]).take k
          · simp [hxt, hx0]
          · simp only [hxt, false_and, ↓reduceIte, ne_eq, not_false_eq_true, and_true,
              List.mem_append, List.mem_singleton]
            by_cases hxi : x = id
            · simp [hxi]
            · simp only [hxi, ↓reduceIte, or_false]
              exact hs.dom x
      · exact fun h => hne (List.mem_of_mem_drop h)
      · intro x e hx
        simp only [evictIDs_apply, mapSet] at hx
        split at hx
        · exact absurd hx (by simp)
        · by_cases hxi : x = id
          · subst hxi
            simp only [↓reduceIte, Option.some.injEq] at hx
            subst hx
            exact hident
          · simp only [hxi, ↓reduceIte] at hx
            exact hs.ident x e hx

theorem logInv_modify {s : requestLogStore} (hs : LogInv s) (id : String)
    (e e' : RequestLogEntry) (hex : s.entries id = some e) (hid : e'.ID = e.ID) :
    LogInv { order := s.order, entries := mapSet s.entries id e' } := by
  refine ⟨hs.nodup, hs.bound, ?_, hs.nonempty, ?_⟩
  · intro x
    simp only [mapSet]
    by_cases hx : x = id
    · subst hx
      simp only [↓reduceIte, ne_eq, reduceCtorEq, not_false_eq_true, true_iff]
      exact (hs.dom x).1 (by simp [hex])
    · simp only [hx, ↓reduceIte]
      exact hs.dom x
  · intro x y hx
    simp only [mapSet] at hx
    by_cases hxi : x = id
    · subst hxi
      simp only [↓reduceIte, Option.some.injEq] at hx
      subst hx
      rw [hid]
      exact hs.ident x e hex
    · simp only [hxi, ↓reduceIte] at hx
      exact hs.ident x y hx

theorem logInv_update {s : requestLogStore} (hs : LogInv s) (id : String)
    (u : RequestLogUpdate) : LogInv (s.update id u) := by
  unfold requestLogStore.update
  split
  · exact hs
  · split
    · exact hs
    · rename_i e hex
      refine logInv_modify hs id e _ hex ?_
      dsimp only
      split_ifs <;> rfl

theorem logInv_finish {s : requestLogStore} (hs : LogInv s) (id : String) (status : Int)
    (msg : String) (completedAt : Time) : LogInv (s.finish id status msg completedAt) := by
  unfold requestLogStore.finish
  split
  · exact hs
  · split
    · exact hs
    · rename_i e hex
      refine logInv_modify hs id e _ hex ?_
      dsimp only
      split_ifs <;> rfl

theorem logInv_apply {s : requestLogStore} (hs : LogInv s) (op : LogOp) :
    LogInv (LogOp.apply s op) := by
  cases op with
  | start clock id method path startedAt =>
    simp only [LogOp.apply, StartRequestLog]
    split
    · exact hs
    · exact logInv_upsert hs id _ rfl
  | update id u =>
    simp only [LogOp.apply, UpdateRequestLog]
    split
    · exact hs
    · exact logInv_update hs id u
  | finish clock id status msg completedAt =>
    simp only [LogOp.apply, FinishRequestLog]
    split
    · exact hs
    · exact logInv_finish hs id status _ _

theorem runLog_snoc (ops : List LogOp) (op : LogOp) :
    runLog (ops ++ [op]) = LogOp.apply (runLog ops) op := by
  simp [runLog, List.foldl_append]

theorem logInv_runLog (ops : List LogOp) : LogInv (runLog ops) := by
  induction ops using List.reverseRecOn with
  | nil => exact logInv_empty
  | append_singleton ops op ih =>
    rw [runLog_snoc]
    exact logInv_apply ih op

set_option maxRecDepth 100000 in
theorem reqIndex_reqID : ∀ i < 501, reqIndex (reqID i) = i := by decide

theorem snapshotCollect_eq (entries : String → Option RequestLogEntry) (limit : Nat)
    (ids : List String) (acc : List RequestLogEntry) :
    snapshotCollect entries limit ids acc =
      acc ++ (ids.filterMap entries).take (limit - acc.length) := by
  induction ids generalizing acc with
  | nil => simp [snapshotCollect]
  | cons id rest ih =>
    simp only [snapshotCollect]
    by_cases hlt : acc.length < limit
    · simp only [hlt, ↓reduceIte]
      cases hid : entries id with
      | none => simp [ih, List.filterMap_cons, hid]
      | some e =>
        simp only [ih, List.filterMap_cons, hid, List.length_append, List.length_singleton,
          List.append_assoc, List.singleton_append]
        have h1 : limit - acc.length = (limit - (acc.length + 1)) + 1 := by omega
        rw [h1, List.take_succ_cons]
    · have h0 : limit - acc.length = 0 := by omega
      simp [hlt, h0]

theorem filterMap_entries_of_present {s : requestLogStore} (hs : LogInv s) :
    ∀ ids : List String, (∀ id ∈ ids, id ∈ s.order) →
      (ids.filterMap s.entries).map RequestLogEntry.ID = ids := by
  intro ids
  induction ids with
  | nil => intro _; rfl
  | cons id rest ih =>
    intro h
    have hin : id ∈ s.order := h id (List.mem_cons_self _ _)
    cases hid : s.entries id with
    | none => exact absurd hid ((hs.dom id).2 hin)
    | some e =>
      simp only [List.filterMap_cons, hid, List.map_cons]
      rw [hs.ident id e hid, ih (fun x hx => h x (List.mem_cons_of_mem _ hx))]

theorem snapshotCount_le (n : Nat) (limit : Int) : snapshotCount n limit ≤ n := by
  unfold snapshotCount
  split
  · exact Nat.le_refl n
  · omega

/-- The entries a snapshot collects before sorting. -/
theorem snapshot_collected {s : requestLogStore} (hs : LogInv s) (limit : Int) :
    (snapshotCollect s.entries (snapshotCount s.order.length limit) s.order.reverse []).map
        RequestLogEntry.ID =
      (s.order.drop (s.order.length - snapshotCount s.order.length limit)).reverse := by
  rw [snapshotCollect_eq]
  simp only [List.nil_append, List.length_nil, Nat.sub_zero]
  rw [List.map_take]
  rw [filterMap_entries_of_present hs s.order.reverse (fun id h => List.mem_reverse.1 h)]
  exact List.take_reverse

theorem snapshot_eq (srt : SortSlice RequestLogEntry) (s : requestLogStore) (limit : Int) :
    s.snapshot srt limit =
      srt.sort startedAfter
        (snapshotCollect s.entries (snapshotCount s.order.length limit) s.order.reverse []) := rfl

theorem snapshot_ids_perm (srt : SortSlice RequestLogEntry) {s : requestLogStore}
    (hs : LogInv s) (limit : Int) :
    List.Perm ((s.snapshot srt limit).map RequestLogEntry.ID)
      (s.order.drop (s.order.length - snapshotCount s.order.length limit)) := by
  rw [snapshot_eq]
  refine ((srt.perm _ _).map _).trans ?_
  rw [snapshot_collected hs]
  exact List.reverse_perm _

theorem snapshot_stored (srt : SortSlice RequestLogEntry) {s : requestLogStore}
    (hs : LogInv s) (limit : Int) :
    ∀ e ∈ s.snapshot srt limit, s.entries e.ID = some e := by
  intro e he
  rw [snapshot_eq] at he
  have h1 := (srt.perm _ _).mem_iff.1 he
  rw [snapshotCollect_eq] at h1
  simp only [List.nil_append] at h1
  have h2 := List.mem_of_mem_take h1
  rw [List.mem_filterMap] at h2
  obtain ⟨id, _, hid⟩ := h2
  rw [hs.ident id e hid]
  exact hid

theorem strictWeak_startedAfter : StrictWeak startedAfter := by
  constructor
  · intro a b h
    unfold startedAfter Time.After at *
    simp only [decide_eq_true_eq, decide_eq_false_iff_not, Time] at *
    omega
  · intro a b c h1 h2
    unfold startedAfter Time.After at *
    simp only [decide_eq_true_eq, decide_eq_false_iff_not, Time] at *
    omega

theorem startAll_snoc (calls : List StartCall) (c : StartCall) :
    startAll (calls ++ [c]) =
      StartRequestLog (startAll calls) c.clock c.id c.method c.path c.startedAt := by
  simp only [startAll, List.map_append, List.map_cons, List.map_nil, runLog_snoc]
  rfl

theorem logInv_startAll (calls : List StartCall) : LogInv (startAll calls) :=
  logInv_runLog _

theorem drop_snoc_drop (ids : List String) (x : String) (m : Nat) :
    ((ids.drop (ids.length - m)) ++ [x]).drop (((ids.drop (ids.length - m)) ++ [x]).length - m) =
      (ids ++ [x]).drop ((ids ++ [x]).length - m) := by
  have h1 : ids.drop (ids.length - m) ++ [x] = (ids ++ [x]).drop (ids.length - m) := by
    rw [List.drop_append_of_le_length (Nat.sub_le _ _)]
  rw [h1, List.drop_drop]
  congr 1
  simp only [List.length_drop, List.length_append, List.length_singleton]
  omega

theorem startAll_order (calls : List StartCall) :
    (calls.map StartCall.id).Nodup → (∀ c ∈ calls, c.id ≠ "") →
      (startAll calls).order =
        (calls.map StartCall.id).drop ((calls.map StartCall.id).length - maxRequestLogEntries) := by
  induction calls using List.reverseRecOn with
  | nil => intro _ _; rfl
  | append_singleton calls c ih =>
    intro hnd hne
    simp only [List.map_append, List.map_cons, List.map_nil] at hnd ⊢
    have hnd' : (calls.map StartCall.id).Nodup := (List.nodup_append.1 hnd).1
    have hc : c.id ∉ calls.map StartCall.id := by
      intro h
      exact (List.nodup_append.1 hnd).2.2 h (List.mem_singleton_self _)
    have hcne : c.id ≠ "" := hne c (by simp)
    have ih' := ih hnd' (fun x hx => hne x (by simp [hx]))
    have hs := logInv_startAll calls
    have hnone : (startAll calls).entries c.id = none := by
      by_contra h
      have h1 := (hs.dom c.id).1 h
      rw [ih'] at h1
      exact hc (List.mem_of_mem_drop h1)
    rw [startAll_snoc]
    simp only [StartRequestLog, hcne, ↓reduceIte]
    rw [upsert_fresh _ _ _ hcne hnone]
    simp only
    rw [ih']
    exact drop_snoc_drop _ _ _

theorem collected_stored {s : requestLogStore} (hs : LogInv s) (k : Nat) (ids : List String) :
    ∀ e ∈ snapshotCollect s.entries k ids [], s.entries e.ID = some e := by
  intro e he
  rw [snapshotCollect_eq] at he
  simp only [List.nil_append] at he
  have h2 := List.mem_of_mem_take he
  rw [List.mem_filterMap] at h2
  obtain ⟨id, _, hid⟩ := h2
  rw [hs.ident id e hid]
  exact hid

theorem startAll_entry (calls : List StartCall) :
    (calls.map StartCall.id).Nodup → (∀ c ∈ calls, c.id ≠ "") →
      ∀ c ∈ calls, ∀ e, (startAll calls).entries c.id = some e → e = c.entry := by
  induction calls using List.reverseRecOn with
  | nil => intro _ _ c hc; simp at hc
  | append_singleton calls c' ih =>
    intro hnd hne c hc e he
    simp only [List.map_append, List.map_cons, List.map_nil] at hnd
    have hnd' : (calls.map StartCall.id).Nodup := (List.nodup_append.1 hnd).1
    have hc' : c'.id ∉ calls.map StartCall.id := by
      intro h
      exact (List.nodup_append.1 hnd).2.2 h (List.mem_singleton_self _)
    have hcne : c'.id ≠ "" := hne c' (by simp)
    have hne' : ∀ x ∈ calls, x.id ≠ "" := fun x hx => hne x (by simp [hx])
    have hs := logInv_startAll calls
    have hnone : (startAll calls).entries c'.id = none := by
      by_contra h
      have h1 := (hs.dom c'.id).1 h
      rw [startAll_order calls hnd' hne'] at h1
      exact hc' (List.mem_of_mem_drop h1)
    rw [startAll_snoc] at he
    simp only [StartRequestLog, hcne, ↓reduceIte] at he
    rw [upsert_fresh _ _ _ hcne hnone] at he
    generalize ((startAll calls).order ++ [c'.id]).length - maxRequestLogEntries = k at he
    simp only [evictIDs_apply, mapSet] at he
    split at he
    · exact absurd he (by simp)
    · rcases List.mem_append.1 hc with hc1 | hc1
      · have hne2 : c.id ≠ c'.id := by
          intro h
          exact hc' (h ▸ List.mem_map_of_mem _ hc1)
        simp only [hne2, ↓reduceIte] at he
        exact ih hnd' hne' c hc1 e he
      · rw [List.mem_singleton] at hc1
        subst hc1
        simp only [↓reduceIte, Option.some.injEq] at he
        rw [← he]
        rfl

theorem reqID_nodup : ((List.range 501).map reqID).Nodup := by
  refine List.Nodup.map_on ?_ (List.nodup_range 501)
  intro i hi j hj h
  have h1 := reqIndex_reqID i (List.mem_range.1 hi)
  have h2 := reqIndex_reqID j (List.mem_range.1 hj)
  rw [← h1, ← h2, h]

set_option maxRecDepth 100000 in
theorem reqID_ne_empty : ∀ i < 501, reqID i ≠ "" := by decide

/-! ## Selector: helper lemmas -/

/-! ## Selector: state lemmas -/

theorem cleanupLocked_cfg (s : SessionSelector) (now : Time) :
    (s.cleanupLocked now).cfg = s.cfg := by
  unfold SessionSelector.cleanupLocked
  split <;> rfl

theorem cleanupLocked_sessions (s : SessionSelector) (now : Time) (k : String) :
    (s.cleanupLocked now).sessions k =
      match s.sessions k with
      | none => none
      | some b => if Time.Before b.lastUsed (Time.Add now (-s.cfg.TTL)) then none else some b := by
  unfold SessionSelector.cleanupLocked
  split <;> rfl

theorem cleanupLocked_sessions_sub (s : SessionSelector) (now : Time) (k : String) :
    (s.cleanupLocked now).sessions k = none ∨ (s.cleanupLocked now).sessions k = s.sessions k := by
  rw [cleanupLocked_sessions]
  cases s.sessions k with
  | none => exact Or.inl rfl
  | some b =>
    simp only
    split
    · exact Or.inl rfl
    · exact Or.inr rfl

theorem cleanupLocked_isProviderEnabled (s : SessionSelector) (now : Time) (p : String) :
    (s.cleanupLocked now).isProviderEnabled p = s.isProviderEnabled p := by
  unfold SessionSelector.isProviderEnabled
  rw [cleanupLocked_cfg]

theorem addPending_sessions (s : SessionSelector) (id : String) (now : Time) :
    (s.addPending id now).sessions = s.sessions := by
  unfold SessionSelector.addPending
  split <;> rfl

theorem addPending_cfg (s : SessionSelector) (id : String) (now : Time) :
    (s.addPending id now).cfg = s.cfg := by
  unfold SessionSelector.addPending
  split <;> rfl

theorem scoreAuthLocked_sessions (s : SessionSelector) (a : Auth) (model : String) (now : Time) :
    (s.scoreAuthLocked a model now).2.2.sessions = s.sessions := by
  unfold SessionSelector.scoreAuthLocked
  simp only
  split <;> rfl

theorem scoreAuthLocked_cfg (s : SessionSelector) (a : Auth) (model : String) (now : Time) :
    (s.scoreAuthLocked a model now).2.2.cfg = s.cfg := by
  unfold SessionSelector.scoreAuthLocked
  simp only
  split <;> rfl

theorem scoreAll_sessions (model : String) (now : Time) (cands : List Auth) :
    ∀ (s : SessionSelector) (acc : List scored),
      (scoreAll s model now cands acc).2.sessions = s.sessions := by
  induction cands with
  | nil => intro s acc; rfl
  | cons a rest ih =>
    intro s acc
    simp only [scoreAll]
    rw [ih, scoreAuthLocked_sessions]

theorem scoreAll_cfg (model : String) (now : Time) (cands : List Auth) :
    ∀ (s : SessionSelector) (acc : List scored),
      (scoreAll s model now cands acc).2.cfg = s.cfg := by
  induction cands with
  | nil => intro s acc; rfl
  | cons a rest ih =>
    intro s acc
    simp only [scoreAll]
    rw [ih, scoreAuthLocked_cfg]

theorem scoreAll_auths (model : String) (now : Time) (cands : List Auth) :
    ∀ (s : SessionSelector) (acc : List scored),
      (scoreAll s model now cands acc).1.map scored.auth = acc.map scored.auth ++ cands := by
  induction cands with
  | nil => intro s acc; simp [scoreAll]
  | cons a rest ih =>
    intro s acc
    simp only [scoreAll]
    rw [ih]
    simp

theorem pickBest_sessions (srt : SortSlice scored) (s : SessionSelector) (cands : List Auth)
    (model : String) (now : Time) :
    (s.pickBestCandidateLocked srt cands model now).2.sessions = s.sessions := by
  unfold SessionSelector.pickBestCandidateLocked
  split
  · rfl
  · exact scoreAll_sessions _ _ _ _ _

theorem pickBest_cfg (srt : SortSlice scored) (s : SessionSelector) (cands : List Auth)
    (model : String) (now : Time) :
    (s.pickBestCandidateLocked srt cands model now).2.cfg = s.cfg := by
  unfold SessionSelector.pickBestCandidateLocked
  split
  · rfl
  · exact scoreAll_cfg _ _ _ _ _

theorem pickBest_mem (srt : SortSlice scored) (s : SessionSelector) (cands : List Auth)
    (model : String) (now : Time) (hne : cands ≠ []) :
    ∃ a, (s.pickBestCandidateLocked srt cands model now).1 = some a ∧ a ∈ cands := by
  unfold SessionSelector.pickBestCandidateLocked
  split
  · exact ⟨_, rfl, List.mem_singleton_self _⟩
  · have hperm := srt.perm scoredLess (scoreAll s model now cands []).1
    have hauths := scoreAll_auths model now cands s []
    simp only [List.map_nil, List.nil_append] at hauths
    cases hsorted : srt.sort scoredLess (scoreAll s model now cands []).1 with
    | nil =>
      rw [hsorted] at hperm
      have h0 := hperm.length_eq
      have h1 := congrArg List.length hauths
      simp only [List.length_nil, List.length_map] at h0 h1
      rw [← h0] at h1
      exact absurd (List.length_eq_zero.1 h1.symm) hne
    | cons x xs =>
      refine ⟨x.auth, by simp [hsorted], ?_⟩
      rw [hsorted] at hperm
      have hx : x ∈ (scoreAll s model now cands []).1 := hperm.mem_iff.1 (List.mem_cons_self _ _)
      rw [← hauths]
      exact List.mem_map_of_mem _ hx

theorem pickBest_none (srt : SortSlice scored) (s : SessionSelector) (cands : List Auth)
    (model : String) (now : Time)
    (h : (s.pickBestCandidateLocked srt cands model now).1 = none) : cands = [] := by
  by_contra hne
  obtain ⟨a, ha, _⟩ := pickBest_mem srt s cands model now hne
  rw [h] at ha
  exact absurd ha (by simp)

theorem findAuthByID_some {auths : List Auth} {id : String} {a : Auth}
    (h : findAuthByID auths id = some a) : a ∈ auths ∧ a.ID = id := by
  unfold findAuthByID at h
  split at h
  · exact absurd h (by simp)
  · exact ⟨List.mem_of_find?_eq_some h, by simpa using List.find?_some h⟩

theorem findAuthByID_of_mem {auths : List Auth} {id : String} (hid : id ≠ "")
    (h : ∃ a ∈ auths, a.ID = id) : ∃ a, findAuthByID auths id = some a := by
  unfold findAuthByID
  simp only [hid, ↓reduceIte]
  cases hf : auths.find? (fun auth => decide (auth.ID = id)) with
  | some a => exact ⟨a, rfl⟩
  | none =>
    obtain ⟨a, ha, hai⟩ := h
    have := List.find?_eq_none.1 hf a ha
    simp [hai] at this

theorem mem_filterAuthsByID {auths : List Auth} {ex : String} {a : Auth}
    (h : a ∈ filterAuthsByID auths ex) : a ∈ auths ∧ (ex ≠ "" → a.ID ≠ ex) := by
  unfold filterAuthsByID at h
  split at h
  · rename_i h0
    exact ⟨h, fun hne => absurd h0 hne⟩
  · rw [List.mem_filter] at h
    exact ⟨h.1, fun _ => by simpa using h.2⟩

theorem cleanup_keeps_live (s : SessionSelector) (now : Time) (k : String) (b : sessionBinding)
    (hb : s.sessions k = some b) (hlive : now < b.lastUsed + s.cfg.TTL) :
    (s.cleanupLocked now).sessions k = some b := by
  rw [cleanupLocked_sessions, hb]
  simp only [Time.Before, Time.Add, ite_eq_right_iff, decide_eq_true_eq, reduceCtorEq, imp_false]
  simp only [Time, Duration] at *
  omega

/-- The lookup of a live binding without cooldown whose auth is available returns
that auth at once. -/
theorem lookupBinding_sticky (s : SessionSelector) (now : Time) (provider sessionID : String)
    (available : List Auth) (b : sessionBinding) (a : Auth)
    (hS : sessionID ≠ "") (hb : s.sessions (sessionKey provider sessionID) = some b)
    (hlive : now < b.lastUsed + s.cfg.TTL) (hcool : b.cooldownUntil ≤ now)
    (hfind : findAuthByID available b.authID = some a) :
    s.lookupBinding now true provider sessionID available =
      BindingLookup.sticky a
        (SessionSelector.addPending
          { s with
            sessions :=
              (mapSet s.sessions (sessionKey provider sessionID) { b with lastUsed := now }) }
          a.ID now) := by
  have h1 : Time.After (Time.Add b.lastUsed s.cfg.TTL) now = true := by
    simp only [Time.After, Time.Add, decide_eq_true_eq]
    exact hlive
  have h2 : ¬ (Time.After b.cooldownUntil now = true) := by
    simp only [Time.After, decide_eq_true_eq]
    simp only [Time] at *
    omega
  simp only [SessionSelector.lookupBinding, hS, ne_eq, not_false_eq_true, and_self, ↓reduceIte,
    hb, h1, h2, and_false, hfind, true_and, Bool.false_eq_true]

/-- The lookup of a live binding in cooldown asks for a fresh selection that
excludes the bound auth. -/
theorem lookupBinding_cooldown (s : SessionSelector) (now : Time) (provider sessionID : String)
    (available : List Auth) (b : sessionBinding)
    (hS : sessionID ≠ "") (hb : s.sessions (sessionKey provider sessionID) = some b)
    (hlive : now < b.lastUsed + s.cfg.TTL) (hcool : now < b.cooldownUntil) :
    s.lookupBinding now true provider sessionID available = BindingLookup.fresh b.authID s := by
  have h1 : Time.After (Time.Add b.lastUsed s.cfg.TTL) now = true := by
    simp only [Time.After, Time.Add, decide_eq_true_eq]
    exact hlive
  have h2 : Time.After b.cooldownUntil now = true := by
    simp only [Time.After, decide_eq_true_eq]
    exact hcool
  simp only [SessionSelector.lookupBinding, hS, ne_eq, not_false_eq_true, and_self, ↓reduceIte,
    hb, h1, h2]

/-- What the lookup leaves in the sessions map, in each of its outcomes. -/
theorem lookupBinding_cases (s : SessionSelector) (now : Time) (en : Bool)
    (provider sessionID : String) (available : List Auth) :
    (∃ a s2 b, s.lookupBinding now en provider sessionID available = BindingLookup.sticky a s2 ∧
      en = true ∧ sessionID ≠ "" ∧
      s.sessions (sessionKey provider sessionID) = some b ∧ a ∈ available ∧ a.ID = b.authID ∧
      s2.sessions = mapSet s.sessions (sessionKey provider sessionID) { b with lastUsed := now } ∧
      s2.cfg = s.cfg) ∨
    (∃ ex s2, s.lookupBinding now en provider sessionID available = BindingLookup.fresh ex s2 ∧
      s2.cfg = s.cfg ∧
      (s2.sessions = s.sessions ∨
        s2.sessions = mapDelete s.sessions (sessionKey provider sessionID))) := by
  unfold SessionSelector.lookupBinding
  by_cases hg : en = true ∧ sessionID ≠ ""
  · rw [if_pos hg]
    dsimp only
    cases hb : s.sessions (sessionKey provider sessionID) with
    | none => exact Or.inr ⟨_, _, rfl, rfl, Or.inl rfl⟩
    | some b =>
      dsimp only
      split
      · exact Or.inr ⟨_, _, rfl, rfl, Or.inl rfl⟩
      · split
        · cases hf : findAuthByID available b.authID with
          | none => exact Or.inr ⟨_, _, rfl, rfl, Or.inl rfl⟩
          | some a =>
            have hfa := findAuthByID_some hf
            refine Or.inl ⟨a, _, b, rfl, hg.1, hg.2, rfl, hfa.1, hfa.2, ?_, ?_⟩
            · rw [addPending_sessions]
            · rw [addPending_cfg]
        · exact Or.inr ⟨_, _, rfl, rfl, Or.inr rfl⟩
  · rw [if_neg hg]
    exact Or.inr ⟨_, _, rfl, rfl, Or.inl rfl⟩

/-- The fresh-selection half of `Pick`, once the lookup has asked for it. -/
theorem pick_of_fresh (srt : SortSlice scored) (mk : String) (s : SessionSelector) (now : Time)
    (provider model : String) (opts : Options) (available : List Auth) (ex : String)
    (s2 : SessionSelector)
    (hl : (s.cleanupLocked now).lookupBinding now (s.isProviderEnabled provider) provider
      (extractSessionIDFromOptions mk opts) available = BindingLookup.fresh ex s2) :
    s.Pick srt mk now provider model opts (Except.ok available) =
      match s2.pickBestCandidateLocked srt
          (if (filterAuthsByID available ex).length = 0 then available
            else filterAuthsByID available ex) model now with
      | (none, s3) => (Except.error PickError.indexOutOfRange, s3)
      | (some selected, s3) =>
        (Except.ok selected,
          SessionSelector.addPending
            (if s.isProviderEnabled provider = true ∧ extractSessionIDFromOptions mk opts ≠ "" then
              { s3 with
                sessions :=
                  (mapSet s3.sessions (sessionKey provider (extractSessionIDFromOptions mk opts))
                    { authID := selected.ID, lastUsed := now, failCount := 0, cooldownUntil := 0 }) }
            else s3) selected.ID now) := by
  simp only [SessionSelector.Pick, hl]

/-- The sticky half of `Pick`. -/
theorem pick_of_sticky (srt : SortSlice scored) (mk : String) (s : SessionSelector) (now : Time)
    (provider model : String) (opts : Options) (available : List Auth) (a : Auth)
    (s2 : SessionSelector)
    (hl : (s.cleanupLocked now).lookupBinding now (s.isProviderEnabled provider) provider
      (extractSessionIDFromOptions mk opts) available = BindingLookup.sticky a s2) :
    s.Pick srt mk now provider model opts (Except.ok available) = (Except.ok a, s2) := by
  simp only [SessionSelector.Pick, hl]

/-- Stickiness: for a session-enabled provider and a non-empty session
id whose binding is live (`lastUsed + TTL > now`), not in cooldown
(`cooldownUntil ≤ now`) and bound to a non-empty auth id that is among the available
candidates, `Pick` returns an available auth with that id, and afterwards the
binding has the same `authID`, `failCount` and `cooldownUntil` and `lastUsed = now`. -/
theorem bound_auth_returned (srt : SortSlice scored) (mk : String) (s : SessionSelector) (now : Time)
    (provider model : String) (opts : Options) (available : List Auth) (b : sessionBinding)
    (hen : s.isProviderEnabled provider = true)
    (hS : extractSessionIDFromOptions mk opts ≠ "")
    (hb : s.sessions (sessionKey provider (extractSessionIDFromOptions mk opts)) = some b)
    (hlive : now < b.lastUsed + s.cfg.TTL)
    (hcool : b.cooldownUntil ≤ now)
    (hid : b.authID ≠ "")
    (hmem : ∃ a ∈ available, a.ID = b.authID) :
    ∃ a, (s.Pick srt mk now provider model opts (Except.ok available)).1 = Except.ok a ∧
      a ∈ available ∧ a.ID = b.authID ∧
      (s.Pick srt mk now provider model opts (Except.ok available)).2.sessions
          (sessionKey provider (extractSessionIDFromOptions mk opts)) =
        some { b with lastUsed := now } := by
  obtain ⟨a, hfind⟩ := findAuthByID_of_mem hid hmem
  have hfa := findAuthByID_some hfind
  have hb' := cleanup_keeps_live s now _ b hb hlive
  have hlive' : now < b.lastUsed + (s.cleanupLocked now).cfg.TTL := by
    rw [cleanupLocked_cfg]; exact hlive
  have hl := lookupBinding_sticky (s.cleanupLocked now) now provider _ available b a hS hb'
    hlive' hcool hfind
  rw [← hen] at hl
  rw [pick_of_sticky srt mk s now provider model opts available a _ hl]
  refine ⟨a, rfl, hfa.1, hfa.2, ?_⟩
  simp only [addPending_sessions, mapSet, ↓reduceIte]

/-- Failover on cooldown: for a session-enabled provider and a non-empty
session id whose binding is live (`lastUsed + TTL > now`), in cooldown
(`cooldownUntil > now`) and bound to a non-empty auth id, `Pick` returns an
available auth with a different id whenever the available candidates contain one. -/
theorem cooled_auth_excluded (srt : SortSlice scored) (mk : String) (s : SessionSelector) (now : Time)
    (provider model : String) (opts : Options) (available : List Auth) (b : sessionBinding)
    (hen : s.isProviderEnabled provider = true)
    (hS : extractSessionIDFromOptions mk opts ≠ "")
    (hb : s.sessions (sessionKey provider (extractSessionIDFromOptions mk opts)) = some b)
    (hlive : now < b.lastUsed + s.cfg.TTL)
    (hcool : now < b.cooldownUntil)
    (hid : b.authID ≠ "")
    (hother : ∃ a ∈ available, a.ID ≠ b.authID) :
    ∃ a, (s.Pick srt mk now provider model opts (Except.ok available)).1 = Except.ok a ∧
      a ∈ available ∧ a.ID ≠ b.authID := by
  have hb' := cleanup_keeps_live s now _ b hb hlive
  have hlive' : now < b.lastUsed + (s.cleanupLocked now).cfg.TTL := by
    rw [cleanupLocked_cfg]; exact hlive
  have hl := lookupBinding_cooldown (s.cleanupLocked now) now provider _ available b hS hb'
    hlive' hcool
  rw [← hen] at hl
  rw [pick_of_fresh srt mk s now provider model opts available _ _ hl]
  have hne : filterAuthsByID available b.authID ≠ [] := by
    obtain ⟨a, ha, hai⟩ := hother
    intro h0
    have : a ∈ filterAuthsByID available b.authID := by
      unfold filterAuthsByID
      simp only [hid, ↓reduceIte, List.mem_filter, ha, true_and]
      simpa using hai
    rw [h0] at this
    exact absurd this (List.not_mem_nil _)
  have hlen : ¬ (filterAuthsByID available b.authID).length = 0 := by
    intro h0
    exact hne (List.length_eq_zero.1 h0)
  rw [if_neg hlen]
  obtain ⟨a, ha, hamem⟩ := pickBest_mem srt (s.cleanupLocked now)
    (filterAuthsByID available b.authID) model now hne
  have hf := mem_filterAuthsByID hamem
  refine ⟨a, ?_, hf.1, hf.2 hid⟩
  generalize (s.cleanupLocked now).pickBestCandidateLocked srt
    (filterAuthsByID available b.authID) model now = r at ha
  obtain ⟨r1, r2⟩ := r
  simp only at ha
  subst ha
  rfl

/-- Session scope key: after a successful `Pick` for a session-enabled
provider `P` and a non-empty session id `S`, the sessions map holds at key
`lower(P) + ":" + S` a binding to the returned auth, last used now; and every
binding at another key was there before the call, unchanged. -/
theorem binding_written_at_key (srt : SortSlice scored) (mk : String) (s : SessionSelector) (now : Time)
    (provider model : String) (opts : Options) (available : Except Error (List Auth)) (a : Auth)
    (hen : s.isProviderEnabled provider = true)
    (hS : extractSessionIDFromOptions mk opts ≠ "")
    (hok : (s.Pick srt mk now provider model opts available).1 = Except.ok a) :
    (∃ b, (s.Pick srt mk now provider model opts available).2.sessions
          (ToLower provider ++ ":" ++ extractSessionIDFromOptions mk opts) = some b ∧
        b.authID = a.ID ∧ b.lastUsed = now) ∧
    ∀ k, k ≠ ToLower provider ++ ":" ++ extractSessionIDFromOptions mk opts →
      (s.Pick srt mk now provider model opts available).2.sessions k = none ∨
      (s.Pick srt mk now provider model opts available).2.sessions k = s.sessions k := by
  cases available with
  | error err => simp [SessionSelector.Pick] at hok
  | ok available =>
    have hkey : ToLower provider ++ ":" ++ extractSessionIDFromOptions mk opts =
        sessionKey provider (extractSessionIDFromOptions mk opts) := rfl
    rw [hkey]
    rcases lookupBinding_cases (s.cleanupLocked now) now (s.isProviderEnabled provider) provider
      (extractSessionIDFromOptions mk opts) available with
      ⟨a', s2, b, hl, _, _, hb, _, haid, hs2, _⟩ | ⟨ex, s2, hl, _, hs2⟩
    · rw [pick_of_sticky srt mk s now provider model opts available a' s2 hl] at hok ⊢
      simp only [Except.ok.injEq] at hok
      subst hok
      constructor
      · refine ⟨{ b with lastUsed := now }, ?_, haid.symm, rfl⟩
        simp only [hs2, mapSet, ↓reduceIte]
      · intro k hk
        simp only [hs2, mapSet, hk, ↓reduceIte]
        exact cleanupLocked_sessions_sub s now k
    · rw [pick_of_fresh srt mk s now provider model opts available ex s2 hl] at hok ⊢
      have hs3 := pickBest_sessions srt s2
        (if (filterAuthsByID available ex).length = 0 then available
          else filterAuthsByID available ex) model now
      generalize s2.pickBestCandidateLocked srt
        (if (filterAuthsByID available ex).length = 0 then available
          else filterAuthsByID available ex) model now = r at hok hs3 ⊢
      obtain ⟨r1, s3⟩ := r
      cases r1 with
      | none => simp at hok
      | some sel =>
        simp only [Except.ok.injEq] at hok
        subst hok
        simp only at hs3
        have hg : s.isProviderEnabled provider = true ∧
            extractSessionIDFromOptions mk opts ≠ "" := ⟨hen, hS⟩
        simp only [if_pos hg, addPending_sessions]
        constructor
        · refine ⟨{ authID := sel.ID, lastUsed := now, failCount := 0, cooldownUntil := 0 },
            ?_, rfl, rfl⟩
          simp only [mapSet, ↓reduceIte]
        · intro k hk
          simp only [mapSet, hk, ↓reduceIte, hs3]
          rcases hs2 with h | h
          · rw [h]
            exact cleanupLocked_sessions_sub s now k
          · rw [h]
            simp only [mapDelete, hk, ↓reduceIte]
            exact cleanupLocked_sessions_sub s now k

theorem prune_prune (l : List Time) (c : Time) :
    pruneOldTimestamps (pruneOldTimestamps l c) c = pruneOldTimestamps l c := by
  unfold pruneOldTimestamps
  induction l with
  | nil => rfl
  | cons x xs ih =>
    by_cases h : Time.Before x c = true
    · simp only [List.dropWhile_cons, h, ↓reduceIte, ih]
    · simp only [List.dropWhile_cons, h, ↓reduceIte, Bool.false_eq_true]

theorem pruned_pruned (st : authStats) (cfg : SessionSelectorConfig) (now : Time) :
    (st.pruned cfg now).pruned cfg now = st.pruned cfg now := by
  unfold authStats.pruned
  split
  · simp only [prune_prune]
  · rfl

theorem pruned_recentResults (st : authStats) (cfg : SessionSelectorConfig) (now : Time) :
    (st.pruned cfg now).recentResults = st.recentResults := by
  unfold authStats.pruned
  split <;> rfl

/-- The score and load returned by `scoreAuthLocked` depend only on the
configuration and on the statistics stored under the auth's id. -/
theorem score_congr (s t : SessionSelector) (a : Auth) (model : String) (now : Time)
    (hc : s.cfg = t.cfg) (hs : s.stats a.ID = t.stats a.ID) :
    (s.scoreAuthLocked a model now).1 = (t.scoreAuthLocked a model now).1 ∧
    (s.scoreAuthLocked a model now).2.1 = (t.scoreAuthLocked a model now).2.1 := by
  unfold SessionSelector.scoreAuthLocked
  simp only [hc, hs, and_self]

theorem scoreAuthLocked_stats (s : SessionSelector) (a : Auth) (model : String) (now : Time)
    (x : String) :
    (s.scoreAuthLocked a model now).2.2.stats x =
      if x = a.ID then (s.stats a.ID).map (fun st => st.pruned s.cfg now) else s.stats x := by
  unfold SessionSelector.scoreAuthLocked
  simp only
  cases hst : s.stats a.ID with
  | none =>
    simp only [Option.map_none']
    split
    · rename_i h; rw [h, hst]
    · rfl
  | some st =>
    by_cases hw : s.cfg.LoadWindow > 0
    · simp only [hw, ↓reduceIte, mapSet, Option.map_some', authStats.pruned]
    · simp only [hw, ↓reduceIte, mapSet, Option.map_some', authStats.pruned]

/-- Pruning the timestamp lists first does not change the score or the load. -/
theorem score_pruned (s t : SessionSelector) (a : Auth) (model : String) (now : Time)
    (hc : t.cfg = s.cfg)
    (hs : t.stats a.ID = (s.stats a.ID).map (fun st => st.pruned s.cfg now)) :
    (t.scoreAuthLocked a model now).1 = (s.scoreAuthLocked a model now).1 ∧
    (t.scoreAuthLocked a model now).2.1 = (s.scoreAuthLocked a model now).2.1 := by
  unfold SessionSelector.scoreAuthLocked
  simp only [hc, hs]
  cases hst : s.stats a.ID with
  | none => simp
  | some st =>
    simp only [Option.map_some', pruned_recentResults]
    by_cases hw : s.cfg.LoadWindow > 0
    · simp only [hw, ↓reduceIte, authStats.pruned, prune_prune, and_self]
    · simp only [hw, ↓reduceIte, and_self]

/-- Scoring one auth does not change what scoring another auth returns. -/
theorem score_after (s : SessionSelector) (a a2 : Auth) (model : String) (now : Time) :
    ((s.scoreAuthLocked a model now).2.2.scoreAuthLocked a2 model now).1 =
        (s.scoreAuthLocked a2 model now).1 ∧
    ((s.scoreAuthLocked a model now).2.2.scoreAuthLocked a2 model now).2.1 =
        (s.scoreAuthLocked a2 model now).2.1 := by
  have hcfg := scoreAuthLocked_cfg s a model now
  have hstats := scoreAuthLocked_stats s a model now a2.ID
  by_cases hid : a2.ID = a.ID
  · rw [if_pos hid, ← hid] at hstats
    exact score_pruned s _ a2 model now hcfg hstats
  · rw [if_neg hid] at hstats
    exact score_congr _ s a2 model now hcfg hstats

theorem scoreAll_eq (model : String) (now : Time) (cands : List Auth) :
    ∀ (s : SessionSelector) (acc : List scored),
      (scoreAll s model now cands acc).1 = acc ++ cands.map (s.scoredOf model now) := by
  induction cands with
  | nil => intro s acc; simp [scoreAll]
  | cons a rest ih =>
    intro s acc
    simp only [scoreAll]
    rw [ih]
    simp only [List.append_assoc, List.singleton_append, List.map_cons]
    congr 2
    apply List.map_congr_left
    intro a2 _
    have h := score_after s a a2 model now
    simp only [SessionSelector.scoredOf, SessionSelector.scoreOf, SessionSelector.loadOf, h.1, h.2]

/-- With two candidates the second is returned exactly when it is `less` than the
first under the comparison of `pickBestCandidateLocked`. -/
theorem pickBest_two (srt : SortSlice scored) (s : SessionSelector) (x y : Auth)
    (model : String) (now : Time) :
    (s.pickBestCandidateLocked srt [x, y] model now).1 =
      some (if scoredLess (s.scoredOf model now y) (s.scoredOf model now x) = true then y
        else x) := by
  unfold SessionSelector.pickBestCandidateLocked
  simp only [scoreAll_eq, List.nil_append, List.map_cons, List.map_nil]
  rw [srt.small _ _ (by simp)]
  simp only [insertionSortLess, List.foldl_cons, List.foldl_nil, insertLeft]
  split <;> simp [SessionSelector.scoredOf]

theorem lookupBinding_disabled (s : SessionSelector) (now : Time) (provider sessionID : String)
    (available : List Auth) :
    s.lookupBinding now false provider sessionID available = BindingLookup.fresh "" s := by
  simp [SessionSelector.lookupBinding]

theorem lookupBinding_unbound (s : SessionSelector) (now : Time) (en : Bool)
    (provider sessionID : String) (available : List Auth)
    (h : s.sessions (sessionKey provider sessionID) = none) :
    s.lookupBinding now en provider sessionID available = BindingLookup.fresh "" s := by
  unfold SessionSelector.lookupBinding
  split
  · simp only [h]
  · rfl

theorem filterAuthsByID_empty (auths : List Auth) : filterAuthsByID auths "" = auths := by
  simp [filterAuthsByID]

/-- The result of `Pick` when the lookup asks for a fresh selection without
exclusion among exactly two candidates. -/
theorem pick_two_fresh (srt : SortSlice scored) (mk : String) (s : SessionSelector) (now : Time)
    (provider model : String) (opts : Options) (x y : Auth) (s2 : SessionSelector)
    (hl : (s.cleanupLocked now).lookupBinding now (s.isProviderEnabled provider) provider
      (extractSessionIDFromOptions mk opts) [x, y] = BindingLookup.fresh "" s2) :
    (s.Pick srt mk now provider model opts (Except.ok [x, y])).1 =
      Except.ok (if scoredLess (s2.scoredOf model now y) (s2.scoredOf model now x) = true then y
        else x) := by
  rw [pick_of_fresh srt mk s now provider model opts [x, y] "" s2 hl]
  simp only [filterAuthsByID_empty, List.length_cons, List.length_nil]
  have h2 := pickBest_two srt s2 x y model now
  have h3 : s2.pickBestCandidateLocked srt [x, y] model now =
      (some (if scoredLess (s2.scoredOf model now y) (s2.scoredOf model now x) = true then y
        else x), (s2.pickBestCandidateLocked srt [x, y] model now).2) := Prod.ext h2 rfl
  simp only [OfNat.ofNat_ne_zero, Nat.reduceAdd, ↓reduceIte]
  rw [h3]

theorem scoreAll_stats_none (model : String) (now : Time) (cands : List Auth) :
    ∀ (s : SessionSelector) (acc : List scored) (x : String), s.stats x = none →
      (scoreAll s model now cands acc).2.stats x = none := by
  induction cands with
  | nil => intro s acc x h; exact h
  | cons a rest ih =>
    intro s acc x h
    simp only [scoreAll]
    apply ih
    rw [scoreAuthLocked_stats]
    split
    · rename_i hx
      rw [← hx, h]
      rfl
    · exact h

theorem pickBest_stats_none (srt : SortSlice scored) (s : SessionSelector) (cands : List Auth)
    (model : String) (now : Time) (x : String) (h : s.stats x = none) :
    (s.pickBestCandidateLocked srt cands model now).2.stats x = none := by
  unfold SessionSelector.pickBestCandidateLocked
  split
  · exact h
  · exact scoreAll_stats_none _ _ _ _ _ _ h

theorem pick_cfg (srt : SortSlice scored) (mk : String) (s : SessionSelector) (now : Time)
    (provider model : String) (opts : Options) (available : Except Error (List Auth)) :
    (s.Pick srt mk now provider model opts available).2.cfg = s.cfg := by
  cases available with
  | error err => rfl
  | ok available =>
    rcases lookupBinding_cases (s.cleanupLocked now) now (s.isProviderEnabled provider) provider
      (extractSessionIDFromOptions mk opts) available with
      ⟨a', s2, b, hl, _, _, _, _, _, _, hc⟩ | ⟨ex, s2, hl, hc, _⟩
    · rw [pick_of_sticky srt mk s now provider model opts available a' s2 hl]
      simp only [hc, cleanupLocked_cfg]
    · rw [pick_of_fresh srt mk s now provider model opts available ex s2 hl]
      have hc3 := pickBest_cfg srt s2
        (if (filterAuthsByID available ex).length = 0 then available
          else filterAuthsByID available ex) model now
      generalize s2.pickBestCandidateLocked srt
        (if (filterAuthsByID available ex).length = 0 then available
          else filterAuthsByID available ex) model now = r at hc3 ⊢
      obtain ⟨r1, s3⟩ := r
      simp only at hc3
      cases r1 with
      | none => simp only [hc3, hc, cleanupLocked_cfg]
      | some sel =>
        simp only [addPending_cfg]
        split
        · simp only [hc3, hc, cleanupLocked_cfg]
        · simp only [hc3, hc, cleanupLocked_cfg]

theorem score_no_stats (s : SessionSelector) (a : Auth) (model : String) (now : Time)
    (h : s.stats a.ID = none) :
    s.scoreOf a model now =
        (if s.baseWeighted a model now < 0 then 0 else s.baseWeighted a model now) ∧
    s.loadOf a model now = 0 := by
  unfold SessionSelector.scoreOf SessionSelector.loadOf SessionSelector.scoreAuthLocked
    SessionSelector.baseWeighted
  simp [h]

theorem score_one_429 (s : SessionSelector) (a : Auth) (model : String) (now : Time)
    (st : authStats) (t : Time) (h : s.stats a.ID = some st)
    (hr : st.recentResults = [{ timestamp := t, success := false, status := 429 }])
    (hp : s.cfg.Penalty429 = 1) :
    s.scoreOf a model now = 0 := by
  unfold SessionSelector.scoreOf SessionSelector.scoreAuthLocked
  norm_num [h, hr, hp, countSamples, clamp01]

theorem ite_eta (p : Prop) [Decidable p] (o n : SessionSelectorConfig) :
    (if p then n else o) =
      { Enabled := if p then n.Enabled else o.Enabled
        Providers := if p then n.Providers else o.Providers
        TTL := if p then n.TTL else o.TTL
        FailureThreshold := if p then n.FailureThreshold else o.FailureThreshold
        Cooldown := if p then n.Cooldown else o.Cooldown
        LoadWindow := if p then n.LoadWindow else o.LoadWindow
        LoadWeight := if p then n.LoadWeight else o.LoadWeight
        HealthWindow := if p then n.HealthWindow else o.HealthWindow
        WeightSuccess := if p then n.WeightSuccess else o.WeightSuccess
        WeightQuota := if p then n.WeightQuota else o.WeightQuota
        Penalty429 := if p then n.Penalty429 else o.Penalty429
        Penalty403 := if p then n.Penalty403 else o.Penalty403
        Penalty5xx := if p then n.Penalty5xx else o.Penalty5xx } := by
  split <;> rfl

/-- The normalised configuration, field by field. -/
theorem normalise_eq (c : SessionSelectorConfig) :
    normaliseSessionConfig c =
      { Enabled := c.Enabled
        Providers := c.Providers
        TTL := if c.TTL ≤ 0 then 5 * Minute else c.TTL
        FailureThreshold := if c.FailureThreshold ≤ 0 then 3 else c.FailureThreshold
        Cooldown := if c.Cooldown ≤ 0 then 5 * Minute else c.Cooldown
        LoadWindow := if c.LoadWindow ≤ 0 then 10 * Minute else c.LoadWindow
        LoadWeight :=
          if (if c.LoadWeight < 0 then 0 else c.LoadWeight) > 1 then 1
          else (if c.LoadWeight < 0 then 0 else c.LoadWeight)
        HealthWindow := if c.HealthWindow ≤ 0 then 50 else c.HealthWindow
        WeightSuccess := if c.WeightSuccess ≤ 0 ∧ c.WeightQuota ≤ 0 then 3 / 5 else c.WeightSuccess
        WeightQuota := if c.WeightSuccess ≤ 0 ∧ c.WeightQuota ≤ 0 then 2 / 5 else c.WeightQuota
        Penalty429 := if c.Penalty429 ≤ 0 then 1 else c.Penalty429
        Penalty403 := if c.Penalty403 ≤ 0 then 7 / 10 else c.Penalty403
        Penalty5xx := if c.Penalty5xx ≤ 0 then 2 / 5 else c.Penalty5xx } := by
  unfold normaliseSessionConfig
  simp only [ite_eta, ite_self]

theorem isProviderEnabled_congr (s t : SessionSelector) (p : String) (h : s.cfg = t.cfg) :
    s.isProviderEnabled p = t.isProviderEnabled p := by
  unfold SessionSelector.isProviderEnabled
  rw [h]

theorem isProviderEnabled_lower (s : SessionSelector) (p q : String)
    (h : ToLower p = ToLower q) : s.isProviderEnabled p = s.isProviderEnabled q := by
  unfold SessionSelector.isProviderEnabled EqualFold
  rw [h]

theorem sessionKey_lower (p q sid : String) (h : ToLower p = ToLower q) :
    sessionKey p sid = sessionKey q sid := by
  unfold sessionKey
  rw [h]

theorem cleanupLocked_stats (s : SessionSelector) (now : Time) (x : String) :
    (s.cleanupLocked now).stats x = (s.stats x).map (fun st => st.pruned s.cfg now) := by
  unfold SessionSelector.cleanupLocked authStats.pruned
  by_cases hw : s.cfg.LoadWindow ≤ 0
  · have hw' : ¬ s.cfg.LoadWindow > 0 := by simp only [Duration] at *; omega
    simp only [hw, ↓reduceIte, hw']
    cases s.stats x <;> rfl
  · have hw' : s.cfg.LoadWindow > 0 := by simp only [Duration] at *; omega
    simp only [hw, ↓reduceIte, hw']
    cases s.stats x <;> rfl

theorem addPending_stats_other (s : SessionSelector) (id : String) (now : Time) (x : String)
    (hx : x ≠ id) : (s.addPending id now).stats x = s.stats x := by
  unfold SessionSelector.addPending
  split
  · simp only [mapSet, hx, ↓reduceIte]
  · rfl

theorem recordStats_sessions (s : SessionSelector) (now : Time) (result : Result) :
    (s.recordStats now result).sessions = s.sessions := rfl

theorem recordStats_cfg (s : SessionSelector) (now : Time) (result : Result) :
    (s.recordStats now result).cfg = s.cfg := rfl

theorem recordStats_stats_other (s : SessionSelector) (now : Time) (result : Result)
    (x : String) (hx : x ≠ result.AuthID) : (s.recordStats now result).stats x = s.stats x := by
  simp only [SessionSelector.recordStats, mapSet, hx, ↓reduceIte]

theorem recordBinding_cfg (s : SessionSelector) (now : Time) (sid : String) (result : Result) :
    (s.recordBinding now sid result).cfg = s.cfg := by
  unfold SessionSelector.recordBinding
  split
  · rfl
  · dsimp only
    split
    · rfl
    · split <;> rfl

theorem recordBinding_stats (s : SessionSelector) (now : Time) (sid : String) (result : Result) :
    (s.recordBinding now sid result).stats = s.stats := by
  unfold SessionSelector.recordBinding
  split
  · rfl
  · dsimp only
    split
    · rfl
    · split <;> rfl

theorem recordResult_cfg (s : SessionSelector) (now : Time) (ctx : Option Context)
    (result : Result) : (s.RecordResult now ctx result).cfg = s.cfg := by
  unfold SessionSelector.RecordResult
  split
  · rfl
  · rw [recordBinding_cfg, recordStats_cfg]

/-- The binding transition of `RecordResult` when it applies. -/
theorem recordBinding_applies (s : SessionSelector) (now : Time) (sid : String)
    (result : Result) (b : sessionBinding) (hsid : sid ≠ "")
    (hen : s.isProviderEnabled result.Provider = true)
    (hb : s.sessions (sessionKey result.Provider sid) = some b)
    (hid : b.authID = result.AuthID) :
    (s.recordBinding now sid result).sessions (sessionKey result.Provider sid) =
      some (b.record s.cfg now result.Success) := by
  unfold SessionSelector.recordBinding
  simp only [hsid, hen, Bool.true_eq_false, or_self, ↓reduceIte, hb, hid, ne_eq,
    not_true_eq_false, mapSet]

/-- `RecordResult` leaves the sessions map alone when the provider of the result is
not session-enabled or has no binding for the session. -/
theorem recordBinding_skips (s : SessionSelector) (now : Time) (sid : String) (result : Result)
    (h : s.isProviderEnabled result.Provider = false ∨
      s.sessions (sessionKey result.Provider sid) = none) :
    (s.recordBinding now sid result).sessions = s.sessions := by
  unfold SessionSelector.recordBinding
  split
  · rfl
  · rename_i hg
    rcases h with h | h
    · simp only [h, or_true, not_true_eq_false] at hg
    · simp only [h]

theorem recentOf_cleanup (s : SessionSelector) (now : Time) (x : String) :
    (s.cleanupLocked now).recentOf x = s.recentOf x := by
  unfold SessionSelector.recentOf
  rw [cleanupLocked_stats]
  cases s.stats x with
  | none => rfl
  | some st => simp only [Option.map_some', pruned_recentResults]

theorem addPending_stats_self (s : SessionSelector) (id : String) (now : Time) :
    ∃ st, (s.addPending id now).stats id = (if s.cfg.LoadWindow > 0 then some st else s.stats id) ∧
      st.recentResults = s.recentOf id := by
  unfold SessionSelector.addPending SessionSelector.recentOf
  by_cases hw : s.cfg.LoadWindow > 0
  · rw [if_pos hw]
    simp only [mapSet, ↓reduceIte]
    cases s.stats id with
    | none => exact ⟨_, (if_pos hw).symm, rfl⟩
    | some st => exact ⟨_, (if_pos hw).symm, rfl⟩
  · rw [if_neg hw]
    exact ⟨⟨s.recentOf id, [], []⟩, (if_neg hw).symm, rfl⟩

theorem recentOf_addPending (s : SessionSelector) (id : String) (now : Time) (x : String) :
    (s.addPending id now).recentOf x = s.recentOf x := by
  by_cases hx : x = id
  · subst hx
    obtain ⟨st, h1, h2⟩ := addPending_stats_self s x now
    by_cases hw : s.cfg.LoadWindow > 0
    · rw [if_pos hw] at h1
      rw [← h2]
      simp only [SessionSelector.recentOf, h1]
    · rw [if_neg hw] at h1
      simp only [SessionSelector.recentOf, h1]
  · simp only [SessionSelector.recentOf, addPending_stats_other s id now x hx]

theorem recentOf_scoreAuthLocked (s : SessionSelector) (a : Auth) (model : String) (now : Time)
    (x : String) : (s.scoreAuthLocked a model now).2.2.recentOf x = s.recentOf x := by
  have h := scoreAuthLocked_stats s a model now x
  by_cases hx : x = a.ID
  · rw [if_pos hx, ← hx] at h
    simp only [SessionSelector.recentOf, h]
    cases s.stats x with
    | none => rfl
    | some st => simp only [Option.map_some', pruned_recentResults]
  · rw [if_neg hx] at h
    simp only [SessionSelector.recentOf, h]

theorem recentOf_scoreAll (model : String) (now : Time) (cands : List Auth) :
    ∀ (s : SessionSelector) (acc : List scored) (x : String),
      (scoreAll s model now cands acc).2.recentOf x = s.recentOf x := by
  induction cands with
  | nil => intro s acc x; rfl
  | cons a rest ih =>
    intro s acc x
    simp only [scoreAll]
    rw [ih, recentOf_scoreAuthLocked]

theorem recentOf_pickBest (srt : SortSlice scored) (s : SessionSelector) (cands : List Auth)
    (model : String) (now : Time) (x : String) :
    (s.pickBestCandidateLocked srt cands model now).2.recentOf x = s.recentOf x := by
  unfold SessionSelector.pickBestCandidateLocked
  split
  · rfl
  · exact recentOf_scoreAll _ _ _ _ _ _

theorem recentOf_congr (s t : SessionSelector) (x : String) (h : s.stats = t.stats) :
    s.recentOf x = t.recentOf x := by
  unfold SessionSelector.recentOf
  rw [h]

theorem lookupBinding_recentOf (s : SessionSelector) (now : Time) (en : Bool)
    (provider sessionID : String) (available : List Auth) (x : String) :
    (s.lookupBinding now en provider sessionID available).state.recentOf x = s.recentOf x := by
  unfold SessionSelector.lookupBinding
  split
  · dsimp only
    cases s.sessions (sessionKey provider sessionID) with
    | none => rfl
    | some b =>
      dsimp only
      split
      · rfl
      · split
        · cases findAuthByID available b.authID with
          | none => rfl
          | some a =>
            simp only [BindingLookup.state]
            rw [recentOf_addPending]
            rfl
        · rfl
  · rfl

theorem lookupBinding_fresh_stats (s : SessionSelector) (now : Time) (en : Bool)
    (provider sessionID : String) (available : List Auth) (ex : String) (s2 : SessionSelector)
    (h : s.lookupBinding now en provider sessionID available = BindingLookup.fresh ex s2) :
    s2.stats = s.stats := by
  unfold SessionSelector.lookupBinding at h
  split at h
  · dsimp only at h
    cases hb : s.sessions (sessionKey provider sessionID) with
    | none =>
      rw [hb] at h
      simp only [BindingLookup.fresh.injEq] at h
      rw [← h.2]
    | some b =>
      rw [hb] at h
      dsimp only at h
      split at h
      · simp only [BindingLookup.fresh.injEq] at h
        rw [← h.2]
      · split at h
        · cases hf : findAuthByID available b.authID with
          | none =>
            rw [hf] at h
            simp only [BindingLookup.fresh.injEq] at h
            rw [← h.2]
          | some a =>
            rw [hf] at h
            simp at h
        · simp only [BindingLookup.fresh.injEq] at h
          rw [← h.2]
  · simp only [BindingLookup.fresh.injEq] at h
    rw [← h.2]

/-- `Pick` does not change the recent result samples of any auth. -/
theorem pick_recentOf (srt : SortSlice scored) (mk : String) (s : SessionSelector) (now : Time)
    (provider model : String) (opts : Options) (available : Except Error (List Auth))
    (x : String) :
    (s.Pick srt mk now provider model opts available).2.recentOf x = s.recentOf x := by
  cases available with
  | error err => rfl
  | ok available =>
    have hlr := lookupBinding_recentOf (s.cleanupLocked now) now (s.isProviderEnabled provider)
      provider (extractSessionIDFromOptions mk opts) available x
    rw [recentOf_cleanup] at hlr
    cases hl : (s.cleanupLocked now).lookupBinding now (s.isProviderEnabled provider) provider
      (extractSessionIDFromOptions mk opts) available with
    | sticky a s2 =>
      rw [hl] at hlr
      rw [pick_of_sticky srt mk s now provider model opts available a s2 hl]
      exact hlr
    | fresh ex s2 =>
      rw [hl] at hlr
      simp only [BindingLookup.state] at hlr
      rw [pick_of_fresh srt mk s now provider model opts available ex s2 hl]
      have h3 := recentOf_pickBest srt s2
        (if (filterAuthsByID available ex).length = 0 then available
          else filterAuthsByID available ex) model now x
      generalize s2.pickBestCandidateLocked srt
        (if (filterAuthsByID available ex).length = 0 then available
          else filterAuthsByID available ex) model now = r at h3 ⊢
      obtain ⟨r1, s3⟩ := r
      simp only at h3
      cases r1 with
      | none => simp only [h3, hlr]
      | some sel =>
        simp only [recentOf_addPending]
        split
        · rw [← hlr, ← h3]
          exact recentOf_congr _ _ _ rfl
        · rw [← hlr, ← h3]

/-- `Pick` creates statistics only for the auth it returns. -/
theorem pick_stats_none (srt : SortSlice scored) (mk : String) (s : SessionSelector) (now : Time)
    (provider model : String) (opts : Options) (available : Except Error (List Auth))
    (sel : Auth) (x : String) (hx : s.stats x = none)
    (hok : (s.Pick srt mk now provider model opts available).1 = Except.ok sel)
    (hne : x ≠ sel.ID) :
    (s.Pick srt mk now provider model opts available).2.stats x = none := by
  cases available with
  | error err => simp [SessionSelector.Pick] at hok
  | ok available =>
    have hc : (s.cleanupLocked now).stats x = none := by
      rw [cleanupLocked_stats, hx]; rfl
    cases hl : (s.cleanupLocked now).lookupBinding now (s.isProviderEnabled provider) provider
      (extractSessionIDFromOptions mk opts) available with
    | sticky a s2 =>
      rw [pick_of_sticky srt mk s now provider model opts available a s2 hl] at hok ⊢
      simp only [Except.ok.injEq] at hok
      subst hok
      have hl' := hl
      unfold SessionSelector.lookupBinding at hl'
      split at hl'
      · dsimp only at hl'
        cases hb : (s.cleanupLocked now).sessions
            (sessionKey provider (extractSessionIDFromOptions mk opts)) with
        | none => rw [hb] at hl'; simp at hl'
        | some b =>
          rw [hb] at hl'
          dsimp only at hl'
          split at hl'
          · simp at hl'
          · split at hl'
            · cases hf : findAuthByID available b.authID with
              | none => rw [hf] at hl'; simp at hl'
              | some a' =>
                rw [hf] at hl'
                simp only [BindingLookup.sticky.injEq] at hl'
                obtain ⟨h1, h2⟩ := hl'
                subst h1
                rw [← h2, addPending_stats_other _ _ _ _ hne]
                exact hc
            · simp at hl'
      · simp at hl'
    | fresh ex s2 =>
      have hs2 := lookupBinding_fresh_stats _ _ _ _ _ _ _ _ hl
      rw [pick_of_fresh srt mk s now provider model opts available ex s2 hl] at hok ⊢
      have h3 := pickBest_stats_none srt s2
        (if (filterAuthsByID available ex).length = 0 then available
          else filterAuthsByID available ex) model now x (by rw [hs2]; exact hc)
      generalize s2.pickBestCandidateLocked srt
        (if (filterAuthsByID available ex).length = 0 then available
          else filterAuthsByID available ex) model now = r at h3 hok ⊢
      obtain ⟨r1, s3⟩ := r
      simp only at h3
      cases r1 with
      | none => simp at hok
      | some sel' =>
        simp only [Except.ok.injEq] at hok
        subst hok
        simp only
        rw [addPending_stats_other _ _ _ _ hne]
        split
        · exact h3
        · exact h3

/-- The binding a fresh selection writes. -/
theorem pick_fresh_binding (srt : SortSlice scored) (mk : String) (s : SessionSelector)
    (now : Time) (provider model : String) (opts : Options) (available : List Auth)
    (ex : String) (s2 : SessionSelector) (sel : Auth)
    (hl : (s.cleanupLocked now).lookupBinding now (s.isProviderEnabled provider) provider
      (extractSessionIDFromOptions mk opts) available = BindingLookup.fresh ex s2)
    (hen : s.isProviderEnabled provider = true)
    (hS : extractSessionIDFromOptions mk opts ≠ "")
    (hok : (s.Pick srt mk now provider model opts (Except.ok available)).1 = Except.ok sel) :
    (s.Pick srt mk now provider model opts (Except.ok available)).2.sessions
        (sessionKey provider (extractSessionIDFromOptions mk opts)) =
      some { authID := sel.ID, lastUsed := now, failCount := 0, cooldownUntil := 0 } := by
  rw [pick_of_fresh srt mk s now provider model opts available ex s2 hl] at hok ⊢
  generalize s2.pickBestCandidateLocked srt
    (if (filterAuthsByID available ex).length = 0 then available
      else filterAuthsByID available ex) model now = r at hok ⊢
  obtain ⟨r1, s3⟩ := r
  cases r1 with
  | none => simp at hok
  | some sel' =>
    simp only [Except.ok.injEq] at hok
    subst hok
    have hg : s.isProviderEnabled provider = true ∧
        extractSessionIDFromOptions mk opts ≠ "" := ⟨hen, hS⟩
    simp only [if_pos hg, addPending_sessions, mapSet, ↓reduceIte]

theorem recordStats_first_sample (s : SessionSelector) (now : Time) (result : Result)
    (err : Error) (hrec : s.recentOf result.AuthID = []) (hw : s.cfg.HealthWindow > 0)
    (herr : result.Error = some err) :
    ∃ st, (s.recordStats now result).stats result.AuthID = some st ∧
      st.recentResults =
        [{ timestamp := now, success := result.Success, status := err.HTTPStatus }] := by
  have hrr : (match s.stats result.AuthID with
      | some stats => stats
      | none => { recentResults := [], recentRequests := [], pendingRequests := [] }
      : authStats).recentResults = [] := by
    unfold SessionSelector.recentOf at hrec
    cases h : s.stats result.AuthID with
    | none => rfl
    | some st => rw [h] at hrec; exact hrec
  have hnot : ¬ (s.cfg.HealthWindow > 0 ∧ ((1 : Nat) : Int) > s.cfg.HealthWindow) := by
    intro h
    have := h.2
    omega
  unfold SessionSelector.recordStats
  simp only [mapSet, ↓reduceIte, hrr, herr, List.nil_append, List.length_singleton, hnot]
  split
  · exact ⟨_, rfl, rfl⟩
  · exact ⟨_, rfl, rfl⟩

theorem stats_of_recentOf (s : SessionSelector) (x : String) (r : resultSample)
    (h : s.recentOf x = [r]) : ∃ st, s.stats x = some st ∧ st.recentResults = [r] := by
  unfold SessionSelector.recentOf at h
  cases hs : s.stats x with
  | none => rw [hs] at h; simp at h
  | some st => rw [hs] at h; exact ⟨st, rfl, h⟩

theorem recentOf_of_stats (s : SessionSelector) (x : String) (st : authStats)
    (h : s.stats x = some st) : s.recentOf x = st.recentResults := by
  simp only [SessionSelector.recentOf, h]

theorem quotaHealth_nonneg (a : Auth) (model : String) (now : Time) :
    0 ≤ quotaHealth a model now := by
  unfold quotaHealth
  dsimp only
  split_ifs <;> norm_num

theorem scoredLess_tie (x y : scored) (hs : x.score = y.score) (hl : x.load = y.load) :
    scoredLess x y = decide (x.auth.ID < y.auth.ID) := by
  unfold scoredLess absQ
  simp [hs, hl]

theorem scoredLess_load (x y : scored) (hs : x.score = y.score) :
    scoredLess x y = if x.load ≠ y.load then decide (x.load < y.load)
      else decide (x.auth.ID < y.auth.ID) := by
  unfold scoredLess absQ
  simp [hs]

theorem scoredLess_gap (x y : scored) (h : x.score = 0) (hy : 3 / 10 ≤ y.score) :
    scoredLess x y = false ∧ scoredLess y x = true := by
  unfold scoredLess absQ
  rw [h]
  constructor
  · have h1 : (0 : ℚ) - y.score < 0 := by linarith
    have h2 : -(0 - y.score) > 1 / 10000 := by linarith
    have h3 : ¬ (0 > y.score) := by linarith
    simp only [h1, ↓reduceIte, h2, h3, decide_False]
  · have h1 : ¬ (y.score - 0 < 0) := by linarith
    have h2 : y.score - 0 > 1 / 10000 := by linarith
    have h3 : y.score > 0 := by linarith
    simp only [h1, ↓reduceIte, h2, h3, decide_True]

theorem cleanup_unbound (s : SessionSelector) (now : Time) (k : String)
    (h : s.sessions k = none) : (s.cleanupLocked now).sessions k = none := by
  rw [cleanupLocked_sessions, h]

theorem cleanup_stats_none (s : SessionSelector) (now : Time) (x : String)
    (h : s.stats x = none) : (s.cleanupLocked now).stats x = none := by
  rw [cleanupLocked_stats, h]
  rfl

/-- A pick among two candidates without statistics and with equal quota health, for
a session without binding, returns the candidate with the smaller id. -/
theorem pick_two_unscored (srt : SortSlice scored) (mk : String) (s : SessionSelector)
    (now : Time) (provider model : String) (opts : Options) (a b : Auth) (av : List Auth)
    (hsess : s.sessions (sessionKey provider (extractSessionIDFromOptions mk opts)) = none)
    (hsa : s.stats a.ID = none) (hsb : s.stats b.ID = none)
    (hab : a.ID < b.ID) (hq : quotaHealth a model now = quotaHealth b model now)
    (hav : av = [a, b] ∨ av = [b, a]) :
    (s.Pick srt mk now provider model opts (Except.ok av)).1 = Except.ok a ∧
    (s.cleanupLocked now).lookupBinding now (s.isProviderEnabled provider) provider
      (extractSessionIDFromOptions mk opts) av = BindingLookup.fresh "" (s.cleanupLocked now) := by
  have hl := lookupBinding_unbound (s.cleanupLocked now) now (s.isProviderEnabled provider)
    provider (extractSessionIDFromOptions mk opts) av (cleanup_unbound s now _ hsess)
  refine ⟨?_, hl⟩
  have ha := score_no_stats (s.cleanupLocked now) a model now (cleanup_stats_none s now _ hsa)
  have hb := score_no_stats (s.cleanupLocked now) b model now (cleanup_stats_none s now _ hsb)
  have hbw : (s.cleanupLocked now).baseWeighted a model now =
      (s.cleanupLocked now).baseWeighted b model now := by
    unfold SessionSelector.baseWeighted
    rw [hq]
  have hscore : ((s.cleanupLocked now).scoredOf model now a).score =
      ((s.cleanupLocked now).scoredOf model now b).score := by
    simp only [SessionSelector.scoredOf, ha.1, hb.1, hbw]
  have hload : ((s.cleanupLocked now).scoredOf model now a).load =
      ((s.cleanupLocked now).scoredOf model now b).load := by
    simp only [SessionSelector.scoredOf, ha.2, hb.2]
  have hnot : ¬ b.ID < a.ID := not_lt_of_gt hab
  rcases hav with h | h
  · subst h
    rw [pick_two_fresh srt mk s now provider model opts a b _ hl,
      scoredLess_tie _ _ hscore.symm hload.symm]
    simp [SessionSelector.scoredOf, hnot]
  · subst h
    rw [pick_two_fresh srt mk s now provider model opts b a _ hl,
      scoredLess_tie _ _ hscore hload]
    simp [SessionSelector.scoredOf, hab]

theorem record_cooldown (b : sessionBinding) (cfg : SessionSelectorConfig) (now : Time)
    (hf : b.failCount = 0) (hth : cfg.FailureThreshold = 1) (hcd : cfg.Cooldown = 5 * Minute) :
    b.record cfg now false =
      { authID := b.authID, lastUsed := now, failCount := 0,
        cooldownUntil := now + 5 * Minute } := by
  have h5 : (5 * Minute : Duration) > 0 := by decide
  simp [sessionBinding.record, hf, hth, hcd, h5, Time.Add]

theorem mem_pair_ne (a b x : Auth) (av : List Auth) (hav : av = [a, b] ∨ av = [b, a])
    (hx : x ∈ av) (hne : x.ID ≠ a.ID) : x = b := by
  rcases hav with h | h <;> subst h <;>
    simp only [List.mem_cons, List.mem_singleton, List.not_mem_nil, or_false] at hx
  · rcases hx with h | h
    · subst h; exact absurd rfl hne
    · exact h
  · rcases hx with h | h
    · exact h
    · subst h; exact absurd rfl hne

/-- Failover after one recorded failure, by cooldown: session-enabled provider. -/
theorem failover_by_cooldown (srt : SortSlice scored) (mk : String) (c : SessionSelectorConfig)
    (provider model : String) (opts : Options) (ctx : Option Context) (result : Result)
    (a b : Auth) (av1 av2 : List Auth) (now1 nowR now2 : Time)
    (hth : c.FailureThreshold = 1) (hcd : c.Cooldown = 5 * Minute) (httl : c.TTL = 5 * Minute)
    (hab : a.ID < b.ID) (ha : a.ID ≠ "")
    (hq : quotaHealth a model now1 = quotaHealth b model now1)
    (hav1 : av1 = [a, b] ∨ av1 = [b, a]) (hav2 : av2 = [a, b] ∨ av2 = [b, a])
    (hS : extractSessionIDFromOptions mk opts ≠ "")
    (hctx : SessionIDFromContext ctx = extractSessionIDFromOptions mk opts)
    (hres : result.AuthID = a.ID) (hfail : result.Success = false)
    (hwithin : now2 < nowR + 5 * Minute)
    (hen : (NewSessionSelector c).isProviderEnabled provider = true)
    (hprov : ToLower result.Provider = ToLower provider) :
    ((NewSessionSelector c).Pick srt mk now1 provider model opts (Except.ok av1)).1 =
        Except.ok a ∧
    ((((NewSessionSelector c).Pick srt mk now1 provider model opts (Except.ok av1)).2.RecordResult
        nowR ctx result).Pick srt mk now2 provider model opts (Except.ok av2)).1 =
        Except.ok b := by
  obtain ⟨h1, hl1⟩ := pick_two_unscored srt mk (NewSessionSelector c) now1 provider model opts
    a b av1 rfl rfl rfl hab hq hav1
  refine ⟨h1, ?_⟩
  have hbind := pick_fresh_binding srt mk (NewSessionSelector c) now1 provider model opts av1
    "" _ a hl1 hen hS h1
  have hcfg1 := pick_cfg srt mk (NewSessionSelector c) now1 provider model opts (Except.ok av1)
  generalize ((NewSessionSelector c).Pick srt mk now1 provider model opts (Except.ok av1)).2 = s1
    at hbind hcfg1 ⊢
  have hncfg : (NewSessionSelector c).cfg = normaliseSessionConfig c := rfl
  have hne : ¬ result.AuthID = "" := by rw [hres]; exact ha
  have hkey := sessionKey_lower result.Provider provider
    (extractSessionIDFromOptions mk opts) hprov
  have hen1 : (s1.recordStats nowR result).isProviderEnabled result.Provider = true := by
    rw [isProviderEnabled_lower _ _ _ hprov,
      isProviderEnabled_congr _ (NewSessionSelector c) provider
        ((recordStats_cfg s1 nowR result).trans hcfg1)]
    exact hen
  have hb1 : (s1.recordStats nowR result).sessions
      (sessionKey result.Provider (extractSessionIDFromOptions mk opts)) =
      some { authID := a.ID, lastUsed := now1, failCount := 0, cooldownUntil := 0 } := by
    rw [recordStats_sessions, hkey]
    exact hbind
  have hrec := recordBinding_applies (s1.recordStats nowR result) nowR
    (extractSessionIDFromOptions mk opts) result _ hS hen1 hb1 hres.symm
  have hnorm := normalise_eq c
  have hcfgR : (s1.recordStats nowR result).cfg = normaliseSessionConfig c := by
    rw [recordStats_cfg, hcfg1, hncfg]
  have hthN : (s1.recordStats nowR result).cfg.FailureThreshold = 1 := by
    rw [hcfgR, hnorm]
    simp [hth]
  have hcdN : (s1.recordStats nowR result).cfg.Cooldown = 5 * Minute := by
    rw [hcfgR, hnorm]
    simp [hcd]
  rw [hfail, record_cooldown _ _ nowR rfl hthN hcdN, hkey] at hrec
  have hs2 : s1.RecordResult nowR ctx result =
      (s1.recordStats nowR result).recordBinding nowR (extractSessionIDFromOptions mk opts)
        result := by
    simp only [SessionSelector.RecordResult, hne, ↓reduceIte, hctx]
  rw [hs2]
  have hcfg2 : ((s1.recordStats nowR result).recordBinding nowR
      (extractSessionIDFromOptions mk opts) result).cfg = normaliseSessionConfig c := by
    rw [recordBinding_cfg, hcfgR]
  generalize (s1.recordStats nowR result).recordBinding nowR
    (extractSessionIDFromOptions mk opts) result = s2 at hrec hcfg2 ⊢
  have hen2 : s2.isProviderEnabled provider = true := by
    rw [isProviderEnabled_congr s2 (NewSessionSelector c) provider (hcfg2.trans hncfg.symm)]
    exact hen
  have httlN : s2.cfg.TTL = 5 * Minute := by
    rw [hcfg2, hnorm]
    simp [httl]
  have hother : ∃ x ∈ av2, x.ID ≠ a.ID := by
    refine ⟨b, ?_, fun h => (ne_of_gt hab) h⟩
    rcases hav2 with h | h <;> subst h <;> simp
  obtain ⟨x, hx, hxmem, hxne⟩ := cooled_auth_excluded srt mk s2 now2 provider model opts av2
    { authID := a.ID, lastUsed := nowR, failCount := 0, cooldownUntil := nowR + 5 * Minute }
    hen2 hS hrec (by rw [httlN]; exact hwithin) hwithin ha hother
  rw [hx, mem_pair_ne a b x av2 hav2 hxmem hxne]

/-- Failover after one recorded failure, by score: provider without session
stickiness, default weights and 429 penalty. -/
theorem failover_by_score (srt : SortSlice scored) (mk : String) (c : SessionSelectorConfig)
    (provider model : String) (opts : Options) (ctx : Option Context) (result : Result)
    (a b : Auth) (av1 av2 : List Auth) (now1 nowR now2 : Time) (err : Error)
    (hab : a.ID < b.ID) (ha : a.ID ≠ "")
    (hq : quotaHealth a model now1 = quotaHealth b model now1)
    (hav1 : av1 = [a, b] ∨ av1 = [b, a]) (hav2 : av2 = [a, b] ∨ av2 = [b, a])
    (hres : result.AuthID = a.ID) (hfail : result.Success = false)
    (herr : result.Error = some err) (h429 : err.HTTPStatus = 429)
    (hen : (NewSessionSelector c).isProviderEnabled provider = false)
    (hws : c.WeightSuccess ≤ 0) (hwq : c.WeightQuota ≤ 0) (hp : c.Penalty429 ≤ 0) :
    ((NewSessionSelector c).Pick srt mk now1 provider model opts (Except.ok av1)).1 =
        Except.ok a ∧
    ((((NewSessionSelector c).Pick srt mk now1 provider model opts (Except.ok av1)).2.RecordResult
        nowR ctx result).Pick srt mk now2 provider model opts (Except.ok av2)).1 =
        Except.ok b := by
  obtain ⟨h1, _⟩ := pick_two_unscored srt mk (NewSessionSelector c) now1 provider model opts
    a b av1 rfl rfl rfl hab hq hav1
  refine ⟨h1, ?_⟩
  have hba : b.ID ≠ a.ID := ne_of_gt hab
  have hcfg1 := pick_cfg srt mk (NewSessionSelector c) now1 provider model opts (Except.ok av1)
  have hrec1 := pick_recentOf srt mk (NewSessionSelector c) now1 provider model opts
    (Except.ok av1) a.ID
  have hsb1 := pick_stats_none srt mk (NewSessionSelector c) now1 provider model opts
    (Except.ok av1) a b.ID rfl h1 hba
  generalize ((NewSessionSelector c).Pick srt mk now1 provider model opts (Except.ok av1)).2 = s1
    at hcfg1 hrec1 hsb1 ⊢
  have hncfg : (NewSessionSelector c).cfg = normaliseSessionConfig c := rfl
  have hnorm := normalise_eq c
  have hne : ¬ result.AuthID = "" := by rw [hres]; exact ha
  have hrecA : s1.recentOf result.AuthID = [] := by rw [hres, hrec1]; rfl
  have hhw : s1.cfg.HealthWindow > 0 := by
    rw [hcfg1, hncfg, hnorm]
    dsimp only
    split
    · decide
    · rename_i h; simp only [Duration] at *; omega
  obtain ⟨st, hst, hstr⟩ := recordStats_first_sample s1 nowR result err hrecA hhw herr
  have hs2 : s1.RecordResult nowR ctx result =
      (s1.recordStats nowR result).recordBinding nowR (SessionIDFromContext ctx) result := by
    simp only [SessionSelector.RecordResult, hne, ↓reduceIte]
  rw [hs2]
  have hcfg2 : ((s1.recordStats nowR result).recordBinding nowR (SessionIDFromContext ctx)
      result).cfg = normaliseSessionConfig c := by
    rw [recordBinding_cfg, recordStats_cfg, hcfg1, hncfg]
  have hst2 : ((s1.recordStats nowR result).recordBinding nowR (SessionIDFromContext ctx)
      result).stats = (s1.recordStats nowR result).stats := recordBinding_stats _ _ _ _
  have hsa2 : ((s1.recordStats nowR result).recordBinding nowR (SessionIDFromContext ctx)
      result).recentOf a.ID = [{ timestamp := nowR, success := false, status := 429 }] := by
    rw [recentOf_congr _ _ _ hst2, ← hres, recentOf_of_stats _ _ st hst, hstr, hfail, h429]
  have hsb2 : ((s1.recordStats nowR result).recordBinding nowR (SessionIDFromContext ctx)
      result).stats b.ID = none := by
    rw [hst2, recordStats_stats_other _ _ _ _ (by rw [hres]; exact hba)]
    exact hsb1
  generalize (s1.recordStats nowR result).recordBinding nowR (SessionIDFromContext ctx)
    result = s2 at hcfg2 hsa2 hsb2 ⊢
  have hen2 : s2.isProviderEnabled provider = false := by
    rw [isProviderEnabled_congr s2 (NewSessionSelector c) provider (hcfg2.trans hncfg.symm)]
    exact hen
  have hl : (s2.cleanupLocked now2).lookupBinding now2 (s2.isProviderEnabled provider) provider
      (extractSessionIDFromOptions mk opts) av2 =
      BindingLookup.fresh "" (s2.cleanupLocked now2) := by
    rw [hen2]
    exact lookupBinding_disabled _ _ _ _ _
  have hcfgc : (s2.cleanupLocked now2).cfg = normaliseSessionConfig c := by
    rw [cleanupLocked_cfg, hcfg2]
  have hp429 : (s2.cleanupLocked now2).cfg.Penalty429 = 1 := by
    rw [hcfgc, hnorm]
    simp [hp]
  have hwsN : (s2.cleanupLocked now2).cfg.WeightSuccess = 3 / 5 := by
    rw [hcfgc, hnorm]
    simp [hws, hwq]
  have hwqN : (s2.cleanupLocked now2).cfg.WeightQuota = 2 / 5 := by
    rw [hcfgc, hnorm]
    simp [hws, hwq]
  obtain ⟨sta, hsta, hstar⟩ := stats_of_recentOf (s2.cleanupLocked now2) a.ID _
    ((recentOf_cleanup s2 now2 a.ID).trans hsa2)
  have hscoreA : ((s2.cleanupLocked now2).scoredOf model now2 a).score = 0 :=
    score_one_429 (s2.cleanupLocked now2) a model now2 sta nowR hsta hstar hp429
  have hscoreB : 3 / 10 ≤ ((s2.cleanupLocked now2).scoredOf model now2 b).score := by
    have hb := (score_no_stats (s2.cleanupLocked now2) b model now2
      (cleanup_stats_none s2 now2 _ hsb2)).1
    have hqn := quotaHealth_nonneg b model now2
    have hbw : (s2.cleanupLocked now2).baseWeighted b model now2 =
        3 / 10 + quotaHealth b model now2 * (2 / 5) := by
      unfold SessionSelector.baseWeighted
      rw [hwsN, hwqN]
      norm_num
    simp only [SessionSelector.scoredOf, hb, hbw]
    split
    · linarith
    · linarith
  obtain ⟨hlt1, hlt2⟩ := scoredLess_gap _ _ hscoreA hscoreB
  rcases hav2 with h | h
  · subst h
    rw [pick_two_fresh srt mk s2 now2 provider model opts a b _ hl, hlt2]
    rfl
  · subst h
    rw [pick_two_fresh srt mk s2 now2 provider model opts b a _ hl, hlt1]
    rfl

/-! ## Concrete scenarios -/

theorem emptyBound_lookup :
    (emptyBoundState.cleanupLocked 2000).lookupBinding 2000
        (emptyBoundState.isProviderEnabled "codex") "codex"
        (extractSessionIDFromOptions "session_id" sessionOpts) [emptyIDAuth, authB] =
      BindingLookup.fresh "" (emptyBoundState.cleanupLocked 2000) := rfl

theorem emptyBound_score_empty :
    (emptyBoundState.cleanupLocked 2000).scoreOf emptyIDAuth "test-model" 2000 = 7 / 10 := by
  have hst : (emptyBoundState.cleanupLocked 2000).stats emptyIDAuth.ID =
      some ⟨[], [], [1000]⟩ := by decide
  have hc : (emptyBoundState.cleanupLocked 2000).cfg = normaliseSessionConfig testConfig := by
    rw [cleanupLocked_cfg]; rfl
  have hq : quotaHealth emptyIDAuth "test-model" 2000 = 1 := rfl
  unfold SessionSelector.scoreOf SessionSelector.scoreAuthLocked
  rw [hst, hc, normalise_eq]
  norm_num [countSamples, clamp01, hq, testConfig]

theorem emptyBound_score_other :
    (emptyBoundState.cleanupLocked 2000).scoreOf authB "test-model" 2000 = 7 / 10 := by
  have hst : (emptyBoundState.cleanupLocked 2000).stats authB.ID = none := by decide
  have hc : (emptyBoundState.cleanupLocked 2000).cfg = normaliseSessionConfig testConfig := by
    rw [cleanupLocked_cfg]; rfl
  have hq : quotaHealth authB "test-model" 2000 = 1 := rfl
  unfold SessionSelector.scoreOf SessionSelector.scoreAuthLocked
  rw [hst, hc, normalise_eq]
  norm_num [hq, testConfig]

theorem emptyBound_pick :
    (emptyBoundState.Pick (insertionSlice scored) "session_id" 2000 "codex" "test-model"
      sessionOpts (Except.ok [emptyIDAuth, authB])).1 = Except.ok authB := by
  rw [pick_two_fresh _ _ _ _ _ _ _ _ _ _ emptyBound_lookup]
  have hl1 : (emptyBoundState.cleanupLocked 2000).loadOf emptyIDAuth "test-model" 2000 = 1 := by
    decide
  have hl2 : (emptyBoundState.cleanupLocked 2000).loadOf authB "test-model" 2000 = 0 := by
    decide
  have hless : scoredLess
      ((emptyBoundState.cleanupLocked 2000).scoredOf "test-model" 2000 authB)
      ((emptyBoundState.cleanupLocked 2000).scoredOf "test-model" 2000 emptyIDAuth) = true := by
    rw [scoredLess_load _ _ (by
      simp only [SessionSelector.scoredOf, emptyBound_score_empty, emptyBound_score_other])]
    simp only [SessionSelector.scoredOf, hl1, hl2]
    decide
  rw [hless]
  rfl

theorem cooled_lookup :
    ((cooledState longCooldownConfig 400).cleanupLocked (2000 + 6 * Minute)).lookupBinding
        (2000 + 6 * Minute) ((cooledState longCooldownConfig 400).isProviderEnabled "codex")
        "codex" (extractSessionIDFromOptions "session_id" sessionOpts) [authA, exceededB] =
      BindingLookup.fresh ""
        ((cooledState longCooldownConfig 400).cleanupLocked (2000 + 6 * Minute)) := rfl

theorem cooled_score_a :
    ((cooledState longCooldownConfig 400).cleanupLocked (2000 + 6 * Minute)).scoreOf authA
      "test-model" (2000 + 6 * Minute) = 2 / 5 := by
  have hst : ((cooledState longCooldownConfig 400).cleanupLocked (2000 + 6 * Minute)).stats
      authA.ID = some ⟨[⟨2000, false, 400⟩], [2000], []⟩ := by decide
  have hc : ((cooledState longCooldownConfig 400).cleanupLocked (2000 + 6 * Minute)).cfg =
      normaliseSessionConfig longCooldownConfig := by
    rw [cleanupLocked_cfg]; rfl
  have hq : quotaHealth authA "test-model" (2000 + 6 * Minute) = 1 := rfl
  unfold SessionSelector.scoreOf SessionSelector.scoreAuthLocked
  rw [hst, hc, normalise_eq]
  norm_num [countSamples, clamp01, hq, longCooldownConfig, testConfig]

theorem cooled_score_b :
    ((cooledState longCooldownConfig 400).cleanupLocked (2000 + 6 * Minute)).scoreOf exceededB
      "test-model" (2000 + 6 * Minute) = 3 / 10 := by
  have hst : ((cooledState longCooldownConfig 400).cleanupLocked (2000 + 6 * Minute)).stats
      exceededB.ID = none := by decide
  have hc : ((cooledState longCooldownConfig 400).cleanupLocked (2000 + 6 * Minute)).cfg =
      normaliseSessionConfig longCooldownConfig := by
    rw [cleanupLocked_cfg]; rfl
  have hq : quotaHealth exceededB "test-model" (2000 + 6 * Minute) = 0 := rfl
  unfold SessionSelector.scoreOf SessionSelector.scoreAuthLocked
  rw [hst, hc, normalise_eq]
  norm_num [hq, longCooldownConfig, testConfig]

theorem cooled_pick :
    ((cooledState longCooldownConfig 400).Pick (insertionSlice scored) "session_id"
      (2000 + 6 * Minute) "codex" "test-model" sessionOpts
      (Except.ok [authA, exceededB])).1 = Except.ok authA := by
  rw [pick_two_fresh _ _ _ _ _ _ _ _ _ _ cooled_lookup]
  have hless : scoredLess
      (((cooledState longCooldownConfig 400).cleanupLocked (2000 + 6 * Minute)).scoredOf
        "test-model" (2000 + 6 * Minute) exceededB)
      (((cooledState longCooldownConfig 400).cleanupLocked (2000 + 6 * Minute)).scoredOf
        "test-model" (2000 + 6 * Minute) authA) = false := by
    unfold scoredLess absQ
    simp only [SessionSelector.scoredOf, cooled_score_a, cooled_score_b]
    norm_num
  rw [hless]
  rfl

theorem warned_pick :
    ((NewSessionSelector testConfig).Pick (insertionSlice scored) "session_id" 1000 "codex"
      "test-model" sessionOpts (Except.ok [warnedA, authB])).1 = Except.ok authB := by
  have hl : ((NewSessionSelector testConfig).cleanupLocked 1000).lookupBinding 1000
      ((NewSessionSelector testConfig).isProviderEnabled "codex") "codex"
      (extractSessionIDFromOptions "session_id" sessionOpts) [warnedA, authB] =
      BindingLookup.fresh "" ((NewSessionSelector testConfig).cleanupLocked 1000) := rfl
  rw [pick_two_fresh _ _ _ _ _ _ _ _ _ _ hl]
  have hc : ((NewSessionSelector testConfig).cleanupLocked 1000).cfg =
      normaliseSessionConfig testConfig := by
    rw [cleanupLocked_cfg]; rfl
  have ha := (score_no_stats ((NewSessionSelector testConfig).cleanupLocked 1000) warnedA
    "test-model" 1000 rfl).1
  have hb := (score_no_stats ((NewSessionSelector testConfig).cleanupLocked 1000) authB
    "test-model" 1000 rfl).1
  have hqa : quotaHealth warnedA "test-model" 1000 = 1 / 5 := rfl
  have hqb : quotaHealth authB "test-model" 1000 = 1 := rfl
  have hless : scoredLess
      (((NewSessionSelector testConfig).cleanupLocked 1000).scoredOf "test-model" 1000 authB)
      (((NewSessionSelector testConfig).cleanupLocked 1000).scoredOf "test-model" 1000 warnedA) =
      true := by
    unfold scoredLess absQ
    simp only [SessionSelector.scoredOf, ha, hb, SessionSelector.baseWeighted, hc, normalise_eq,
      hqa, hqb]
    norm_num [testConfig]
  rw [hless]
  rfl

/-! ## Claims C1 to C5: the session selector -/

/-- C1, amended. Stickiness: for a session-enabled provider and a non-empty session
id whose binding is live (`lastUsed + TTL > now`), not in cooldown
(`cooldownUntil ≤ now`) and bound to a non-empty auth id that is among the available
candidates, `Pick` returns an available auth with that id, and afterwards the
binding has the same `authID`, `failCount` and `cooldownUntil` and `lastUsed = now`. -/
theorem pick_sticky (srt : SortSlice scored) (mk : String) (s : SessionSelector) (now : Time)
    (provider model : String) (opts : Options) (available : List Auth) (b : sessionBinding)
    (hen : s.isProviderEnabled provider = true)
    (hS : extractSessionIDFromOptions mk opts ≠ "")
    (hb : s.sessions (ToLower provider ++ ":" ++ extractSessionIDFromOptions mk opts) = some b)
    (hlive : now < b.lastUsed + s.cfg.TTL)
    (hcool : b.cooldownUntil ≤ now)
    (hid : b.authID ≠ "")
    (hmem : ∃ a ∈ available, a.ID = b.authID) :
    ∃ a, (s.Pick srt mk now provider model opts (Except.ok available)).1 = Except.ok a ∧
      a ∈ available ∧ a.ID = b.authID ∧
      (s.Pick srt mk now provider model opts (Except.ok available)).2.sessions
          (ToLower provider ++ ":" ++ extractSessionIDFromOptions mk opts) =
        some { authID := b.authID, lastUsed := now, failCount := b.failCount,
               cooldownUntil := b.cooldownUntil } :=
  bound_auth_returned srt mk s now provider model opts available b hen hS hb hlive hcool hid hmem

/-- Witness for C1: `session-1` is bound to `auth-a` at time 1000 and picks again at
time 2000 over `auth-a` and `auth-b`. -/
theorem pick_sticky_witness :
    ∃ a, (boundState.Pick (insertionSlice scored) "session_id" 2000 "codex" "test-model"
        sessionOpts (Except.ok [authA, authB])).1 = Except.ok a ∧
      a ∈ [authA, authB] ∧ a.ID = "auth-a" ∧
      (boundState.Pick (insertionSlice scored) "session_id" 2000 "codex" "test-model"
        sessionOpts (Except.ok [authA, authB])).2.sessions "codex:session-1" =
        some { authID := "auth-a", lastUsed := 2000, failCount := 0, cooldownUntil := 0 } :=
  pick_sticky (insertionSlice scored) "session_id" boundState 2000 "codex" "test-model"
    sessionOpts [authA, authB]
    { authID := "auth-a", lastUsed := 1000, failCount := 0, cooldownUntil := 0 }
    (by decide) (by decide) (by decide) (by decide) (by decide) (by decide)
    ⟨authA, by decide, by decide⟩

/-- Counterexample to C1 as stated: a live binding without cooldown whose auth id is
the empty string, with the auth of that id among the available candidates, and
`Pick` returns `auth-b`. -/
theorem pick_sticky_counterexample :
    emptyBoundState.isProviderEnabled "codex" = true ∧
    extractSessionIDFromOptions "session_id" sessionOpts = "session-1" ∧
    emptyBoundState.sessions (ToLower "codex" ++ ":" ++ "session-1") =
      some { authID := "", lastUsed := 1000, failCount := 0, cooldownUntil := 0 } ∧
    (2000 : Time) < 1000 + emptyBoundState.cfg.TTL ∧
    (0 : Time) ≤ 2000 ∧
    emptyIDAuth ∈ [emptyIDAuth, authB] ∧ emptyIDAuth.ID = "" ∧
    (emptyBoundState.Pick (insertionSlice scored) "session_id" 2000 "codex" "test-model"
      sessionOpts (Except.ok [emptyIDAuth, authB])).1 = Except.ok authB ∧
    authB.ID ≠ "" :=
  ⟨by decide, by decide, by decide, by decide, by decide, by decide, by decide,
    emptyBound_pick, by decide⟩

/-- C2, amended. Failover on cooldown: for a session-enabled provider and a non-empty
session id whose binding is live (`lastUsed + TTL > now`), in cooldown
(`cooldownUntil > now`) and bound to a non-empty auth id, `Pick` returns an
available auth with a different id whenever the available candidates contain one. -/
theorem pick_failover (srt : SortSlice scored) (mk : String) (s : SessionSelector) (now : Time)
    (provider model : String) (opts : Options) (available : List Auth) (b : sessionBinding)
    (hen : s.isProviderEnabled provider = true)
    (hS : extractSessionIDFromOptions mk opts ≠ "")
    (hb : s.sessions (ToLower provider ++ ":" ++ extractSessionIDFromOptions mk opts) = some b)
    (hlive : now < b.lastUsed + s.cfg.TTL)
    (hcool : now < b.cooldownUntil)
    (hid : b.authID ≠ "")
    (hother : ∃ a ∈ available, a.ID ≠ b.authID) :
    ∃ a, (s.Pick srt mk now provider model opts (Except.ok available)).1 = Except.ok a ∧
      a ∈ available ∧ a.ID ≠ b.authID :=
  cooled_auth_excluded srt mk s now provider model opts available b hen hS hb hlive hcool hid hother

/-- Witness for C2: `auth-a` fails once for `session-1` at time 2000 under the test
configuration; the pick at time 3000 is within TTL and cooldown. -/
theorem pick_failover_witness :
    ∃ a, ((cooledState testConfig 429).Pick (insertionSlice scored) "session_id" 3000 "codex"
        "test-model" sessionOpts (Except.ok [authA, authB])).1 = Except.ok a ∧
      a ∈ [authA, authB] ∧ a.ID ≠ "auth-a" :=
  pick_failover (insertionSlice scored) "session_id" (cooledState testConfig 429) 3000 "codex"
    "test-model" sessionOpts [authA, authB]
    { authID := "auth-a", lastUsed := 2000, failCount := 0, cooldownUntil := 2000 + 5 * Minute }
    (by decide) (by decide) (by decide) (by decide) (by decide) (by decide)
    ⟨authB, by decide, by decide⟩

/-- Counterexample to C2 as stated: with a cooldown of ten minutes and a TTL of five,
the binding of `session-1` to `auth-a` is still in cooldown six minutes after the
failure, another candidate is available, and `Pick` returns `auth-a`. -/
theorem pick_failover_counterexample :
    (cooledState longCooldownConfig 400).isProviderEnabled "codex" = true ∧
    extractSessionIDFromOptions "session_id" sessionOpts = "session-1" ∧
    (cooledState longCooldownConfig 400).sessions (ToLower "codex" ++ ":" ++ "session-1") =
      some { authID := "auth-a", lastUsed := 2000, failCount := 0,
             cooldownUntil := 2000 + 10 * Minute } ∧
    (2000 + 6 * Minute : Time) < 2000 + 10 * Minute ∧
    exceededB ∈ [authA, exceededB] ∧ exceededB.ID ≠ "auth-a" ∧
    ((cooledState longCooldownConfig 400).Pick (insertionSlice scored) "session_id"
      (2000 + 6 * Minute) "codex" "test-model" sessionOpts
      (Except.ok [authA, exceededB])).1 = Except.ok authA ∧
    authA.ID = "auth-a" :=
  ⟨by decide, by decide, by decide, by decide, by decide, by decide, cooled_pick, by decide⟩

/-- C3, amended. Session scope key: after a successful `Pick` for a session-enabled
provider `P` and a non-empty session id `S`, the sessions map holds at key
`lower(P) + ":" + S` a binding to the returned auth, last used now; and every
binding at another key was there before the call, unchanged. -/
theorem pick_scope_key (srt : SortSlice scored) (mk : String) (s : SessionSelector) (now : Time)
    (provider model : String) (opts : Options) (available : Except Error (List Auth)) (a : Auth)
    (hen : s.isProviderEnabled provider = true)
    (hS : extractSessionIDFromOptions mk opts ≠ "")
    (hok : (s.Pick srt mk now provider model opts available).1 = Except.ok a) :
    (∃ b, (s.Pick srt mk now provider model opts available).2.sessions
          (ToLower provider ++ ":" ++ extractSessionIDFromOptions mk opts) = some b ∧
        b.authID = a.ID ∧ b.lastUsed = now) ∧
    ∀ k, k ≠ ToLower provider ++ ":" ++ extractSessionIDFromOptions mk opts →
      (s.Pick srt mk now provider model opts available).2.sessions k = none ∨
      (s.Pick srt mk now provider model opts available).2.sessions k = s.sessions k :=
  binding_written_at_key srt mk s now provider model opts available a hen hS hok

/-- Witness for C3: the first pick of the test selector for provider `codex`. -/
theorem pick_scope_key_witness :
    (∃ b, ((NewSessionSelector testConfig).Pick (insertionSlice scored) "session_id" 1000
          "codex" "test-model" sessionOpts (Except.ok [authA])).2.sessions
          (ToLower "codex" ++ ":" ++ extractSessionIDFromOptions "session_id" sessionOpts) =
          some b ∧ b.authID = authA.ID ∧ b.lastUsed = 1000) ∧
    ∀ k, k ≠ ToLower "codex" ++ ":" ++ extractSessionIDFromOptions "session_id" sessionOpts →
      ((NewSessionSelector testConfig).Pick (insertionSlice scored) "session_id" 1000
        "codex" "test-model" sessionOpts (Except.ok [authA])).2.sessions k = none ∨
      ((NewSessionSelector testConfig).Pick (insertionSlice scored) "session_id" 1000
        "codex" "test-model" sessionOpts (Except.ok [authA])).2.sessions k =
        (NewSessionSelector testConfig).sessions k :=
  pick_scope_key (insertionSlice scored) "session_id" (NewSessionSelector testConfig) 1000
    "codex" "test-model" sessionOpts (Except.ok [authA]) authA (by decide) (by decide) rfl

/-- Counterexample to C3 as stated: the provider argument `mixed` is not in the
provider list `["codex"]`; the pick for `session-1` succeeds and leaves no binding
at `mixed:session-1`. -/
theorem pick_scope_key_counterexample :
    ((NewSessionSelector testConfig).Pick (insertionSlice scored) "session_id" 1000 "mixed"
      "test-model" sessionOpts (Except.ok [authA])).1 = Except.ok authA ∧
    extractSessionIDFromOptions "session_id" sessionOpts = "session-1" ∧
    ((NewSessionSelector testConfig).Pick (insertionSlice scored) "session_id" 1000 "mixed"
      "test-model" sessionOpts (Except.ok [authA])).2.sessions
      (ToLower "mixed" ++ ":" ++ "session-1") = none :=
  ⟨rfl, by decide, by decide⟩

/-- C4. The test `TestSessionSelectorPick_MixedCreatesProviderScopedBinding` on the
code: with providers `["codex"]`, a pick with provider argument `mixed` for
`session-1` over the single auth `auth-a` returns `auth-a` and leaves no binding at
`codex:session-1` (the test expects one) and none at `mixed:session-1`, whatever the
sort, the metadata key and the time. -/
theorem mixed_pick_leaves_no_binding (srt : SortSlice scored) (mk : String) (now : Time) :
    ((NewSessionSelector testConfig).Pick srt mk now "mixed" "test-model"
      { Metadata := some [(mk, AnyValue.str "session-1")] } (Except.ok [authA])).1 =
      Except.ok authA ∧
    ((NewSessionSelector testConfig).Pick srt mk now "mixed" "test-model"
      { Metadata := some [(mk, AnyValue.str "session-1")] } (Except.ok [authA])).2.sessions
      "codex:session-1" = none ∧
    ((NewSessionSelector testConfig).Pick srt mk now "mixed" "test-model"
      { Metadata := some [(mk, AnyValue.str "session-1")] } (Except.ok [authA])).2.sessions
      "mixed:session-1" = none := by
  have hen : (NewSessionSelector testConfig).isProviderEnabled "mixed" = false := by decide
  have hl := lookupBinding_disabled ((NewSessionSelector testConfig).cleanupLocked now) now
    "mixed" (extractSessionIDFromOptions mk { Metadata := some [(mk, AnyValue.str "session-1")] })
    [authA]
  rw [← hen] at hl
  rw [pick_of_fresh srt mk _ now "mixed" "test-model" _ [authA] "" _ hl]
  have hg : ¬ ((NewSessionSelector testConfig).isProviderEnabled "mixed" = true ∧
      extractSessionIDFromOptions mk { Metadata := some [(mk, AnyValue.str "session-1")] } ≠
        "") := by
    rw [hen]; simp
  have h01 : ¬ (0 + 1 = 0) := by decide
  simp only [filterAuthsByID_empty, List.length_cons, List.length_nil,
    SessionSelector.pickBestCandidateLocked, if_neg hg, if_neg h01]
  refine ⟨trivial, ?_, ?_⟩
  · rw [addPending_sessions, cleanupLocked_sessions]
    rfl
  · rw [addPending_sessions, cleanupLocked_sessions]
    rfl

theorem authA_lt_authB : authA.ID < authB.ID := by
  rw [String.lt_iff_toList_lt]
  decide

theorem warnedA_lt_authB : warnedA.ID < authB.ID := authA_lt_authB

theorem mem_pair_id (x : Auth) (h : x ∈ [authA, authB]) (hid : x.ID = "auth-a") : x = authA := by
  simp only [List.mem_cons, List.mem_singleton, List.not_mem_nil, or_false] at h
  rcases h with h | h
  · exact h
  · subst h
    exact absurd hid (by decide)

/-- The test's calls on a selector without provider allow-list: the binding made
for provider `mixed` is not touched by a result reported for provider `codex`, and
the second pick returns `auth-a` again. -/
theorem open_sticky :
    ((NewSessionSelector openConfig).Pick (insertionSlice scored) "session_id" 1000 "mixed"
      "test-model" sessionOpts (Except.ok [authA, authB])).1 = Except.ok authA ∧
    ((((NewSessionSelector openConfig).Pick (insertionSlice scored) "session_id" 1000 "mixed"
      "test-model" sessionOpts (Except.ok [authA, authB])).2.RecordResult 2000 sessionCtx
      (failedResult "codex" 429)).Pick (insertionSlice scored) "session_id" 3000 "mixed"
      "test-model" sessionOpts (Except.ok [authA, authB])).1 = Except.ok authA := by
  obtain ⟨h1, hl1⟩ := pick_two_unscored (insertionSlice scored) "session_id"
    (NewSessionSelector openConfig) 1000 "mixed" "test-model" sessionOpts authA authB
    [authA, authB] rfl rfl rfl authA_lt_authB rfl (Or.inl rfl)
  refine ⟨h1, ?_⟩
  have hen : (NewSessionSelector openConfig).isProviderEnabled "mixed" = true := by decide
  have hS : extractSessionIDFromOptions "session_id" sessionOpts ≠ "" := by decide
  have hbind := pick_fresh_binding (insertionSlice scored) "session_id"
    (NewSessionSelector openConfig) 1000 "mixed" "test-model" sessionOpts [authA, authB]
    "" _ authA hl1 hen hS h1
  have hscope := (binding_written_at_key (insertionSlice scored) "session_id"
    (NewSessionSelector openConfig) 1000 "mixed" "test-model" sessionOpts
    (Except.ok [authA, authB]) authA hen hS h1).2 "codex:session-1" (by decide)
  have hcfg1 := pick_cfg (insertionSlice scored) "session_id" (NewSessionSelector openConfig)
    1000 "mixed" "test-model" sessionOpts (Except.ok [authA, authB])
  generalize ((NewSessionSelector openConfig).Pick (insertionSlice scored) "session_id" 1000
    "mixed" "test-model" sessionOpts (Except.ok [authA, authB])).2 = s1
    at hbind hscope hcfg1 ⊢
  have hnone : s1.sessions "codex:session-1" = none := by
    rcases hscope with h | h
    · exact h
    · rw [h]; rfl
  have hs2 : s1.RecordResult 2000 sessionCtx (failedResult "codex" 429) =
      (s1.recordStats 2000 (failedResult "codex" 429)).recordBinding 2000 "session-1"
        (failedResult "codex" 429) := rfl
  have hsess : (s1.RecordResult 2000 sessionCtx (failedResult "codex" 429)).sessions =
      s1.sessions := by
    rw [hs2, recordBinding_skips _ _ _ _ (Or.inr hnone)]
    rfl
  have hcfg2 : (s1.RecordResult 2000 sessionCtx (failedResult "codex" 429)).cfg =
      (NewSessionSelector openConfig).cfg := by
    rw [recordResult_cfg, hcfg1]
  generalize s1.RecordResult 2000 sessionCtx (failedResult "codex" 429) = s2 at hsess hcfg2 ⊢
  have hen2 : s2.isProviderEnabled "mixed" = true := by
    rw [isProviderEnabled_congr s2 (NewSessionSelector openConfig) "mixed" hcfg2]
    exact hen
  obtain ⟨x, hx, hxmem, hxid, _⟩ := bound_auth_returned (insertionSlice scored) "session_id" s2 3000
    "mixed" "test-model" sessionOpts [authA, authB]
    { authID := authA.ID, lastUsed := 1000, failCount := 0, cooldownUntil := 0 }
    hen2 hS (by rw [hsess]; exact hbind) (by rw [hcfg2]; decide) (by decide) (by decide)
    ⟨authA, by decide, rfl⟩
  rw [hx, mem_pair_id x hxmem hxid]

/-- C5, amended. Failover after one recorded failure: on a fresh selector with failure
threshold 1 and cooldown and TTL of five minutes, over two available candidates
`a` and `b` with `a.ID < b.ID`, `a.ID` non-empty and equal quota health, the first
pick for session `S` returns `a`; after one failed result with status 429 for `a`
under a context carrying `S`, a second pick for `S` within the cooldown returns `b`,
provided either the provider is session-enabled and the result names a provider
with the same lower-cased name, or the provider is not session-enabled and the
weights and the 429 penalty are the defaults. -/
theorem failover_after_failure (srt : SortSlice scored) (mk : String)
    (c : SessionSelectorConfig) (provider model : String) (opts : Options)
    (ctx : Option Context) (result : Result) (a b : Auth) (av1 av2 : List Auth)
    (now1 nowR now2 : Time) (err : Error)
    (hth : c.FailureThreshold = 1) (hcd : c.Cooldown = 5 * Minute) (httl : c.TTL = 5 * Minute)
    (hab : a.ID < b.ID) (ha : a.ID ≠ "")
    (hq : quotaHealth a model now1 = quotaHealth b model now1)
    (hav1 : av1 = [a, b] ∨ av1 = [b, a]) (hav2 : av2 = [a, b] ∨ av2 = [b, a])
    (hS : extractSessionIDFromOptions mk opts ≠ "")
    (hctx : SessionIDFromContext ctx = extractSessionIDFromOptions mk opts)
    (hres : result.AuthID = a.ID) (hfail : result.Success = false)
    (herr : result.Error = some err) (h429 : err.HTTPStatus = 429)
    (hwithin : now2 < nowR + 5 * Minute)
    (hmode :
      ((NewSessionSelector c).isProviderEnabled provider = true ∧
        ToLower result.Provider = ToLower provider) ∨
      ((NewSessionSelector c).isProviderEnabled provider = false ∧
        c.WeightSuccess ≤ 0 ∧ c.WeightQuota ≤ 0 ∧ c.Penalty429 ≤ 0)) :
    ((NewSessionSelector c).Pick srt mk now1 provider model opts (Except.ok av1)).1 =
        Except.ok a ∧
    ((((NewSessionSelector c).Pick srt mk now1 provider model opts (Except.ok av1)).2.RecordResult
        nowR ctx result).Pick srt mk now2 provider model opts (Except.ok av2)).1 =
        Except.ok b := by
  rcases hmode with ⟨hen, hprov⟩ | ⟨hen, hws, hwq, hp⟩
  · exact failover_by_cooldown srt mk c provider model opts ctx result a b av1 av2 now1 nowR now2
      hth hcd httl hab ha hq hav1 hav2 hS hctx hres hfail hwithin hen hprov
  · exact failover_by_score srt mk c provider model opts ctx result a b av1 av2 now1 nowR now2
      err hab ha hq hav1 hav2 hres hfail herr h429 hen hws hwq hp

/-- Witness for C5: the test `TestSessionSelectorPick_MixedCooldownFailover`, with
picks at times 1000 and 3000 and the failure reported at time 2000. -/
theorem failover_after_failure_witness :
    ((NewSessionSelector testConfig).Pick (insertionSlice scored) "session_id" 1000 "mixed"
      "test-model" sessionOpts (Except.ok [authA, authB])).1 = Except.ok authA ∧
    ((((NewSessionSelector testConfig).Pick (insertionSlice scored) "session_id" 1000 "mixed"
      "test-model" sessionOpts (Except.ok [authA, authB])).2.RecordResult 2000 sessionCtx
      (failedResult "codex" 429)).Pick (insertionSlice scored) "session_id" 3000 "mixed"
      "test-model" sessionOpts (Except.ok [authA, authB])).1 = Except.ok authB :=
  failover_after_failure (insertionSlice scored) "session_id" testConfig "mixed" "test-model"
    sessionOpts sessionCtx (failedResult "codex" 429) authA authB [authA, authB] [authA, authB]
    1000 2000 3000 { HTTPStatus := 429, Message := "failed" }
    rfl rfl rfl authA_lt_authB (by decide) rfl (Or.inl rfl) (Or.inl rfl) (by decide) (by decide)
    rfl rfl rfl rfl (by decide)
    (Or.inr ⟨by decide, le_refl _, le_refl _, le_refl _⟩)

/-- Counterexample to C5 as stated. First: two available candidates whose quota
health differs, and the first pick returns the one with the larger id. Second: the
test's calls on a selector without provider allow-list (threshold 1, cooldown and
TTL five minutes), and the second pick, within the cooldown, returns `auth-a`
again. -/
theorem failover_after_failure_counterexample :
    (warnedA.ID < authB.ID ∧
      ((NewSessionSelector testConfig).Pick (insertionSlice scored) "session_id" 1000 "codex"
        "test-model" sessionOpts (Except.ok [warnedA, authB])).1 = Except.ok authB) ∧
    (authA.ID < authB.ID ∧ (3000 : Time) < 2000 + 5 * Minute ∧
      SessionIDFromContext sessionCtx = extractSessionIDFromOptions "session_id" sessionOpts ∧
      ((NewSessionSelector openConfig).Pick (insertionSlice scored) "session_id" 1000 "mixed"
        "test-model" sessionOpts (Except.ok [authA, authB])).1 = Except.ok authA ∧
      ((((NewSessionSelector openConfig).Pick (insertionSlice scored) "session_id" 1000 "mixed"
        "test-model" sessionOpts (Except.ok [authA, authB])).2.RecordResult 2000 sessionCtx
        (failedResult "codex" 429)).Pick (insertionSlice scored) "session_id" 3000 "mixed"
        "test-model" sessionOpts (Except.ok [authA, authB])).1 = Except.ok authA) :=
  ⟨⟨warnedA_lt_authB, warned_pick⟩, authA_lt_authB, by decide, by decide, open_sticky.1,
    open_sticky.2⟩

/-! ## Claims C6 to C10: the request log -/

/-- C6. Request log bound: in every state reachable from the empty store by Start,
Update and Finish calls, the order list holds at most 500 ids, all distinct, and
the keys of the entry map are exactly the ids of the order list, so the entry map
holds at most 500 ids as well. -/
theorem request_log_bound (ops : List LogOp) :
    (runLog ops).order.length ≤ 500 ∧
    ∃ keys : List String, keys.Nodup ∧ keys.length ≤ 500 ∧
      ∀ id, (runLog ops).entries id ≠ none ↔ id ∈ keys :=
  have h := logInv_runLog ops
  ⟨h.bound, (runLog ops).order, h.nodup, h.bound, h.dom⟩

theorem reqCalls_ids : reqCalls.map StartCall.id = (List.range 501).map reqID := by
  simp [reqCalls, Function.comp_def]

theorem ids_nonempty_of_req (calls : List StartCall)
    (h : calls.map StartCall.id = (List.range 501).map reqID) : ∀ c ∈ calls, c.id ≠ "" := by
  intro c hc
  have h1 : c.id ∈ (List.range 501).map reqID := h ▸ List.mem_map_of_mem _ hc
  obtain ⟨i, hi, hic⟩ := List.mem_map.1 h1
  rw [← hic]
  exact reqID_ne_empty i (List.mem_range.1 hi)

theorem length_of_req (calls : List StartCall)
    (h : calls.map StartCall.id = (List.range 501).map reqID) : calls.length = 501 := by
  have := congrArg List.length h
  simpa using this

/-- C7. FIFO eviction: after starting more than 500 pairwise distinct non-empty ids
on the empty store, the order list is exactly the last 500 ids started, in insertion
order; the entry map has an entry for exactly those ids and none for the first
`n - 500`; in particular after starting `req-0` .. `req-500` a full snapshot has
length 500 and does not contain `req-0`. -/
theorem fifo_eviction :
    (∀ calls : List StartCall, (calls.map StartCall.id).Nodup → (∀ c ∈ calls, c.id ≠ "") →
      500 < calls.length →
        (startAll calls).order = (calls.map StartCall.id).drop (calls.length - 500) ∧
        (startAll calls).order.length = 500 ∧
        (∀ id, (startAll calls).entries id ≠ none ↔
          id ∈ (calls.map StartCall.id).drop (calls.length - 500)) ∧
        (∀ id ∈ (calls.map StartCall.id).take (calls.length - 500),
          (startAll calls).entries id = none)) ∧
    (∀ (srt : SortSlice RequestLogEntry) (calls : List StartCall),
      calls.map StartCall.id = (List.range 501).map reqID →
        (SnapshotRequestLogs srt (startAll calls) 0).length = 500 ∧
        ∀ e ∈ SnapshotRequestLogs srt (startAll calls) 0, e.ID ≠ "req-0") := by
  have gen : ∀ calls : List StartCall, (calls.map StartCall.id).Nodup →
      (∀ c ∈ calls, c.id ≠ "") → 500 < calls.length →
        (startAll calls).order = (calls.map StartCall.id).drop (calls.length - 500) ∧
        (startAll calls).order.length = 500 ∧
        (∀ id, (startAll calls).entries id ≠ none ↔
          id ∈ (calls.map StartCall.id).drop (calls.length - 500)) ∧
        (∀ id ∈ (calls.map StartCall.id).take (calls.length - 500),
          (startAll calls).entries id = none) := by
    intro calls hnd hne hlen
    have hs := logInv_startAll calls
    have ho : (startAll calls).order = (calls.map StartCall.id).drop (calls.length - 500) := by
      have h := startAll_order calls hnd hne
      rw [List.length_map] at h
      exact h
    refine ⟨ho, ?_, ?_, ?_⟩
    · rw [ho, List.length_drop, List.length_map]
      omega
    · intro id
      rw [← ho]
      exact hs.dom id
    · intro id hid
      by_contra h
      have h1 := (hs.dom id).1 h
      rw [ho, mem_drop_iff_of_nodup hnd] at h1
      exact h1.2 hid
  refine ⟨gen, ?_⟩
  intro srt calls hids
  have hnd : (calls.map StartCall.id).Nodup := by rw [hids]; exact reqID_nodup
  have hne := ids_nonempty_of_req calls hids
  have hlen := length_of_req calls hids
  obtain ⟨ho, hol, _, hev⟩ := gen calls hnd hne (by omega)
  have hs := logInv_startAll calls
  constructor
  · have hp := (snapshot_ids_perm srt hs 0).length_eq
    rw [List.length_map, List.length_drop] at hp
    have hk : snapshotCount (startAll calls).order.length 0 = (startAll calls).order.length := by
      simp [snapshotCount]
    rw [hk, hol] at hp
    exact hp
  · intro e he hid
    have h1 := snapshot_stored srt hs 0 e he
    have h2 : (startAll calls).entries "req-0" = none := by
      apply hev
      rw [hids, hlen, show (501 : Nat) = 500 + 1 from rfl, List.range_succ_eq_map,
        List.map_cons, show 500 + 1 - 500 = 0 + 1 from rfl, List.take_succ_cons]
      exact List.mem_cons_self _ _
    rw [hid, h2] at h1
    exact absurd h1 (by simp)

/-- Witness for C7: the calls `req-0` .. `req-500`. -/
theorem fifo_eviction_witness :
    (startAll reqCalls).order = (reqCalls.map StartCall.id).drop (reqCalls.length - 500) ∧
    (startAll reqCalls).order.length = 500 ∧
    (∀ id, (startAll reqCalls).entries id ≠ none ↔
      id ∈ (reqCalls.map StartCall.id).drop (reqCalls.length - 500)) ∧
    (∀ id ∈ (reqCalls.map StartCall.id).take (reqCalls.length - 500),
      (startAll reqCalls).entries id = none) :=
  fifo_eviction.1 reqCalls (by rw [reqCalls_ids]; exact reqID_nodup)
    (ids_nonempty_of_req reqCalls reqCalls_ids)
    (by rw [length_of_req reqCalls reqCalls_ids]; decide)

theorem insertionSort_three_desc (e3 e2 e1 : RequestLogEntry)
    (h32 : e2.StartedAt < e3.StartedAt) (h21 : e1.StartedAt < e2.StartedAt) :
    insertionSortLess startedAfter [e3, e2, e1] = [e3, e2, e1] := by
  have a : startedAfter e2 e3 = false := by
    unfold startedAfter Time.After
    simp only [decide_eq_false_iff_not, Time] at *
    omega
  have b : startedAfter e1 e2 = false := by
    unfold startedAfter Time.After
    simp only [decide_eq_false_iff_not, Time] at *
    omega
  simp [insertionSortLess, insertLeft, a, b]

theorem map_ID_three (col : List RequestLogEntry) (a b c : String)
    (h : col.map RequestLogEntry.ID = [a, b, c]) :
    ∃ e3 e2 e1, col = [e3, e2, e1] ∧ e3.ID = a ∧ e2.ID = b ∧ e1.ID = c := by
  match col, h with
  | [e3, e2, e1], h =>
    simp only [List.map_cons, List.map_nil, List.cons.injEq, and_true] at h
    exact ⟨e3, e2, e1, rfl, h.1, h.2.1, h.2.2⟩
  | [], h => simp at h
  | [_], h => simp at h
  | [_, _], h => simp at h
  | _ :: _ :: _ :: _ :: _, h => simp at h

/-- C8. Snapshot ordering: for every reachable store state and every limit the
snapshot is sorted by `StartedAt` non-increasing; and after three Starts of distinct
non-empty ids on the empty store, recorded at `t`, `t + 1s`, `t + 2s`, a full
snapshot returns the ids in the order last, middle, first. -/
theorem snapshot_ordering (srt : SortSlice RequestLogEntry) :
    (∀ (ops : List LogOp) (k : Int),
      List.Pairwise (fun a b => b.StartedAt ≤ a.StartedAt)
        (SnapshotRequestLogs srt (runLog ops) k)) ∧
    (∀ (c1 c2 c3 : StartCall) (t : Time) (k : Int),
      c1.id ≠ "" → c2.id ≠ "" → c3.id ≠ "" →
      c1.id ≠ c2.id → c1.id ≠ c3.id → c2.id ≠ c3.id →
      c1.effectiveStart = t → c2.effectiveStart = t + Second →
      c3.effectiveStart = t + 2 * Second →
      (k ≤ 0 ∨ 3 ≤ k) →
      (SnapshotRequestLogs srt (startAll [c1, c2, c3]) k).map RequestLogEntry.ID =
        [c3.id, c2.id, c1.id]) := by
  constructor
  · intro ops k
    have h := srt.sorted startedAfter
      (snapshotCollect (runLog ops).entries (snapshotCount (runLog ops).order.length k)
        (runLog ops).order.reverse []) strictWeak_startedAfter
    refine List.Pairwise.imp ?_ h
    intro a b hab
    unfold startedAfter Time.After at hab
    simp only [decide_eq_false_iff_not, Time] at *
    omega
  · intro c1 c2 c3 t k n1 n2 n3 d12 d13 d23 t1 t2 t3 hk
    have hnd : (([c1, c2, c3] : List StartCall).map StartCall.id).Nodup := by
      simp [d12, d13, d23]
    have hne : ∀ c ∈ ([c1, c2, c3] : List StartCall), c.id ≠ "" := by
      intro c hc
      simp only [List.mem_cons, List.mem_singleton, List.not_mem_nil, or_false] at hc
      rcases hc with h | h | h <;> subst h <;> assumption
    have hs := logInv_startAll [c1, c2, c3]
    have ho : (startAll [c1, c2, c3]).order = [c1.id, c2.id, c3.id] := by
      rw [startAll_order _ hnd hne]
      have h0 : (([c1, c2, c3] : List StartCall).map StartCall.id).length -
          maxRequestLogEntries = 0 := by
        simp [maxRequestLogEntries]
      rw [h0]
      rfl
    have hcount : snapshotCount (startAll [c1, c2, c3]).order.length k = 3 := by
      rw [ho]
      unfold snapshotCount
      simp only [List.length_cons, List.length_nil]
      rcases hk with h | h
      · simp [h]
      · by_cases h3 : k = 3
        · subst h3; simp
        · have : (3 : Int) < k := by omega
          simp [this]
    have hcol := snapshot_collected hs k
    rw [hcount] at hcol
    have hst := collected_stored hs 3 (startAll [c1, c2, c3]).order.reverse
    show ((startAll [c1, c2, c3]).snapshot srt k).map RequestLogEntry.ID = _
    rw [snapshot_eq, hcount]
    generalize snapshotCollect (startAll [c1, c2, c3]).entries 3
      (startAll [c1, c2, c3]).order.reverse [] = col at hcol hst
    rw [ho] at hcol
    simp only [List.length_cons, List.length_nil, Nat.sub_self, List.drop_zero,
      List.reverse_cons, List.reverse_nil, List.nil_append, List.cons_append,
      Nat.reduceAdd] at hcol
    obtain ⟨e3, e2, e1, hc, i3, i2, i1⟩ := map_ID_three col _ _ _ hcol
    subst hc
    · have s3 := startAll_entry _ hnd hne c3 (by simp) e3 (i3 ▸ hst e3 (by simp))
      have s2 := startAll_entry _ hnd hne c2 (by simp) e2 (i2 ▸ hst e2 (by simp))
      have s1 := startAll_entry _ hnd hne c1 (by simp) e1 (i1 ▸ hst e1 (by simp))
      rw [srt.small _ _ (by simp)]
      rw [insertionSort_three_desc]
      · simp [i1, i2, i3]
      · rw [s3, s2]
        simp only [StartCall.entry, t2, t3, Second, Time]
        omega
      · rw [s2, s1]
        simp only [StartCall.entry, t1, t2, Second, Time]
        omega

/-- Witness for C8: three calls at 1000ns, one second later and two seconds later. -/
theorem snapshot_ordering_witness :
    (SnapshotRequestLogs (insertionSlice RequestLogEntry)
        (startAll [orderCall1, orderCall2, orderCall3]) 0).map RequestLogEntry.ID =
      ["last", "middle", "first"] :=
  (snapshot_ordering (insertionSlice RequestLogEntry)).2 orderCall1 orderCall2 orderCall3 1000 0
    (by decide) (by decide) (by decide) (by decide) (by decide) (by decide)
    (by decide) (by decide) (by decide) (by decide)

/-- C9. Snapshot contents: in every reachable store state the entry map has exactly
the `n` distinct ids of the order list; `Snapshot(limit)` returns `n` entries when
`limit ≤ 0` or `limit > n` and `limit` entries otherwise; the ids returned are the
last that many ids of the order list (up to the order of the result); every
returned entry equals the entry stored under its id; and no id is returned twice. -/
theorem snapshot_contents (srt : SortSlice RequestLogEntry) (ops : List LogOp) (limit : Int) :
    (runLog ops).order.Nodup ∧
    (∀ id, (runLog ops).entries id ≠ none ↔ id ∈ (runLog ops).order) ∧
    (SnapshotRequestLogs srt (runLog ops) limit).length =
      (if limit ≤ 0 ∨ limit > ((runLog ops).order.length : Int) then (runLog ops).order.length
        else limit.toNat) ∧
    List.Perm ((SnapshotRequestLogs srt (runLog ops) limit).map RequestLogEntry.ID)
      ((runLog ops).order.drop ((runLog ops).order.length -
        (if limit ≤ 0 ∨ limit > ((runLog ops).order.length : Int) then (runLog ops).order.length
          else limit.toNat))) ∧
    (∀ e ∈ SnapshotRequestLogs srt (runLog ops) limit, (runLog ops).entries e.ID = some e) ∧
    ((SnapshotRequestLogs srt (runLog ops) limit).map RequestLogEntry.ID).Nodup := by
  have hs := logInv_runLog ops
  have hp := snapshot_ids_perm srt hs limit
  refine ⟨hs.nodup, hs.dom, ?_, hp, snapshot_stored srt hs limit, ?_⟩
  · have hl := hp.length_eq
    rw [List.length_map, List.length_drop] at hl
    have hle := snapshotCount_le (runLog ops).order.length limit
    show ((runLog ops).snapshot srt limit).length = snapshotCount (runLog ops).order.length limit
    omega
  · exact (hp.nodup_iff).2 (hs.nodup.sublist (List.drop_sublist _ _))

/-- C10. Start on an existing id: in every reachable store state, `Start` on an id
that has an entry sets the entry's method, path, start time and pending flag and
keeps its other fields; the order list, the set of ids with an entry and every
other entry are unchanged. -/
theorem start_existing (ops : List LogOp) (clock : Time) (id method path : String)
    (startedAt : Time) (e : RequestLogEntry) (h : (runLog ops).entries id = some e) :
    (StartRequestLog (runLog ops) clock id method path startedAt).order = (runLog ops).order ∧
    (StartRequestLog (runLog ops) clock id method path startedAt).entries id =
      some { e with
        Method := ToUpper (TrimSpace method)
        Path := TrimSpace path
        StartedAt := if Time.IsZero startedAt then clock else startedAt
        Pending := true } ∧
    (∀ other, other ≠ id →
      (StartRequestLog (runLog ops) clock id method path startedAt).entries other =
        (runLog ops).entries other) ∧
    (∀ x, (StartRequestLog (runLog ops) clock id method path startedAt).entries x ≠ none ↔
      (runLog ops).entries x ≠ none) := by
  have hs := logInv_runLog ops
  have hid : id ≠ "" := by
    intro h0
    have h1 : id ∈ (runLog ops).order := (hs.dom id).1 (by simp [h])
    exact hs.nonempty (h0 ▸ h1)
  simp only [StartRequestLog, hid, ↓reduceIte]
  rw [upsert_existing _ _ _ e hid h]
  refine ⟨rfl, by simp [mapSet], ?_, ?_⟩
  · intro other ho
    simp [mapSet, ho]
  · intro x
    by_cases hx : x = id
    · subst hx; simp [mapSet, h]
    · simp [mapSet, hx]

/-- Witness for C10: `req-1` is started, updated, and started again. -/
theorem start_existing_witness :
    (StartRequestLog
      (runLog [LogOp.start 7 "req-1" "get" "/v1/a" 0,
        LogOp.update "req-1" { APIKey := "k", RequestType := "", Model := "m", SessionID := "" }])
      9 "req-1" " post " "/v1/b" 0).entries "req-1" =
      some { ID := "req-1", Method := "POST", Path := "/v1/b", APIKey := "k", RequestType := "",
             Model := "m", SessionID := "", StatusCode := 0, ErrorMessage := "", StartedAt := 9,
             CompletedAt := 0, DurationMs := 0, Pending := true } :=
  (start_existing
    [LogOp.start 7 "req-1" "get" "/v1/a" 0,
      LogOp.update "req-1" { APIKey := "k", RequestType := "", Model := "m", SessionID := "" }]
    9 "req-1" " post " "/v1/b" 0
    { ID := "req-1", Method := "GET", Path := "/v1/a", APIKey := "k", RequestType := "",
      Model := "m", SessionID := "", StatusCode := 0, ErrorMessage := "", StartedAt := 7,
      CompletedAt := 0, DurationMs := 0, Pending := true } (by decide)).2.1

/-! ## Request log: update and finish -/

theorem update_present (s : requestLogStore) (id : String) (u : RequestLogUpdate)
    (e : RequestLogEntry) (hid : id ≠ "") (h : s.entries id = some e) :
    s.update id u = { order := s.order, entries := mapSet s.entries id (e.updated u) } := by
  unfold requestLogStore.update RequestLogEntry.updated
  simp only [hid, ↓reduceIte, h]
  congr 2
  cases e
  split_ifs <;> rfl

theorem update_absent (s : requestLogStore) (id : String) (u : RequestLogUpdate)
    (h : s.entries id = none) : s.update id u = s := by
  unfold requestLogStore.update
  split
  · rfl
  · simp only [h]

theorem finish_present (s : requestLogStore) (id : String) (status : Int) (msg : String)
    (completedAt : Time) (e : RequestLogEntry) (hid : id ≠ "") (h : s.entries id = some e) :
    s.finish id status msg completedAt =
      { order := s.order, entries := mapSet s.entries id (e.finished status msg completedAt) } := by
  unfold requestLogStore.finish RequestLogEntry.finished
  simp only [hid, ↓reduceIte, h]
  congr 2
  cases e
  simp only [Time.IsZero]
  split_ifs <;> simp_all

theorem finish_absent (s : requestLogStore) (id : String) (status : Int) (msg : String)
    (completedAt : Time) (h : s.entries id = none) :
    s.finish id status msg completedAt = s := by
  unfold requestLogStore.finish
  split
  · rfl
  · simp only [h]

theorem present_ne_empty {s : requestLogStore} (hs : LogInv s) (id : String)
    (e : RequestLogEntry) (h : s.entries id = some e) : id ≠ "" := by
  intro h0
  have h1 : id ∈ s.order := (hs.dom id).1 (by simp [h])
  exact hs.nonempty (h0 ▸ h1)

/-- C11. Update overwrites only non-empty fields: in every reachable store state,
`update` on an id that has an entry sets each of `APIKey`, `RequestType`, `Model`,
`SessionID` to the field of the update when that is non-empty and keeps it
otherwise; the other fields of the entry, the other entries and the order list are
unchanged; and `update` on an id without entry returns the store unchanged. The
public `UpdateRequestLog` is the same function. -/
theorem update_overwrites_nonempty (ops : List LogOp) (id : String) (u : RequestLogUpdate) :
    (∀ e, (runLog ops).entries id = some e →
      ((runLog ops).update id u).order = (runLog ops).order ∧
      ((runLog ops).update id u).entries id =
        some { e with
          APIKey := if u.APIKey ≠ "" then u.APIKey else e.APIKey
          RequestType := if u.RequestType ≠ "" then u.RequestType else e.RequestType
          Model := if u.Model ≠ "" then u.Model else e.Model
          SessionID := if u.SessionID ≠ "" then u.SessionID else e.SessionID } ∧
      ∀ other, other ≠ id →
        ((runLog ops).update id u).entries other = (runLog ops).entries other) ∧
    ((runLog ops).entries id = none → (runLog ops).update id u = runLog ops) ∧
    UpdateRequestLog (runLog ops) id u = (runLog ops).update id u := by
  refine ⟨?_, ?_, ?_⟩
  · intro e h
    have hid := present_ne_empty (logInv_runLog ops) id e h
    rw [update_present _ _ _ e hid h]
    refine ⟨rfl, ?_, ?_⟩
    · simp only [mapSet, ↓reduceIte]
      rfl
    · intro other ho
      simp only [mapSet, ho, ↓reduceIte]
  · intro h
    exact update_absent _ _ _ h
  · unfold UpdateRequestLog requestLogStore.update
    split <;> rfl

/-- Witness for C11: `req-1` is started and then updated with a session id and an
empty model. -/
theorem update_overwrites_nonempty_witness :
    ((runLog updatedOps).update "req-1"
      { APIKey := "", RequestType := "chat", Model := "", SessionID := "s-9" }).entries "req-1" =
      some { ID := "req-1", Method := "GET", Path := "/v1/a", APIKey := "k",
             RequestType := "chat", Model := "m", SessionID := "s-9", StatusCode := 0,
             ErrorMessage := "", StartedAt := 7, CompletedAt := 0, DurationMs := 0,
             Pending := true } :=
  ((update_overwrites_nonempty updatedOps "req-1"
    { APIKey := "", RequestType := "chat", Model := "", SessionID := "s-9" }).1
    { ID := "req-1", Method := "GET", Path := "/v1/a", APIKey := "k", RequestType := "",
      Model := "m", SessionID := "", StatusCode := 0, ErrorMessage := "", StartedAt := 7,
      CompletedAt := 0, DurationMs := 0, Pending := true } (by decide)).2.1

theorem sub_in_range (t u : Time) (h1 : minDuration ≤ t - u) (h2 : t - u ≤ maxDuration) :
    Time.Sub t u = t - u := by
  unfold Time.Sub
  have a : ¬ t - u > maxDuration := by simp only [Time, Duration] at *; omega
  have b : ¬ t - u < minDuration := by simp only [Time, Duration] at *; omega
  simp only [a, b, ↓reduceIte]

/-- C12. Finish postcondition: in every reachable store state, `finish` on an id that
has an entry yields `Pending = false` and `CompletedAt` equal to the argument;
`StatusCode` is the argument when positive and unchanged otherwise; `ErrorMessage`
is the argument when non-empty and unchanged otherwise; `DurationMs` is the whole
milliseconds of `completedAt.Sub(StartedAt)` when `StartedAt` is non-zero (the exact
difference, rounded toward zero, whenever it fits in a `Duration`) and unchanged
otherwise; the other fields, the other entries and the order list are unchanged;
and `finish` on an id without entry returns the store unchanged. -/
theorem finish_postcondition (ops : List LogOp) (id : String) (status : Int)
    (errorMessage : String) (completedAt : Time) :
    (∀ e, (runLog ops).entries id = some e →
      ((runLog ops).finish id status errorMessage completedAt).order = (runLog ops).order ∧
      ((runLog ops).finish id status errorMessage completedAt).entries id =
        some { e with
          StatusCode := if status > 0 then status else e.StatusCode
          ErrorMessage := if errorMessage ≠ "" then errorMessage else e.ErrorMessage
          CompletedAt := completedAt
          DurationMs :=
            if e.StartedAt ≠ 0 then Duration.Milliseconds (Time.Sub completedAt e.StartedAt)
            else e.DurationMs
          Pending := false } ∧
      (minDuration ≤ completedAt - e.StartedAt → completedAt - e.StartedAt ≤ maxDuration →
        Duration.Milliseconds (Time.Sub completedAt e.StartedAt) =
          Int.tdiv (completedAt - e.StartedAt) 1000000) ∧
      ∀ other, other ≠ id →
        ((runLog ops).finish id status errorMessage completedAt).entries other =
          (runLog ops).entries other) ∧
    ((runLog ops).entries id = none →
      (runLog ops).finish id status errorMessage completedAt = runLog ops) := by
  constructor
  · intro e h
    have hid := present_ne_empty (logInv_runLog ops) id e h
    rw [finish_present _ _ _ _ _ e hid h]
    refine ⟨rfl, ?_, ?_, ?_⟩
    · simp only [mapSet, ↓reduceIte]
      rfl
    · intro h1 h2
      rw [sub_in_range _ _ h1 h2]
      rfl
    · intro other ho
      simp only [mapSet, ho, ↓reduceIte]
  · intro h
    exact finish_absent _ _ _ _ _ h

/-- Witness for C12: `req-1`, started at time 7, is finished with status 502 and an
error message 2.5 milliseconds later. -/
theorem finish_postcondition_witness :
    ((runLog updatedOps).finish "req-1" 502 "bad gateway" 2500007).entries "req-1" =
      some { ID := "req-1", Method := "GET", Path := "/v1/a", APIKey := "k",
             RequestType := "", Model := "m", SessionID := "", StatusCode := 502,
             ErrorMessage := "bad gateway", StartedAt := 7, CompletedAt := 2500007,
             DurationMs := 2, Pending := false } :=
  ((finish_postcondition updatedOps "req-1" 502 "bad gateway" 2500007).1
    { ID := "req-1", Method := "GET", Path := "/v1/a", APIKey := "k", RequestType := "",
      Model := "m", SessionID := "", StatusCode := 0, ErrorMessage := "", StartedAt := 7,
      CompletedAt := 0, DurationMs := 0, Pending := true } (by decide)).2.1

theorem start_entry_cases (s : requestLogStore) (clock : Time) (id method path : String)
    (startedAt : Time) (x : String) (e : RequestLogEntry)
    (h : (StartRequestLog s clock id method path startedAt).entries x = some e) :
    (x = id ∧ id ≠ "" ∧ e.Pending = true) ∨ s.entries x = some e := by
  unfold StartRequestLog at h
  by_cases hid : id = ""
  · rw [if_pos hid] at h
    exact Or.inr h
  · rw [if_neg hid] at h
    cases hex : s.entries id with
    | none =>
      rw [upsert_fresh _ _ _ hid hex] at h
      generalize (s.order ++ [id]).length - maxRequestLogEntries = k at h
      simp only [evictIDs_apply] at h
      split at h
      · exact absurd h (by simp)
      · by_cases hx : x = id
        · left
          simp only [mapSet, hx, ↓reduceIte, Option.some.injEq] at h
          exact ⟨hx, hid, by rw [← h]⟩
        · right
          simpa only [mapSet, hx, ↓reduceIte] using h
    | some existing =>
      rw [upsert_existing _ _ _ existing hid hex] at h
      by_cases hx : x = id
      · left
        simp only [mapSet, hx, ↓reduceIte, Option.some.injEq] at h
        exact ⟨hx, hid, by rw [← h]⟩
      · right
        simpa only [mapSet, hx, ↓reduceIte] using h

theorem update_entry_cases (s : requestLogStore) (id : String) (u : RequestLogUpdate)
    (x : String) (e : RequestLogEntry) (h : (UpdateRequestLog s id u).entries x = some e) :
    ∃ e0, s.entries x = some e0 ∧ e.Pending = e0.Pending ∧ e.StartedAt = e0.StartedAt ∧
      e.CompletedAt = e0.CompletedAt ∧ e.DurationMs = e0.DurationMs := by
  unfold UpdateRequestLog at h
  by_cases hid : id = ""
  · rw [if_pos hid] at h
    exact ⟨e, h, rfl, rfl, rfl, rfl⟩
  · rw [if_neg hid] at h
    cases hex : s.entries id with
    | none =>
      rw [update_absent _ _ _ hex] at h
      exact ⟨e, h, rfl, rfl, rfl, rfl⟩
    | some e0 =>
      rw [update_present _ _ _ e0 hid hex] at h
      by_cases hx : x = id
      · simp only [mapSet, hx, ↓reduceIte, Option.some.injEq] at h
        refine ⟨e0, by rw [hx]; exact hex, ?_, ?_, ?_, ?_⟩ <;> rw [← h] <;> rfl
      · simp only [mapSet, hx, ↓reduceIte] at h
        exact ⟨e, h, rfl, rfl, rfl, rfl⟩

theorem finish_entry_cases (s : requestLogStore) (clock : Time) (id : String) (status : Int)
    (msg : String) (completedAt : Time) (x : String) (e : RequestLogEntry)
    (h : (FinishRequestLog s clock id status msg completedAt).entries x = some e) :
    (x = id ∧ id ≠ "" ∧ ∃ e0 c, s.entries id = some e0 ∧
        e = e0.finished status (TrimSpace msg) c) ∨
      ((x ≠ id ∨ id = "") ∧ s.entries x = some e) := by
  unfold FinishRequestLog at h
  by_cases hid : id = ""
  · rw [if_pos hid] at h
    exact Or.inr ⟨Or.inr hid, h⟩
  · rw [if_neg hid] at h
    by_cases hx : x = id
    · cases hex : s.entries id with
      | none =>
        rw [finish_absent _ _ _ _ _ hex, hx, hex] at h
        exact absurd h (by simp)
      | some e0 =>
        rw [finish_present _ _ _ _ _ e0 hid hex] at h
        simp only [mapSet, hx, ↓reduceIte, Option.some.injEq] at h
        exact Or.inl ⟨hx, hid, e0, _, rfl, h.symm⟩
    · right
      refine ⟨Or.inl hx, ?_⟩
      cases hex : s.entries id with
      | none =>
        rw [finish_absent _ _ _ _ _ hex] at h
        exact h
      | some e0 =>
        rw [finish_present _ _ _ _ _ e0 hid hex] at h
        simpa only [mapSet, hx, ↓reduceIte] using h

theorem finished_duration (e0 : RequestLogEntry) (status : Int) (msg : String) (c : Time)
    (hs : (e0.finished status msg c).StartedAt ≠ 0) :
    (e0.finished status msg c).DurationMs =
      Duration.Milliseconds
        (Time.Sub (e0.finished status msg c).CompletedAt (e0.finished status msg c).StartedAt) := by
  have hs0 : e0.StartedAt ≠ 0 := hs
  simp only [RequestLogEntry.finished, hs0, ne_eq, not_false_eq_true, ↓reduceIte]

theorem duration_of_finished (ops : List LogOp) :
    ∀ (id : String) (e : RequestLogEntry), (runLog ops).entries id = some e →
      e.Pending = false → e.StartedAt ≠ 0 →
      e.DurationMs = Duration.Milliseconds (Time.Sub e.CompletedAt e.StartedAt) := by
  induction ops using List.reverseRecOn with
  | nil =>
    intro id e h
    simp [runLog, newRequestLogStore] at h
  | append_singleton ops op ih =>
    intro id e h hp hs
    rw [runLog_snoc] at h
    cases op with
    | start clock id0 method path startedAt =>
      rcases start_entry_cases _ _ _ _ _ _ _ _ h with ⟨_, _, hpe⟩ | h0
      · rw [hp] at hpe
        exact absurd hpe (by simp)
      · exact ih id e h0 hp hs
    | update id0 u =>
      obtain ⟨e0, h0, h1, h2, h3, h4⟩ := update_entry_cases _ _ _ _ _ h
      rw [h4, h3, h2]
      exact ih id e0 h0 (by rw [← h1]; exact hp) (by rw [← h2]; exact hs)
    | finish clock id0 status msg completedAt =>
      rcases finish_entry_cases _ _ _ _ _ _ _ _ h with ⟨_, _, e0, c, _, he⟩ | ⟨_, h0⟩
      · subst he
        exact finished_duration e0 status _ c hs
      · exact ih id e h0 hp hs

/-- C13, amended. Duration invariant: in every state reachable from the
empty store by Start, Update and Finish operations, every entry that is not pending
and whose `StartedAt` is non-zero has `DurationMs` equal to the whole milliseconds
of `CompletedAt.Sub(StartedAt)`. -/
theorem duration_invariant (ops : List LogOp) (id : String) (e : RequestLogEntry)
    (h : (runLog ops).entries id = some e) (hp : e.Pending = false) (hs : e.StartedAt ≠ 0) :
    e.DurationMs = Duration.Milliseconds (Time.Sub e.CompletedAt e.StartedAt) :=
  duration_of_finished ops id e h hp hs

/-- Witness for C13: a request started at 10s and finished at 20s lasted 10000 ms. -/
theorem duration_invariant_witness :
    (runLog finishedOps).entries "req-1" =
      some { ID := "req-1", Method := "GET", Path := "/v1/a", APIKey := "",
             RequestType := "", Model := "", SessionID := "", StatusCode := 200,
             ErrorMessage := "", StartedAt := 10 * Second, CompletedAt := 20 * Second,
             DurationMs := 10000, Pending := false } ∧
    (10000 : Int) = Duration.Milliseconds (Time.Sub (20 * Second) (10 * Second)) :=
  ⟨by decide,
   duration_invariant finishedOps "req-1"
    { ID := "req-1", Method := "GET", Path := "/v1/a", APIKey := "",
      RequestType := "", Model := "", SessionID := "", StatusCode := 200,
      ErrorMessage := "", StartedAt := 10 * Second, CompletedAt := 20 * Second,
      DurationMs := 10000, Pending := false } (by decide) rfl (by decide)⟩

/-- Counterexample to C13 as stated: after Start at 10s, Finish at 20s and a second
Start of the same id at 15s, the entry has `StartedAt` = 15s and `CompletedAt` = 20s,
both non-zero, and still `DurationMs` = 10000 where the whole milliseconds of
`CompletedAt - StartedAt` are 5000. -/
theorem duration_invariant_counterexample :
    ∃ e, (runLog restartOps).entries "req-1" = some e ∧
      e.StartedAt = 15 * Second ∧ e.StartedAt ≠ 0 ∧
      e.CompletedAt = 20 * Second ∧ e.CompletedAt ≠ 0 ∧
      e.DurationMs = 10000 ∧
      Duration.Milliseconds (Time.Sub e.CompletedAt e.StartedAt) = 5000 ∧
      e.DurationMs ≠ Duration.Milliseconds (Time.Sub e.CompletedAt e.StartedAt) :=
  ⟨{ ID := "req-1", Method := "GET", Path := "/v1/a", APIKey := "",
     RequestType := "", Model := "", SessionID := "", StatusCode := 200,
     ErrorMessage := "", StartedAt := 15 * Second, CompletedAt := 20 * Second,
     DurationMs := 10000, Pending := true },
   by decide, rfl, by decide, rfl, by decide, rfl, by decide, by decide⟩

theorem pending_since_last_start (ops : List LogOp) (id : String) :
    ∀ e : RequestLogEntry, (runLog ops).entries id = some e →
      ∃ pre op post, ops = pre ++ op :: post ∧ LogOp.startsID id op = true ∧
        (∀ o ∈ post, LogOp.startsID id o = false) ∧
        (e.Pending = true ↔ ∀ o ∈ post, LogOp.finishesID id o = false) := by
  induction ops using List.reverseRecOn with
  | nil =>
    intro e h
    simp [runLog, newRequestLogStore] at h
  | append_singleton ops op ih =>
    intro e h
    rw [runLog_snoc] at h
    have extend : ∀ e0 : RequestLogEntry, (runLog ops).entries id = some e0 →
        LogOp.startsID id op = false →
        (e.Pending = true ↔ (e0.Pending = true ∧ LogOp.finishesID id op = false)) →
        ∃ pre o post, ops ++ [op] = pre ++ o :: post ∧ LogOp.startsID id o = true ∧
          (∀ o ∈ post, LogOp.startsID id o = false) ∧
          (e.Pending = true ↔ ∀ o ∈ post, LogOp.finishesID id o = false) := by
      intro e0 h0 hst hiff
      obtain ⟨pre, o, post, hops, ho, hpost, hpend⟩ := ih e0 h0
      refine ⟨pre, o, post ++ [op], by rw [hops]; simp, ho, ?_, ?_⟩
      · intro o1 ho1
        rcases List.mem_append.1 ho1 with h1 | h1
        · exact hpost o1 h1
        · rw [List.mem_singleton.1 h1]; exact hst
      · rw [hiff, hpend]
        constructor
        · rintro ⟨ha, hb⟩ o1 ho1
          rcases List.mem_append.1 ho1 with h1 | h1
          · exact ha o1 h1
          · rw [List.mem_singleton.1 h1]; exact hb
        · intro ha
          exact ⟨fun o1 h1 => ha o1 (List.mem_append.2 (Or.inl h1)),
            ha op (List.mem_append.2 (Or.inr (List.mem_singleton.2 rfl)))⟩
    cases op with
    | start clock id0 method path startedAt =>
      by_cases hst : id0 = id ∧ id0 ≠ ""
      · refine ⟨ops, _, [], rfl, by simp [LogOp.startsID, hst.1, hst.1 ▸ hst.2], by simp, ?_⟩
        rcases start_entry_cases _ _ _ _ _ _ _ _ h with ⟨_, _, hpe⟩ | h0
        · simp [hpe]
        · obtain ⟨hx, hne⟩ := hst
          subst hx
          have h2 := h
          simp only [LogOp.apply, StartRequestLog, if_neg hne,
            upsert_existing _ _ _ e hne h0, mapSet, ↓reduceIte, Option.some.injEq] at h2
          have : e.Pending = true := by rw [← h2]
          simp [this]
      · have h0 : (runLog ops).entries id = some e := by
          rcases start_entry_cases _ _ _ _ _ _ _ _ h with ⟨hx, hne, _⟩ | h0
          · exact absurd ⟨hx.symm, hne⟩ hst
          · exact h0
        exact extend e h0 (by simp only [LogOp.startsID, decide_eq_false_iff_not]; exact hst)
          (by simp [LogOp.finishesID])
    | update id0 u =>
      obtain ⟨e0, h0, h1, _⟩ := update_entry_cases _ _ _ _ _ h
      exact extend e0 h0 rfl (by simp [LogOp.finishesID, h1])
    | finish clock id0 status msg completedAt =>
      rcases finish_entry_cases _ _ _ _ _ _ _ _ h with ⟨hx, hne, e0, c, h0, he⟩ | ⟨hx, h0⟩
      · subst hx
        refine extend e0 h0 rfl ?_
        have hp : e.Pending = false := by rw [he]; rfl
        simp [LogOp.finishesID, hp, hne]
      · refine extend e h0 rfl ?_
        have hf : ¬ (id0 = id ∧ id0 ≠ "") := by
          rintro ⟨ha, hb⟩
          rcases hx with hx | hx
          · exact hx ha.symm
          · exact hb hx
        simp [LogOp.finishesID, hf]

/-- C14, amended. Pending invariant: in every state reachable from the
empty store by Start, Update and Finish operations, every entry was written by a
last Start of its id, and its pending flag is true if and only if Finish has not
been called for its id since that last Start (a Start of an id that already has an
entry makes the entry pending again). -/
theorem pending_invariant (ops : List LogOp) (id : String) (e : RequestLogEntry)
    (h : (runLog ops).entries id = some e) :
    ∃ pre op post, ops = pre ++ op :: post ∧ LogOp.startsID id op = true ∧
      (∀ o ∈ post, LogOp.startsID id o = false) ∧
      (e.Pending = true ↔ ∀ o ∈ post, LogOp.finishesID id o = false) :=
  pending_since_last_start ops id e h

/-- Witness for C14: a request started and then finished is not pending, and the
Finish comes after its last Start. -/
theorem pending_invariant_witness :
    ∃ pre op post, finishedOps = pre ++ op :: post ∧ LogOp.startsID "req-1" op = true ∧
      (∀ o ∈ post, LogOp.startsID "req-1" o = false) ∧
      ((false : Bool) = true ↔ ∀ o ∈ post, LogOp.finishesID "req-1" o = false) :=
  pending_invariant finishedOps "req-1"
    { ID := "req-1", Method := "GET", Path := "/v1/a", APIKey := "",
      RequestType := "", Model := "", SessionID := "", StatusCode := 200,
      ErrorMessage := "", StartedAt := 10 * Second, CompletedAt := 20 * Second,
      DurationMs := 10000, Pending := false } (by decide)

/-- Counterexample to C14 as stated: the entry of `req-1` is inserted by the first
Start, Finish is called for it (it is then not pending), and the second Start of the
same id, which finds the entry and inserts nothing, makes it pending again. -/
theorem pending_invariant_counterexample :
    (runLog (restartOps.take 1)).order = ["req-1"] ∧
    (∃ e, (runLog (restartOps.take 2)).entries "req-1" = some e ∧ e.Pending = false) ∧
    restartOps.drop 1 =
      [LogOp.finish 0 "req-1" 200 "" (20 * Second),
       LogOp.start 0 "req-1" "GET" "/v1/a" (15 * Second)] ∧
    (runLog restartOps).order = ["req-1"] ∧
    (∃ e, (runLog restartOps).entries "req-1" = some e ∧ e.Pending = true ∧
      e.CompletedAt = 20 * Second ∧ e.StatusCode = 200) :=
  ⟨by decide,
   ⟨{ ID := "req-1", Method := "GET", Path := "/v1/a", APIKey := "",
      RequestType := "", Model := "", SessionID := "", StatusCode := 200,
      ErrorMessage := "", StartedAt := 10 * Second, CompletedAt := 20 * Second,
      DurationMs := 10000, Pending := false }, by decide, rfl⟩,
   rfl,
   by decide,
   ⟨{ ID := "req-1", Method := "GET", Path := "/v1/a", APIKey := "",
      RequestType := "", Model := "", SessionID := "", StatusCode := 200,
      ErrorMessage := "", StartedAt := 15 * Second, CompletedAt := 20 * Second,
      DurationMs := 10000, Pending := true }, by decide, rfl, rfl, rfl⟩⟩

theorem normalised_threshold_pos (c : SessionSelectorConfig) :
    (normaliseSessionConfig c).FailureThreshold > 0 := by
  rw [normalise_eq]
  dsimp only
  split_ifs with h
  · decide
  · omega

theorem normalised_cooldown_pos (c : SessionSelectorConfig) :
    (normaliseSessionConfig c).Cooldown > 0 := by
  rw [normalise_eq]
  dsimp only
  split_ifs with h
  · decide
  · simp only [Duration] at *; omega

theorem record_authID (b : sessionBinding) (cfg : SessionSelectorConfig) (now : Time)
    (success : Bool) : (b.record cfg now success).authID = b.authID := by
  unfold sessionBinding.record
  dsimp only
  split_ifs <;> rfl

theorem record_lastUsed (b : sessionBinding) (cfg : SessionSelectorConfig) (now : Time)
    (success : Bool) : (b.record cfg now success).lastUsed = now := by
  unfold sessionBinding.record
  dsimp only
  split_ifs <;> rfl

theorem record_success (b : sessionBinding) (cfg : SessionSelectorConfig) (now : Time) :
    (b.record cfg now true).failCount = 0 ∧ (b.record cfg now true).cooldownUntil = 0 := by
  unfold sessionBinding.record
  simp only [↓reduceIte, and_self]

theorem record_failure_below (b : sessionBinding) (cfg : SessionSelectorConfig) (now : Time)
    (h : b.failCount + 1 < cfg.FailureThreshold) :
    (b.record cfg now false).failCount = b.failCount + 1 ∧
      (b.record cfg now false).cooldownUntil = b.cooldownUntil := by
  have h2 : ¬ (cfg.FailureThreshold > 0 ∧ b.failCount + 1 ≥ cfg.FailureThreshold) := by
    intro hh; omega
  unfold sessionBinding.record
  simp only [Bool.false_eq_true, ↓reduceIte, h2, and_self]

theorem record_failure_reached (b : sessionBinding) (cfg : SessionSelectorConfig) (now : Time)
    (hth : cfg.FailureThreshold > 0) (hcd : cfg.Cooldown > 0)
    (h : cfg.FailureThreshold ≤ b.failCount + 1) :
    (b.record cfg now false).failCount = 0 ∧
      (b.record cfg now false).cooldownUntil = now + cfg.Cooldown := by
  have h2 : cfg.FailureThreshold > 0 ∧ b.failCount + 1 ≥ cfg.FailureThreshold := ⟨hth, h⟩
  unfold sessionBinding.record
  simp only [Bool.false_eq_true, ↓reduceIte, h2, and_self, hcd, Time.Add]

theorem recordBinding_other (s : SessionSelector) (now : Time) (sid : String) (result : Result)
    (k : String) (hk : k ≠ sessionKey result.Provider sid) :
    (s.recordBinding now sid result).sessions k = s.sessions k := by
  unfold SessionSelector.recordBinding
  split
  · rfl
  · dsimp only
    split
    · rfl
    · split
      · rfl
      · simp only [mapSet, hk, ↓reduceIte]

theorem recordBinding_skips_all (s : SessionSelector) (now : Time) (sid : String)
    (result : Result)
    (h : sid = "" ∨ s.isProviderEnabled result.Provider = false ∨
      s.sessions (sessionKey result.Provider sid) = none ∨
      ∃ b, s.sessions (sessionKey result.Provider sid) = some b ∧ b.authID ≠ result.AuthID) :
    (s.recordBinding now sid result).sessions = s.sessions := by
  rcases h with h | h | h | ⟨b, hb, hne⟩
  · unfold SessionSelector.recordBinding
    rw [if_pos (Or.inl h)]
  · exact recordBinding_skips s now sid result (Or.inl h)
  · exact recordBinding_skips s now sid result (Or.inr h)
  · unfold SessionSelector.recordBinding
    split
    · rfl
    · simp only [hb, hne, ne_eq, not_false_eq_true, ↓reduceIte]

theorem recordResult_binding (s : SessionSelector) (c : SessionSelectorConfig) (now : Time)
    (ctx : Option Context) (result : Result) (b : sessionBinding)
    (hcfg : s.cfg = normaliseSessionConfig c)
    (hauth : result.AuthID ≠ "")
    (hsid : SessionIDFromContext ctx ≠ "")
    (hen : s.isProviderEnabled result.Provider = true)
    (hb : s.sessions (ToLower result.Provider ++ ":" ++ SessionIDFromContext ctx) = some b)
    (hid : b.authID = result.AuthID) :
    ∃ b1, (s.RecordResult now ctx result).sessions
        (ToLower result.Provider ++ ":" ++ SessionIDFromContext ctx) = some b1 ∧
      b1.authID = b.authID ∧ b1.lastUsed = now ∧
      (result.Success = true → b1.failCount = 0 ∧ b1.cooldownUntil = 0) ∧
      (result.Success = false → b.failCount + 1 < s.cfg.FailureThreshold →
        b1.failCount = b.failCount + 1 ∧ b1.cooldownUntil = b.cooldownUntil) ∧
      (result.Success = false → s.cfg.FailureThreshold ≤ b.failCount + 1 →
        b1.failCount = 0 ∧ b1.cooldownUntil = now + s.cfg.Cooldown) ∧
      ∀ k, k ≠ ToLower result.Provider ++ ":" ++ SessionIDFromContext ctx →
        (s.RecordResult now ctx result).sessions k = s.sessions k := by
  have hen1 : (s.recordStats now result).isProviderEnabled result.Provider = true := by
    rw [isProviderEnabled_congr _ s _ (recordStats_cfg s now result)]; exact hen
  have happ := recordBinding_applies (s.recordStats now result) now (SessionIDFromContext ctx)
    result b hsid hen1 hb hid
  rw [recordStats_cfg] at happ
  refine ⟨b.record s.cfg now result.Success, ?_, record_authID _ _ _ _, record_lastUsed _ _ _ _,
    ?_, ?_, ?_, ?_⟩
  · unfold SessionSelector.RecordResult
    rw [if_neg hauth]
    exact happ
  · intro hs
    rw [hs]
    exact record_success b s.cfg now
  · intro hs hlt
    rw [hs]
    exact record_failure_below b s.cfg now hlt
  · intro hs hge
    rw [hs]
    exact record_failure_reached b s.cfg now (by rw [hcfg]; exact normalised_threshold_pos c)
      (by rw [hcfg]; exact normalised_cooldown_pos c) hge
  · intro k hk
    unfold SessionSelector.RecordResult
    rw [if_neg hauth, recordBinding_other _ _ _ _ _ hk, recordStats_sessions]

/-- C15, amended. RecordResult binding transition: for every state with a
normalised configuration and every result with a non-empty auth id, if the context
carries session id S, `result.Provider` is session-enabled and a binding `b` exists
at key `lower(result.Provider) + ":" + S` with `b.authID = result.AuthID`, then
`RecordResult` sets `lastUsed = now` and keeps `authID`; on success it sets
`failCount = 0` and `cooldownUntil` = zero; on failure it sets `failCount` to the
old `failCount + 1` when that is below `FailureThreshold` (`cooldownUntil`
unchanged), and otherwise sets `cooldownUntil = now + Cooldown` and `failCount = 0`;
every other binding is unchanged. -/
theorem record_result_transition (s : SessionSelector) (c : SessionSelectorConfig) (now : Time)
    (ctx : Option Context) (result : Result) (b : sessionBinding)
    (hcfg : s.cfg = normaliseSessionConfig c)
    (hauth : result.AuthID ≠ "")
    (hsid : SessionIDFromContext ctx ≠ "")
    (hen : s.isProviderEnabled result.Provider = true)
    (hb : s.sessions (ToLower result.Provider ++ ":" ++ SessionIDFromContext ctx) = some b)
    (hid : b.authID = result.AuthID) :
    ∃ b1, (s.RecordResult now ctx result).sessions
        (ToLower result.Provider ++ ":" ++ SessionIDFromContext ctx) = some b1 ∧
      b1.authID = b.authID ∧ b1.lastUsed = now ∧
      (result.Success = true → b1.failCount = 0 ∧ b1.cooldownUntil = 0) ∧
      (result.Success = false → b.failCount + 1 < s.cfg.FailureThreshold →
        b1.failCount = b.failCount + 1 ∧ b1.cooldownUntil = b.cooldownUntil) ∧
      (result.Success = false → s.cfg.FailureThreshold ≤ b.failCount + 1 →
        b1.failCount = 0 ∧ b1.cooldownUntil = now + s.cfg.Cooldown) ∧
      ∀ k, k ≠ ToLower result.Provider ++ ":" ++ SessionIDFromContext ctx →
        (s.RecordResult now ctx result).sessions k = s.sessions k :=
  recordResult_binding s c now ctx result b hcfg hauth hsid hen hb hid

/-- Witness for C15: the binding of `session-1` to `auth-a`, made at time 1000, on a
failed result for `auth-a` at time 2000 under the failure threshold 1. -/
theorem record_result_transition_witness :
    ∃ b1, (boundState.RecordResult 2000 sessionCtx (failedResult "codex" 500)).sessions
        (ToLower (failedResult "codex" 500).Provider ++ ":" ++
          SessionIDFromContext sessionCtx) = some b1 ∧
      b1.authID = "auth-a" ∧ b1.lastUsed = 2000 ∧
      ((failedResult "codex" 500).Success = true → b1.failCount = 0 ∧ b1.cooldownUntil = 0) ∧
      ((failedResult "codex" 500).Success = false →
        (0 : Int) + 1 < boundState.cfg.FailureThreshold →
        b1.failCount = 0 + 1 ∧ b1.cooldownUntil = 0) ∧
      ((failedResult "codex" 500).Success = false →
        boundState.cfg.FailureThreshold ≤ (0 : Int) + 1 →
        b1.failCount = 0 ∧ b1.cooldownUntil = 2000 + boundState.cfg.Cooldown) ∧
      ∀ k, k ≠ ToLower (failedResult "codex" 500).Provider ++ ":" ++
          SessionIDFromContext sessionCtx →
        (boundState.RecordResult 2000 sessionCtx (failedResult "codex" 500)).sessions k =
          boundState.sessions k :=
  record_result_transition boundState testConfig 2000 sessionCtx (failedResult "codex" 500)
    { authID := "auth-a", lastUsed := 1000, failCount := 0, cooldownUntil := 0 }
    rfl (by decide) (by decide) (by decide) (by decide) rfl

/-- Counterexample to C15 as stated: the binding of `session-1` made by a pick over an
auth whose id is empty has `authID` equal to the empty `AuthID` of the result, the
context carries `session-1` and `codex` is session-enabled, and `RecordResult` at
time 2000 leaves the binding as it was, with `lastUsed` = 1000 and no cooldown under
the failure threshold 1. -/
theorem record_result_transition_counterexample :
    SessionIDFromContext sessionCtx = "session-1" ∧
    emptyBoundState.isProviderEnabled emptyIDResult.Provider = true ∧
    emptyBoundState.cfg.FailureThreshold = 1 ∧
    emptyBoundState.sessions (ToLower emptyIDResult.Provider ++ ":" ++ "session-1") =
      some { authID := emptyIDResult.AuthID, lastUsed := 1000, failCount := 0,
             cooldownUntil := 0 } ∧
    (emptyBoundState.RecordResult 2000 sessionCtx emptyIDResult).sessions
        (ToLower emptyIDResult.Provider ++ ":" ++ "session-1") =
      some { authID := "", lastUsed := 1000, failCount := 0, cooldownUntil := 0 } :=
  ⟨by decide, by decide, by decide, by decide, by decide⟩

/-- C16. RecordResult leaves bindings alone when it does not apply: if the context
carries no session id, or `result.Provider` is not session-enabled, or no binding
exists at the key for (`result.Provider`, session id), or that binding's `authID`
differs from `result.AuthID`, then `RecordResult` leaves the whole sessions map
unchanged; and if `result.AuthID` is empty it leaves the whole selector, statistics
included, unchanged. -/
theorem record_result_skips (s : SessionSelector) (now : Time) (ctx : Option Context)
    (result : Result) :
    ((SessionIDFromContext ctx = "" ∨ s.isProviderEnabled result.Provider = false ∨
        s.sessions (sessionKey result.Provider (SessionIDFromContext ctx)) = none ∨
        ∃ b, s.sessions (sessionKey result.Provider (SessionIDFromContext ctx)) = some b ∧
          b.authID ≠ result.AuthID) →
      (s.RecordResult now ctx result).sessions = s.sessions) ∧
    (result.AuthID = "" →
      s.RecordResult now ctx result = s ∧
      (s.RecordResult now ctx result).stats = s.stats ∧
      (s.RecordResult now ctx result).sessions = s.sessions) := by
  constructor
  · intro h
    unfold SessionSelector.RecordResult
    split
    · rfl
    · rw [recordBinding_skips_all, recordStats_sessions]
      rw [isProviderEnabled_congr _ s _ (recordStats_cfg s now result), recordStats_sessions]
      exact h
  · intro h
    have : s.RecordResult now ctx result = s := by
      unfold SessionSelector.RecordResult
      rw [if_pos h]
    rw [this]
    exact ⟨rfl, rfl, rfl⟩

/-- Witness for C16: a failed result for `auth-a` whose provider `mixed` is not
session-enabled leaves the binding of `session-1` as the pick at time 1000 made it. -/
theorem record_result_skips_witness :
    boundState.isProviderEnabled (failedResult "mixed" 429).Provider = false ∧
    (boundState.RecordResult 2000 sessionCtx (failedResult "mixed" 429)).sessions =
      boundState.sessions :=
  ⟨by decide,
   (record_result_skips boundState 2000 sessionCtx (failedResult "mixed" 429)).1
    (Or.inr (Or.inl (by decide)))⟩

theorem score_eq_value (s : SessionSelector) (a : Auth) (model : String) (now : Time) :
    s.scoreOf a model now =
      scoreValue s.cfg (s.recentOf a.ID) (quotaHealth a model now) (s.loadOf a model now) := by
  unfold SessionSelector.scoreOf SessionSelector.loadOf SessionSelector.scoreAuthLocked
    SessionSelector.recentOf scoreValue
  cases hst : s.stats a.ID with
  | none => simp
  | some st => simp

theorem load_eq (s : SessionSelector) (a : Auth) (model : String) (now : Time) :
    s.loadOf a model now =
      match s.stats a.ID with
      | none => 0
      | some st =>
        if s.cfg.LoadWindow > 0 then
          ((pruneOldTimestamps st.recentRequests (Time.Add now (-s.cfg.LoadWindow))).length : Int) +
            ((pruneOldTimestamps st.pendingRequests
              (Time.Add now (-s.cfg.LoadWindow))).length : Int)
        else 0 := by
  unfold SessionSelector.loadOf SessionSelector.scoreAuthLocked
  cases hst : s.stats a.ID with
  | none => simp
  | some st =>
    by_cases hw : s.cfg.LoadWindow > 0
    · simp [hw]
    · simp [hw]

theorem load_nonneg (s : SessionSelector) (a : Auth) (model : String) (now : Time) :
    0 ≤ s.loadOf a model now := by
  rw [load_eq]
  cases s.stats a.ID with
  | none => exact le_refl _
  | some st =>
    dsimp only
    split
    · exact Int.add_nonneg (Int.natCast_nonneg _) (Int.natCast_nonneg _)
    · exact le_refl _

theorem countSamples_eq (l : List resultSample) :
    countSamples l =
      ((l.filter (fun x => x.success)).length,
        (l.filter (fun x => !x.success && decide (x.status = 429))).length,
        (l.filter (fun x =>
          !x.success && (decide (x.status = 403) || decide (x.status = 402)))).length,
        (l.filter (fun x =>
          !x.success && (decide (500 ≤ x.status) && decide (x.status ≤ 599)))).length) := by
  induction l with
  | nil => rfl
  | cons x xs ih =>
    simp only [countSamples, ih]
    by_cases h1 : x.success = true
    · simp [h1, List.filter_cons]
    · have h1f : x.success = false := by simpa using h1
      by_cases h2 : x.status = 429
      · simp [h1f, h2, List.filter_cons]
      · by_cases h3 : x.status = 403 ∨ x.status = 402
        · have h5 : ¬ (500 ≤ x.status ∧ x.status ≤ 599) := by omega
          rcases h3 with h3 | h3 <;> simp [h1f, h3, List.filter_cons]
        · have h3a : x.status ≠ 403 := fun h => h3 (Or.inl h)
          have h3b : x.status ≠ 402 := fun h => h3 (Or.inr h)
          by_cases h4 : x.status ≥ 500 ∧ x.status ≤ 599
          · simp [h1f, h2, h3a, h3b, h4.1, h4.2, List.filter_cons]
          · by_cases h5 : 500 ≤ x.status
            · have h6 : ¬ x.status ≤ 599 := fun h => h4 ⟨h5, h⟩
              simp [h1f, h2, h3a, h3b, h5, h6, List.filter_cons]
            · simp [h1f, h2, h3a, h3b, h5, List.filter_cons]

theorem clamp01_eq (x : ℚ) : clamp01 x = max 0 (min 1 x) := by
  unfold clamp01
  by_cases h0 : x < 0
  · rw [if_pos h0, max_eq_left]
    exact le_trans (min_le_right _ _) (le_of_lt h0)
  · rw [if_neg h0]
    by_cases h1 : x > 1
    · rw [if_pos h1, min_eq_left (le_of_lt h1), max_eq_right (by norm_num)]
    · rw [if_neg h1, min_eq_right (not_lt.1 h1), max_eq_right (not_lt.1 h0)]

theorem clamp01_le_one (x : ℚ) : clamp01 x ≤ 1 := by
  unfold clamp01
  split_ifs with h0 h1
  · norm_num
  · exact le_refl _
  · exact not_lt.1 h1

theorem prune_length_sorted (l : List Time) (now : Time) (window : Duration)
    (h : l.Pairwise (fun a b => a ≤ b)) :
    ((pruneOldTimestamps l (Time.Add now (-window))).length : Int) =
      specWindowCount l now window := by
  unfold pruneOldTimestamps specWindowCount
  congr 1
  induction l with
  | nil => rfl
  | cons x xs ih =>
    rw [List.pairwise_cons] at h
    by_cases hx : Time.Before x (Time.Add now (-window)) = true
    · have hx2 : ¬ (now - window ≤ x) := by
        simp only [Time.Before, Time.Add, decide_eq_true_eq] at hx
        simp only [Time, Duration] at *
        omega
      simp only [List.dropWhile_cons, hx, ↓reduceIte, List.filter_cons, hx2, decide_False,
        Bool.false_eq_true]
      exact ih h.2
    · have hx2 : now - window ≤ x := by
        simp only [Time.Before, Time.Add, decide_eq_true_eq] at hx
        simp only [Time, Duration] at *
        omega
      simp only [List.dropWhile_cons, hx, ↓reduceIte, Bool.false_eq_true]
      rw [List.filter_eq_self.2]
      intro y hy
      rcases List.mem_cons.1 hy with hy | hy
      · subst hy; simpa using hx2
      · have := h.1 y hy
        simp only [decide_eq_true_eq]
        simp only [Time, Duration] at *
        omega

theorem value_eq_spec (cfg : SessionSelectorConfig) (recent : List resultSample) (q : ℚ)
    (n : Int) (hn : 0 ≤ n) (hw : cfg.WeightSuccess + cfg.WeightQuota > 0) :
    scoreValue cfg recent q n = specScore cfg recent q n := by
  have hrate : (if recent.length > 0 then
        (((countSamples recent).1 : ℚ) / (recent.length : ℚ),
          clamp01 ((((countSamples recent).2.1 : ℚ) * cfg.Penalty429 +
            ((countSamples recent).2.2.1 : ℚ) * cfg.Penalty403 +
            ((countSamples recent).2.2.2 : ℚ) * cfg.Penalty5xx) / (recent.length : ℚ)))
      else ((1 / 2 : ℚ), (0 : ℚ))) =
      (specSuccessRate recent, specPenaltyRatio cfg recent) := by
    unfold specSuccessRate specPenaltyRatio
    by_cases hl : recent.length = 0
    · simp [hl]
    · have hl2 : recent.length > 0 := Nat.pos_of_ne_zero hl
      rw [if_pos hl2, if_neg hl, if_neg hl, countSamples_eq, clamp01_eq]
  have hlp : (if n > 0 then (n : ℚ) / ((n + 1 : Int) : ℚ) else 0) = specLoadPenalty n := by
    unfold specLoadPenalty
    by_cases h0 : n > 0
    · rw [if_pos h0]; push_cast; rfl
    · have : n = 0 := by omega
      subst this
      simp
  have hp : 0 ≤ 1 - specPenaltyRatio cfg recent := by
    unfold specPenaltyRatio
    split_ifs
    · norm_num
    · have : max 0 (min 1
          ((((recent.filter (fun x => !x.success && decide (x.status = 429))).length : ℚ) *
              cfg.Penalty429 +
            ((recent.filter (fun x =>
              !x.success && (decide (x.status = 403) || decide (x.status = 402)))).length : ℚ) *
              cfg.Penalty403 +
            ((recent.filter (fun x =>
              !x.success && (decide (500 ≤ x.status) && decide (x.status ≤ 599)))).length : ℚ) *
              cfg.Penalty5xx) / (recent.length : ℚ))) ≤ 1 :=
        max_le (by norm_num) (min_le_left _ _)
      linarith
  unfold scoreValue
  simp only
  have hrate1 := congrArg Prod.fst hrate
  have hrate2 := congrArg Prod.snd hrate
  simp only [apply_ite Prod.fst, apply_ite Prod.snd] at hrate1 hrate2
  have e1 : (if recent.length > 0 then
        match countSamples recent with
        | (successCount, count429, count403, count5xx) =>
          ((successCount : ℚ) / (recent.length : ℚ),
            clamp01 (((count429 : ℚ) * cfg.Penalty429 + (count403 : ℚ) * cfg.Penalty403 +
              (count5xx : ℚ) * cfg.Penalty5xx) / (recent.length : ℚ)))
      else ((1 / 2 : ℚ), (0 : ℚ))) =
      (specSuccessRate recent, specPenaltyRatio cfg recent) := by
    rw [← hrate]
  rw [e1, hlp, if_pos hw]
  unfold specScore specWeighted
  dsimp only
  set x := (specSuccessRate recent * cfg.WeightSuccess + q * cfg.WeightQuota) /
      (cfg.WeightSuccess + cfg.WeightQuota) - specLoadPenalty n * cfg.LoadWeight with hx
  set p := 1 - specPenaltyRatio cfg recent with hpd
  by_cases hneg : x * p < 0
  · rw [if_pos hneg]
    have hx0 : x < 0 := by
      by_contra hc
      exact absurd (mul_nonneg (not_lt.1 hc) hp) (not_le.2 hneg)
    rw [max_eq_left (le_of_lt hx0), zero_mul]
  · rw [if_neg hneg]
    by_cases hx0 : 0 ≤ x
    · rw [max_eq_right hx0]
    · have hx1 : x < 0 := not_le.1 hx0
      rw [max_eq_left (le_of_lt hx1), zero_mul]
      have : x * p ≤ 0 := mul_nonpos_of_nonpos_of_nonneg (le_of_lt hx1) hp
      exact le_antisymm this (not_lt.1 hneg)

theorem normalised_loadWeight (c : SessionSelectorConfig) :
    0 ≤ (normaliseSessionConfig c).LoadWeight ∧ (normaliseSessionConfig c).LoadWeight ≤ 1 := by
  rw [normalise_eq]
  dsimp only
  split_ifs with h1 h2 h3 <;> constructor <;> linarith

theorem normalised_loadWindow_pos (c : SessionSelectorConfig) :
    (normaliseSessionConfig c).LoadWindow > 0 := by
  rw [normalise_eq]
  dsimp only
  split_ifs with h
  · decide
  · simp only [Duration] at *; omega

theorem loadPenalty_nonneg (n : Int) :
    (0 : ℚ) ≤ if n > 0 then (n : ℚ) / ((n + 1 : Int) : ℚ) else 0 := by
  split_ifs with h
  · have h1 : (0 : ℚ) < (n : ℚ) := by exact_mod_cast h
    have h2 : (0 : ℚ) < ((n + 1 : Int) : ℚ) := by push_cast; linarith
    exact le_of_lt (div_pos h1 h2)
  · exact le_refl _

theorem loadPenalty_mono (n m : Int) (h : n ≤ m) :
    (if n > 0 then (n : ℚ) / ((n + 1 : Int) : ℚ) else 0) ≤
      if m > 0 then (m : ℚ) / ((m + 1 : Int) : ℚ) else 0 := by
  by_cases hn : n > 0
  · have hm : m > 0 := by omega
    rw [if_pos hn, if_pos hm]
    have h1 : (0 : ℚ) < (n : ℚ) := by exact_mod_cast hn
    have h2 : (n : ℚ) ≤ (m : ℚ) := by exact_mod_cast h
    push_cast
    rw [div_le_div_iff₀ (by linarith) (by linarith)]
    nlinarith
  · rw [if_neg hn]
    exact loadPenalty_nonneg m

theorem rates_penalty_le_one (cfg : SessionSelectorConfig) (recent : List resultSample) :
    (if recent.length > 0 then
        match countSamples recent with
        | (successCount, count429, count403, count5xx) =>
          ((successCount : ℚ) / (recent.length : ℚ),
            clamp01 (((count429 : ℚ) * cfg.Penalty429 + (count403 : ℚ) * cfg.Penalty403 +
              (count5xx : ℚ) * cfg.Penalty5xx) / (recent.length : ℚ)))
      else ((1 / 2 : ℚ), (0 : ℚ))).2 ≤ 1 := by
  split_ifs
  · exact clamp01_le_one _
  · norm_num

theorem value_mono (cfg : SessionSelectorConfig) (recent : List resultSample) (q : ℚ)
    (n m : Int) (hlw : 0 ≤ cfg.LoadWeight) (h : n ≤ m) :
    scoreValue cfg recent q m ≤ scoreValue cfg recent q n := by
  unfold scoreValue
  simp only
  have hp := rates_penalty_le_one cfg recent
  have hlp := loadPenalty_mono n m h
  generalize (if recent.length > 0 then
        match countSamples recent with
        | (successCount, count429, count403, count5xx) =>
          ((successCount : ℚ) / (recent.length : ℚ),
            clamp01 (((count429 : ℚ) * cfg.Penalty429 + (count403 : ℚ) * cfg.Penalty403 +
              (count5xx : ℚ) * cfg.Penalty5xx) / (recent.length : ℚ)))
      else ((1 / 2 : ℚ), (0 : ℚ))) = rates at hp ⊢
  generalize (if cfg.WeightSuccess + cfg.WeightQuota > 0 then
      (rates.1 * cfg.WeightSuccess + q * cfg.WeightQuota) /
        (cfg.WeightSuccess + cfg.WeightQuota) else 0) = w
  generalize (if n > 0 then (n : ℚ) / ((n + 1 : Int) : ℚ) else 0) = ln at hlp ⊢
  generalize (if m > 0 then (m : ℚ) / ((m + 1 : Int) : ℚ) else 0) = lm at hlp ⊢
  have hle : (w - lm * cfg.LoadWeight) * (1 - rates.2) ≤
      (w - ln * cfg.LoadWeight) * (1 - rates.2) := by
    apply mul_le_mul_of_nonneg_right _ (by linarith)
    have := mul_le_mul_of_nonneg_right hlp hlw
    linarith
  split_ifs with h1 h2 h2
  · exact le_refl _
  · exact not_lt.1 h2
  · linarith
  · exact hle

theorem value_zero (cfg : SessionSelectorConfig) (recent : List resultSample) (q : ℚ)
    (n : Int) (hlw : 0 ≤ cfg.LoadWeight) (hw : cfg.WeightSuccess + cfg.WeightQuota ≤ 0) :
    scoreValue cfg recent q n = 0 := by
  unfold scoreValue
  simp only
  have hp := rates_penalty_le_one cfg recent
  have hlp := loadPenalty_nonneg n
  generalize (if recent.length > 0 then
        match countSamples recent with
        | (successCount, count429, count403, count5xx) =>
          ((successCount : ℚ) / (recent.length : ℚ),
            clamp01 (((count429 : ℚ) * cfg.Penalty429 + (count403 : ℚ) * cfg.Penalty403 +
              (count5xx : ℚ) * cfg.Penalty5xx) / (recent.length : ℚ)))
      else ((1 / 2 : ℚ), (0 : ℚ))) = rates at hp ⊢
  generalize (if n > 0 then (n : ℚ) / ((n + 1 : Int) : ℚ) else 0) = ln at hlp ⊢
  rw [if_neg (not_lt.2 hw)]
  split_ifs with h1
  · rfl
  · have h2 : (0 - ln * cfg.LoadWeight) * (1 - rates.2) ≤ 0 :=
      mul_nonpos_of_nonpos_of_nonneg (by have := mul_nonneg hlp hlw; linarith) (by linarith)
    exact le_antisymm h2 (not_lt.1 h1)

theorem load_eq_spec (s : SessionSelector) (a : Auth) (model : String) (now : Time)
    (hw : s.cfg.LoadWindow > 0)
    (hsorted : ∀ st, s.stats a.ID = some st →
      st.recentRequests.Pairwise (fun x y => x ≤ y) ∧
      st.pendingRequests.Pairwise (fun x y => x ≤ y)) :
    s.loadOf a model now = specLoadCount s.cfg (s.stats a.ID) now := by
  rw [load_eq]
  unfold specLoadCount
  cases hst : s.stats a.ID with
  | none => rfl
  | some st =>
    dsimp only
    rw [if_pos hw, prune_length_sorted _ _ _ (hsorted st hst).1,
      prune_length_sorted _ _ _ (hsorted st hst).2]

theorem score_spec (s : SessionSelector) (c : SessionSelectorConfig) (a : Auth)
    (model : String) (now : Time) (hcfg : s.cfg = normaliseSessionConfig c)
    (hsorted : ∀ st, s.stats a.ID = some st →
      st.recentRequests.Pairwise (fun x y => x ≤ y) ∧
      st.pendingRequests.Pairwise (fun x y => x ≤ y)) :
    s.loadOf a model now = specLoadCount s.cfg (s.stats a.ID) now ∧
    (s.cfg.WeightSuccess + s.cfg.WeightQuota > 0 →
      s.scoreOf a model now =
        specScore s.cfg (s.recentOf a.ID) (quotaHealth a model now)
          (specLoadCount s.cfg (s.stats a.ID) now)) ∧
    (s.cfg.WeightSuccess + s.cfg.WeightQuota ≤ 0 → s.scoreOf a model now = 0) := by
  have hw : s.cfg.LoadWindow > 0 := by rw [hcfg]; exact normalised_loadWindow_pos c
  have hlw : 0 ≤ s.cfg.LoadWeight := by rw [hcfg]; exact (normalised_loadWeight c).1
  have hload := load_eq_spec s a model now hw hsorted
  refine ⟨hload, ?_, ?_⟩
  · intro hpos
    rw [score_eq_value, ← hload]
    exact value_eq_spec _ _ _ _ (load_nonneg s a model now) hpos
  · intro hnp
    rw [score_eq_value]
    exact value_zero _ _ _ _ hlw hnp

theorem score_load_mono (s : SessionSelector) (c : SessionSelectorConfig) (a b : Auth)
    (model : String) (now : Time) (hcfg : s.cfg = normaliseSessionConfig c)
    (hrecent : s.recentOf a.ID = s.recentOf b.ID)
    (hquota : quotaHealth a model now = quotaHealth b model now)
    (hload : s.loadOf a model now ≥ s.loadOf b model now) :
    s.scoreOf a model now ≤ s.scoreOf b model now := by
  have hlw : 0 ≤ s.cfg.LoadWeight := by rw [hcfg]; exact (normalised_loadWeight c).1
  rw [score_eq_value, score_eq_value, hrecent, hquota]
  exact value_mono _ _ _ _ _ hlw hload

/-- C17, amended. Score formula: for every auth, model, time and state
with a normalised configuration whose timestamp lists for the auth are in
non-decreasing order, the load count returned by `scoreAuthLocked` is the number of
recent plus pending timestamps inside the load window; when
`WeightSuccess + WeightQuota > 0` the score equals
`max(0, weighted - loadPenalty*LoadWeight) * (1 - penaltyRatio)` with the spec's
`successRate`, `penaltyRatio`, `weighted` and `loadPenalty`; and when
`WeightSuccess + WeightQuota <= 0` the score is 0. -/
theorem score_formula (s : SessionSelector) (c : SessionSelectorConfig) (a : Auth)
    (model : String) (now : Time) (hcfg : s.cfg = normaliseSessionConfig c)
    (hsorted : ∀ st, s.stats a.ID = some st →
      st.recentRequests.Pairwise (fun x y => x ≤ y) ∧
      st.pendingRequests.Pairwise (fun x y => x ≤ y)) :
    s.loadOf a model now = specLoadCount s.cfg (s.stats a.ID) now ∧
    (s.cfg.WeightSuccess + s.cfg.WeightQuota > 0 →
      s.scoreOf a model now =
        specScore s.cfg (s.recentOf a.ID) (quotaHealth a model now)
          (specLoadCount s.cfg (s.stats a.ID) now)) ∧
    (s.cfg.WeightSuccess + s.cfg.WeightQuota ≤ 0 → s.scoreOf a model now = 0) :=
  score_spec s c a model now hcfg hsorted

/-- Witness for C17: `auth-a` with one pending request and no samples, scored at time
2000 under the test configuration. -/
theorem score_formula_witness :
    boundState.loadOf authA "test-model" 2000 =
      specLoadCount boundState.cfg (boundState.stats authA.ID) 2000 ∧
    (boundState.cfg.WeightSuccess + boundState.cfg.WeightQuota > 0 →
      boundState.scoreOf authA "test-model" 2000 =
        specScore boundState.cfg (boundState.recentOf authA.ID)
          (quotaHealth authA "test-model" 2000)
          (specLoadCount boundState.cfg (boundState.stats authA.ID) 2000)) ∧
    (boundState.cfg.WeightSuccess + boundState.cfg.WeightQuota ≤ 0 →
      boundState.scoreOf authA "test-model" 2000 = 0) :=
  score_formula boundState testConfig authA "test-model" 2000 rfl (by
    have hst : boundState.stats authA.ID = some ⟨[], [], [1000]⟩ := by decide
    intro st h
    rw [hst] at h
    cases h
    exact ⟨List.Pairwise.nil, List.pairwise_singleton _ _⟩)

/-- Counterexample to C17 as stated. Under the normalised configuration with weights
1 and -2 the code scores an auth without statistics 0 where the formula gives 3/2;
and for timestamps recorded out of order, `[640s, 1s]`, the load count returned at
650s with the window of ten minutes is 2 where one timestamp is inside the window. -/
theorem score_formula_counterexample :
    (NewSessionSelector skewedConfig).cfg = normaliseSessionConfig skewedConfig ∧
    (NewSessionSelector skewedConfig).scoreOf authA "test-model" 1000 = 0 ∧
    specScore (NewSessionSelector skewedConfig).cfg
        ((NewSessionSelector skewedConfig).recentOf authA.ID)
        (quotaHealth authA "test-model" 1000)
        (specLoadCount (NewSessionSelector skewedConfig).cfg
          ((NewSessionSelector skewedConfig).stats authA.ID) 1000) = 3 / 2 ∧
    unorderedState.cfg = normaliseSessionConfig testConfig ∧
    (∃ st, unorderedState.stats authA.ID = some st ∧
      st.recentRequests = [640 * Second, 1 * Second] ∧ st.pendingRequests = []) ∧
    unorderedState.cfg.LoadWindow = 10 * Minute ∧
    unorderedState.loadOf authA "test-model" (650 * Second) = 2 ∧
    specLoadCount unorderedState.cfg (unorderedState.stats authA.ID) (650 * Second) = 1 := by
  have hc : (NewSessionSelector skewedConfig).cfg = normaliseSessionConfig skewedConfig := rfl
  have hq : quotaHealth authA "test-model" 1000 = 1 := rfl
  have hr : (NewSessionSelector skewedConfig).recentOf authA.ID = [] := rfl
  have hl : specLoadCount (NewSessionSelector skewedConfig).cfg
      ((NewSessionSelector skewedConfig).stats authA.ID) 1000 = 0 := rfl
  refine ⟨rfl, ?_, ?_, rfl, ?_, rfl, ?_, ?_⟩
  · rw [score_eq_value]
    apply value_zero
    · rw [hc]; exact (normalised_loadWeight _).1
    · rw [hc, normalise_eq]
      norm_num [skewedConfig, testConfig]
  · rw [hq, hr, hl, hc, normalise_eq]
    norm_num [specScore, specWeighted, specSuccessRate, specPenaltyRatio, specLoadPenalty,
      skewedConfig, testConfig]
  · exact ⟨⟨[⟨640 * Second, true, 0⟩, ⟨1 * Second, true, 0⟩], [640 * Second, 1 * Second], []⟩,
      by decide, rfl, rfl⟩
  · decide
  · decide

/-- C18. Load monotonicity: for every state with a normalised configuration and two
auths with identical recent results and equal quota score, if auth A has a load
count greater than or equal to that of auth B, then A's score is less than or equal
to B's score. -/
theorem load_monotonicity (s : SessionSelector) (c : SessionSelectorConfig) (a b : Auth)
    (model : String) (now : Time) (hcfg : s.cfg = normaliseSessionConfig c)
    (hrecent : s.recentOf a.ID = s.recentOf b.ID)
    (hquota : quotaHealth a model now = quotaHealth b model now)
    (hload : s.loadOf a model now ≥ s.loadOf b model now) :
    s.scoreOf a model now ≤ s.scoreOf b model now :=
  score_load_mono s c a b model now hcfg hrecent hquota hload

/-- Witness for C18: under load weight 1, `auth-a` with one pending request
scores no higher than `auth-b` with none. -/
theorem load_monotonicity_witness :
    loadedState.loadOf authA "test-model" 2000 = 1 ∧
    loadedState.loadOf authB "test-model" 2000 = 0 ∧
    loadedState.scoreOf authA "test-model" 2000 ≤ loadedState.scoreOf authB "test-model" 2000 :=
  ⟨by decide, by decide,
   load_monotonicity loadedState loadedConfig authA authB
    "test-model" 2000 rfl (by decide) rfl (by decide)⟩

theorem absQ_eq_abs (x : ℚ) : absQ x = |x| := by
  unfold absQ
  split_ifs with h
  · exact (abs_of_neg h).symm
  · exact (abs_of_nonneg (not_lt.1 h)).symm

theorem scoredLess_iff (a b : scored) : scoredLess a b = true ↔ specPreferred a b := by
  unfold scoredLess specPreferred
  rw [absQ_eq_abs]
  by_cases h1 : |a.score - b.score| > 1 / 10000
  · rw [if_pos h1]
    simp only [decide_eq_true_eq]
    constructor
    · intro h
      left
      rcases lt_abs.1 h1 with h2 | h2
      · exact h2
      · linarith
    · rintro (h | ⟨h, _⟩ | ⟨h, _⟩)
      · linarith
      · exact absurd h (not_le.2 h1)
      · exact absurd h (not_le.2 h1)
  · rw [if_neg h1]
    have h1le : |a.score - b.score| ≤ 1 / 10000 := not_lt.1 h1
    by_cases h2 : a.load ≠ b.load
    · rw [if_pos h2]
      simp only [decide_eq_true_eq]
      constructor
      · intro h; exact Or.inr (Or.inl ⟨h1le, h⟩)
      · rintro (h | ⟨_, h⟩ | ⟨_, h, _⟩)
        · exact absurd (lt_of_lt_of_le h (le_abs_self _)) h1
        · exact h
        · exact absurd h h2
    · rw [if_neg h2]
      have h2e : a.load = b.load := not_not.1 h2
      simp only [decide_eq_true_eq]
      constructor
      · intro h; exact Or.inr (Or.inr ⟨h1le, h2e, h⟩)
      · rintro (h | ⟨_, h⟩ | ⟨_, _, h⟩)
        · exact absurd (lt_of_lt_of_le h (le_abs_self _)) h1
        · rw [h2e] at h; exact absurd h (lt_irrefl _)
        · exact h

theorem scoredLess_false_iff (a b : scored) : scoredLess a b = false ↔ ¬ specPreferred a b := by
  rw [← scoredLess_iff, Bool.not_eq_true]

theorem preferred_asymm (a b : scored) (h : specPreferred a b) : ¬ specPreferred b a := by
  unfold specPreferred at *
  have hsymm : |b.score - a.score| = |a.score - b.score| := abs_sub_comm _ _
  rintro (h2 | ⟨h2, h3⟩ | ⟨h2, h3, h4⟩)
  · rcases h with h | ⟨h, _⟩ | ⟨h, _⟩
    · linarith
    · have := (abs_le.1 h).1; linarith
    · have := (abs_le.1 h).1; linarith
  · rcases h with h | ⟨_, h⟩ | ⟨_, h, _⟩
    · have := (abs_le.1 h2).1; linarith
    · omega
    · omega
  · rcases h with h | ⟨_, h⟩ | ⟨_, _, h⟩
    · have := (abs_le.1 h2).1; linarith
    · omega
    · exact absurd h4 (not_lt.2 (le_of_lt h))

theorem preferred_negtrans (a b c : scored)
    (h1 : |c.score - a.score| ≤ 1 / 10000 → |a.score - b.score| ≤ 1 / 10000 →
      |c.score - b.score| ≤ 1 / 10000)
    (h2 : |a.score - c.score| ≤ 1 / 10000 → |c.score - b.score| ≤ 1 / 10000 →
      |a.score - b.score| ≤ 1 / 10000)
    (h3 : |a.score - b.score| ≤ 1 / 10000 → |b.score - c.score| ≤ 1 / 10000 →
      |a.score - c.score| ≤ 1 / 10000)
    (hab : ¬ specPreferred a b) (hbc : ¬ specPreferred b c) : ¬ specPreferred a c := by
  unfold specPreferred at *
  simp only [not_or, not_and, not_lt, gt_iff_lt] at hab hbc
  obtain ⟨ab1, ab2, ab3⟩ := hab
  obtain ⟨bc1, bc2, bc3⟩ := hbc
  have far : ∀ x y : ℚ, ¬ |x - y| ≤ 1 / 10000 → x - y ≤ 1 / 10000 → x - y < -(1 / 10000) := by
    intro x y hn hle
    rcases lt_abs.1 (not_le.1 hn) with h | h
    · linarith
    · linarith
  have hca : |c.score - a.score| = |a.score - c.score| := abs_sub_comm _ _
  have hcb : |c.score - b.score| = |b.score - c.score| := abs_sub_comm _ _
  by_cases cab : |a.score - b.score| ≤ 1 / 10000
  · by_cases cbc : |b.score - c.score| ≤ 1 / 10000
    · have cac := h3 cab cbc
      rintro (h | ⟨_, h⟩ | ⟨_, h, hid⟩)
      · have := (abs_le.1 cac).2; linarith
      · have := ab2 cab
        have := bc2 cbc
        omega
      · have l1 := ab2 cab
        have l2 := bc2 cbc
        have e1 : a.load = b.load := by omega
        have e2 : b.load = c.load := by omega
        have i1 := ab3 cab e1
        have i2 := bc3 cbc e2
        exact absurd hid (not_lt.2 (le_trans i2 i1))
    · have fbc := far _ _ cbc bc1
      have hab2 := abs_le.1 cab
      rintro (h | ⟨h, _⟩ | ⟨h, _⟩)
      · linarith [hab2.2]
      · exact cbc (by rw [← hcb]; exact h1 (by rw [hca]; exact h) cab)
      · exact cbc (by rw [← hcb]; exact h1 (by rw [hca]; exact h) cab)
  · have fab := far _ _ cab ab1
    by_cases cbc : |b.score - c.score| ≤ 1 / 10000
    · have hbc2 := abs_le.1 cbc
      rintro (h | ⟨h, _⟩ | ⟨h, _⟩)
      · linarith [hbc2.2]
      · exact cab (h2 h (by rw [hcb]; exact cbc))
      · exact cab (h2 h (by rw [hcb]; exact cbc))
    · have fbc := far _ _ cbc bc1
      rintro (h | ⟨h, _⟩ | ⟨h, _⟩)
      · linarith
      · have := (abs_le.1 h).1; linarith
      · have := (abs_le.1 h).1; linarith

theorem insertLeft_mem {α : Type} (less : α → α → Bool) (x : α) (acc : List α) (z : α)
    (hz : z ∈ insertLeft less x acc) : z = x ∨ z ∈ acc := by
  induction acc with
  | nil => simpa [insertLeft] using hz
  | cons y ys ih =>
    simp only [insertLeft] at hz
    split at hz
    · rcases List.mem_cons.1 hz with h | h
      · exact Or.inr (h ▸ List.mem_cons_self _ _)
      · rcases ih h with h | h
        · exact Or.inl h
        · exact Or.inr (List.mem_cons_of_mem _ h)
    · rcases List.mem_cons.1 hz with h | h
      · exact Or.inl h
      · exact Or.inr h

theorem insertLeft_sorted_on {α : Type} (less : α → α → Bool) (l : List α)
    (hsw : StrictWeakOn less l) (x : α) (hx : x ∈ l) (acc : List α) (hacc : ∀ z ∈ acc, z ∈ l)
    (hp : List.Pairwise (fun a b => less a b = false) acc) :
    List.Pairwise (fun a b => less a b = false) (insertLeft less x acc) := by
  obtain ⟨hasym, hneg⟩ := hsw
  induction acc with
  | nil => simp [insertLeft]
  | cons y ys ih =>
    rw [List.pairwise_cons] at hp
    have hy : y ∈ l := hacc y (List.mem_cons_self _ _)
    have hys : ∀ z ∈ ys, z ∈ l := fun z hz => hacc z (List.mem_cons_of_mem _ hz)
    simp only [insertLeft]
    split
    · rename_i hxy
      rw [List.pairwise_cons]
      refine ⟨?_, ih hys hp.2⟩
      intro z hz
      rcases insertLeft_mem less x ys z hz with h | h
      · subst h; exact hasym _ hx _ hy hxy
      · exact hp.1 z h
    · rename_i hxy
      have hxy2 : less x y = false := by simpa using hxy
      rw [List.pairwise_cons]
      refine ⟨?_, List.pairwise_cons.2 hp⟩
      intro z hz
      rcases List.mem_cons.1 hz with h | h
      · subst h; exact hxy2
      · exact hneg x hx y hy z (hys z h) hxy2 (hp.1 z h)

theorem insertionSort_sorted_on {α : Type} (less : α → α → Bool) (l : List α)
    (hsw : StrictWeakOn less l) :
    List.Pairwise (fun a b => less b a = false) (insertionSortLess less l) := by
  have hfold : ∀ (m acc : List α), (∀ z ∈ m, z ∈ l) → (∀ z ∈ acc, z ∈ l) →
      List.Pairwise (fun a b => less a b = false) acc →
      List.Pairwise (fun a b => less a b = false)
        (m.foldl (fun accRev x => insertLeft less x accRev) acc) := by
    intro m
    induction m with
    | nil => intro acc _ _ h; simpa using h
    | cons x xs ih =>
      intro acc hm hacc h
      simp only [List.foldl_cons]
      apply ih
      · exact fun z hz => hm z (List.mem_cons_of_mem _ hz)
      · intro z hz
        rcases insertLeft_mem less x acc z hz with h1 | h1
        · rw [h1]; exact hm x (List.mem_cons_self _ _)
        · exact hacc z h1
      · exact insertLeft_sorted_on less l hsw x (hm x (List.mem_cons_self _ _)) acc hacc h
  unfold insertionSortLess
  rw [List.pairwise_reverse]
  exact hfold l [] (fun z hz => hz) (fun z hz => absurd hz (List.not_mem_nil z)) List.Pairwise.nil

theorem scoredLess_irrefl (x : scored) : scoredLess x x = false := by
  rw [scoredLess_false_iff]
  unfold specPreferred
  simp

theorem scoredLess_strictWeakOn (s : SessionSelector) (cands : List Auth) (model : String)
    (now : Time)
    (hclose : ∀ x ∈ cands, ∀ y ∈ cands, ∀ z ∈ cands,
      |s.scoreOf x model now - s.scoreOf y model now| ≤ 1 / 10000 →
      |s.scoreOf y model now - s.scoreOf z model now| ≤ 1 / 10000 →
      |s.scoreOf x model now - s.scoreOf z model now| ≤ 1 / 10000) :
    StrictWeakOn scoredLess (cands.map (s.scoredOf model now)) := by
  constructor
  · intro a _ b _ hab
    rw [scoredLess_false_iff]
    exact preferred_asymm a b ((scoredLess_iff a b).1 hab)
  · intro a ha b hb c hc hab hbc
    obtain ⟨x, hx, rfl⟩ := List.mem_map.1 ha
    obtain ⟨y, hy, rfl⟩ := List.mem_map.1 hb
    obtain ⟨z, hz, rfl⟩ := List.mem_map.1 hc
    rw [scoredLess_false_iff] at hab hbc ⊢
    have hs : ∀ w, (s.scoredOf model now w).score = s.scoreOf w model now := fun _ => rfl
    refine preferred_negtrans (s.scoredOf model now x) (s.scoredOf model now y)
      (s.scoredOf model now z) ?_ ?_ ?_ hab hbc
    · rw [hs, hs, hs]; exact hclose z hz x hx y hy
    · rw [hs, hs, hs]; exact hclose x hx z hz y hy
    · rw [hs, hs, hs]; exact hclose x hx y hy z hz

theorem sorted_head_top (srt : SortSlice scored) (s : SessionSelector) (cands : List Auth)
    (model : String) (now : Time) (hne : cands ≠ [])
    (hsorted : List.Pairwise (fun a b => scoredLess b a = false)
      (srt.sort scoredLess (cands.map (s.scoredOf model now)))) :
    ∃ c, (srt.sort scoredLess (cands.map (s.scoredOf model now))).head?.map (fun x => x.auth) =
        some c ∧ c ∈ cands ∧
      ∀ d ∈ cands, ¬ specPreferred (s.scoredOf model now d) (s.scoredOf model now c) := by
  have hperm := srt.perm scoredLess (cands.map (s.scoredOf model now))
  cases hst : srt.sort scoredLess (cands.map (s.scoredOf model now)) with
  | nil =>
    rw [hst] at hperm
    have h0 := hperm.length_eq
    simp only [List.length_nil, List.length_map] at h0
    exact absurd (List.length_eq_zero.1 h0.symm) hne
  | cons h t =>
    rw [hst] at hsorted hperm
    have hh : h ∈ cands.map (s.scoredOf model now) := hperm.subset (List.mem_cons_self _ _)
    obtain ⟨c, hc, hce⟩ := List.mem_map.1 hh
    refine ⟨c, ?_, hc, ?_⟩
    · simp only [List.head?_cons, Option.map_some', ← hce]
      rfl
    · intro d hd
      rw [← scoredLess_false_iff, hce]
      have hdm : s.scoredOf model now d ∈ h :: t :=
        hperm.symm.subset (List.mem_map.2 ⟨d, hd, rfl⟩)
      rcases List.mem_cons.1 hdm with h1 | h1
      · rw [h1]; exact scoredLess_irrefl h
      · exact (List.pairwise_cons.1 hsorted).1 _ h1

theorem best_is_top (srt : SortSlice scored) (s : SessionSelector) (cands : List Auth)
    (model : String) (now : Time) (hne : cands ≠ [])
    (hsrt : cands.length ≤ 12 ∨
      ∀ l, StrictWeakOn scoredLess l →
        List.Pairwise (fun a b => scoredLess b a = false) (srt.sort scoredLess l))
    (hclose : ∀ x ∈ cands, ∀ y ∈ cands, ∀ z ∈ cands,
      |s.scoreOf x model now - s.scoreOf y model now| ≤ 1 / 10000 →
      |s.scoreOf y model now - s.scoreOf z model now| ≤ 1 / 10000 →
      |s.scoreOf x model now - s.scoreOf z model now| ≤ 1 / 10000) :
    ∃ c, (s.pickBestCandidateLocked srt cands model now).1 = some c ∧ c ∈ cands ∧
      ∀ d ∈ cands, ¬ specPreferred (s.scoredOf model now d) (s.scoredOf model now c) := by
  have hsw := scoredLess_strictWeakOn s cands model now hclose
  have hsorted : List.Pairwise (fun a b => scoredLess b a = false)
      (srt.sort scoredLess (cands.map (s.scoredOf model now))) := by
    rcases hsrt with h | h
    · rw [srt.small _ _ (by rw [List.length_map]; exact h)]
      exact insertionSort_sorted_on _ _ hsw
    · exact h _ hsw
  have htop := sorted_head_top srt s cands model now hne hsorted
  match cands, hne, htop with
  | [], hne, _ => exact absurd rfl hne
  | [auth], _, _ =>
    refine ⟨auth, rfl, List.mem_singleton_self _, ?_⟩
    intro d hd
    rw [List.mem_singleton.1 hd, ← scoredLess_false_iff]
    exact scoredLess_irrefl _
  | a :: b :: rest, _, htop =>
    have hres : (s.pickBestCandidateLocked srt (a :: b :: rest) model now).1 =
        (srt.sort scoredLess ((a :: b :: rest).map (s.scoredOf model now))).head?.map
          (fun x => x.auth) := by
      simp only [SessionSelector.pickBestCandidateLocked, scoreAll_eq, List.nil_append]
    rw [hres]
    exact htop

theorem pickBest_three (srt : SortSlice scored) (s : SessionSelector) (x y z : Auth)
    (model : String) (now : Time)
    (h1 : scoredLess (s.scoredOf model now y) (s.scoredOf model now x) = false)
    (h2 : scoredLess (s.scoredOf model now z) (s.scoredOf model now y) = false) :
    (s.pickBestCandidateLocked srt [x, y, z] model now).1 = some x := by
  unfold SessionSelector.pickBestCandidateLocked
  simp only [scoreAll_eq, List.nil_append, List.map_cons, List.map_nil]
  rw [srt.small _ _ (by simp)]
  simp only [insertionSortLess, List.foldl_cons, List.foldl_nil, insertLeft, h1, h2,
    Bool.false_eq_true, ↓reduceIte, List.reverse_cons, List.reverse_nil, List.nil_append,
    List.singleton_append, List.cons_append, List.head?_cons, Option.map_some']
  rfl

theorem close_trans_of_equal (s : SessionSelector) (cands : List Auth) (model : String)
    (now : Time)
    (h : ∀ x ∈ cands, ∀ z ∈ cands, s.scoreOf x model now = s.scoreOf z model now) :
    ∀ x ∈ cands, ∀ y ∈ cands, ∀ z ∈ cands,
      |s.scoreOf x model now - s.scoreOf y model now| ≤ 1 / 10000 →
      |s.scoreOf y model now - s.scoreOf z model now| ≤ 1 / 10000 →
      |s.scoreOf x model now - s.scoreOf z model now| ≤ 1 / 10000 := by
  intro x hx _ _ z hz _ _
  rw [h x hx z hz, sub_self, abs_zero]
  norm_num

theorem fresh_score_eq (s : SessionSelector) (a b : Auth) (model : String) (now : Time)
    (ha : s.stats a.ID = none) (hb : s.stats b.ID = none)
    (hq : quotaHealth a model now = quotaHealth b model now) :
    s.scoreOf a model now = s.scoreOf b model now := by
  rw [(score_no_stats s a model now ha).1, (score_no_stats s b model now hb).1]
  unfold SessionSelector.baseWeighted
  rw [hq]

theorem close_score_a :
    closeState.scoreOf authA "test-model" (1000 + 11 * Minute) = 7999 / 8000 := by
  have hst : closeState.stats authA.ID = some ⟨[⟨1000, false, 400⟩], [1000], []⟩ := by decide
  have hc : closeState.cfg = normaliseSessionConfig closeConfig := rfl
  have hq : quotaHealth authA "test-model" (1000 + 11 * Minute) = 1 := rfl
  unfold SessionSelector.scoreOf SessionSelector.scoreAuthLocked
  rw [hst, hc, normalise_eq]
  norm_num [countSamples, clamp01, hq, closeConfig, testConfig]

theorem close_score_b :
    closeState.scoreOf authB "test-model" (1000 + 11 * Minute) = 15999 / 16000 := by
  have hst : closeState.stats authB.ID = none := by decide
  have hc : closeState.cfg = normaliseSessionConfig closeConfig := rfl
  have hq : quotaHealth authB "test-model" (1000 + 11 * Minute) = 1 := rfl
  unfold SessionSelector.scoreOf SessionSelector.scoreAuthLocked
  rw [hst, hc, normalise_eq]
  norm_num [hq, closeConfig, testConfig]

theorem close_score_c :
    closeState.scoreOf authC "test-model" (1000 + 11 * Minute) = 1 := by
  have hst : closeState.stats authC.ID = some ⟨[⟨1000, true, 0⟩], [1000], []⟩ := by decide
  have hc : closeState.cfg = normaliseSessionConfig closeConfig := rfl
  have hq : quotaHealth authC "test-model" (1000 + 11 * Minute) = 1 := rfl
  unfold SessionSelector.scoreOf SessionSelector.scoreAuthLocked
  rw [hst, hc, normalise_eq]
  norm_num [countSamples, clamp01, hq, closeConfig, testConfig]

theorem close_loads :
    closeState.loadOf authA "test-model" (1000 + 11 * Minute) = 0 ∧
    closeState.loadOf authB "test-model" (1000 + 11 * Minute) = 0 ∧
    closeState.loadOf authC "test-model" (1000 + 11 * Minute) = 0 := by
  refine ⟨by decide, by decide, by decide⟩

theorem close_c_over_a :
    specPreferred (closeState.scoredOf "test-model" (1000 + 11 * Minute) authC)
      (closeState.scoredOf "test-model" (1000 + 11 * Minute) authA) := by
  left
  simp only [SessionSelector.scoredOf, close_score_a, close_score_c]
  norm_num

theorem close_a_over_b :
    specPreferred (closeState.scoredOf "test-model" (1000 + 11 * Minute) authA)
      (closeState.scoredOf "test-model" (1000 + 11 * Minute) authB) := by
  right; right
  simp only [SessionSelector.scoredOf, close_score_a, close_score_b, close_loads.1,
    close_loads.2.1]
  refine ⟨?_, trivial, ?_⟩
  · rw [abs_le]; constructor <;> norm_num
  · rw [String.lt_iff_toList_lt]; decide

theorem close_b_over_c :
    specPreferred (closeState.scoredOf "test-model" (1000 + 11 * Minute) authB)
      (closeState.scoredOf "test-model" (1000 + 11 * Minute) authC) := by
  right; right
  simp only [SessionSelector.scoredOf, close_score_b, close_score_c, close_loads.2.1,
    close_loads.2.2]
  refine ⟨?_, trivial, ?_⟩
  · rw [abs_le]; constructor <;> norm_num
  · rw [String.lt_iff_toList_lt]; decide

/-- C19, amended. Selection order: for every non-empty list of candidates
among whose scores closeness within 1e-4 is transitive (as it always is for two
candidates), and a library sort that sorts whenever the comparison is a strict weak
ordering on the slice (as insertion sort, which it runs up to 12 elements, does),
the auth returned by `pickBestCandidateLocked` is a top element of the order
(score desc, load asc, id asc): no candidate is preferred to it. -/
theorem selection_order (srt : SortSlice scored) (s : SessionSelector) (cands : List Auth)
    (model : String) (now : Time) (hne : cands ≠ [])
    (hsrt : cands.length ≤ 12 ∨
      ∀ l, StrictWeakOn scoredLess l →
        List.Pairwise (fun a b => scoredLess b a = false) (srt.sort scoredLess l))
    (hclose : ∀ x ∈ cands, ∀ y ∈ cands, ∀ z ∈ cands,
      |s.scoreOf x model now - s.scoreOf y model now| ≤ 1 / 10000 →
      |s.scoreOf y model now - s.scoreOf z model now| ≤ 1 / 10000 →
      |s.scoreOf x model now - s.scoreOf z model now| ≤ 1 / 10000) :
    ∃ c, (s.pickBestCandidateLocked srt cands model now).1 = some c ∧ c ∈ cands ∧
      ∀ d ∈ cands, ¬ specPreferred (s.scoredOf model now d) (s.scoredOf model now c) :=
  best_is_top srt s cands model now hne hsrt hclose

/-- Witness for C19: three auths without statistics and with clear quotas, scored by
a fresh selector. -/
theorem selection_order_witness :
    ∃ c, ((NewSessionSelector testConfig).pickBestCandidateLocked (insertionSlice scored)
        [authB, authA, authC] "test-model" 1000).1 = some c ∧ c ∈ [authB, authA, authC] ∧
      ∀ d ∈ [authB, authA, authC],
        ¬ specPreferred ((NewSessionSelector testConfig).scoredOf "test-model" 1000 d)
          ((NewSessionSelector testConfig).scoredOf "test-model" 1000 c) :=
  selection_order (insertionSlice scored) (NewSessionSelector testConfig) [authB, authA, authC]
    "test-model" 1000 (List.cons_ne_nil _ _) (Or.inl (by decide))
    (close_trans_of_equal _ _ _ _ (by
      intro x hx z hz
      have hx2 : quotaHealth x "test-model" 1000 = 1 := by
        simp only [List.mem_cons, List.mem_singleton, List.not_mem_nil, or_false] at hx
        rcases hx with rfl | rfl | rfl <;> rfl
      have hz2 : quotaHealth z "test-model" 1000 = 1 := by
        simp only [List.mem_cons, List.mem_singleton, List.not_mem_nil, or_false] at hz
        rcases hz with rfl | rfl | rfl <;> rfl
      exact fresh_score_eq _ x z _ _ rfl rfl (by rw [hx2, hz2])))

/-- Counterexample to C19 as stated: three candidates with distinct ids whose scores
are 7999/8000, 15999/16000 and 1 and whose loads are 0. Whatever the library sort,
`pickBestCandidateLocked` returns `auth-a`, to which `auth-c` is preferred (its
score is higher by 1/8000, more than 1e-4); and no candidate is a top element, since
`auth-a` is preferred to `auth-b` and `auth-b` to `auth-c` (scores within 1e-4,
equal loads, smaller id). -/
theorem selection_order_counterexample :
    ([authA, authB, authC].map (fun a => a.ID)).Nodup ∧
    closeState.cfg = normaliseSessionConfig closeConfig ∧
    (∀ srt : SortSlice scored,
      (closeState.pickBestCandidateLocked srt [authA, authB, authC] "test-model"
        (1000 + 11 * Minute)).1 = some authA) ∧
    closeState.scoreOf authA "test-model" (1000 + 11 * Minute) = 7999 / 8000 ∧
    closeState.scoreOf authB "test-model" (1000 + 11 * Minute) = 15999 / 16000 ∧
    closeState.scoreOf authC "test-model" (1000 + 11 * Minute) = 1 ∧
    specPreferred (closeState.scoredOf "test-model" (1000 + 11 * Minute) authC)
      (closeState.scoredOf "test-model" (1000 + 11 * Minute) authA) ∧
    specPreferred (closeState.scoredOf "test-model" (1000 + 11 * Minute) authA)
      (closeState.scoredOf "test-model" (1000 + 11 * Minute) authB) ∧
    specPreferred (closeState.scoredOf "test-model" (1000 + 11 * Minute) authB)
      (closeState.scoredOf "test-model" (1000 + 11 * Minute) authC) := by
  refine ⟨by decide, rfl, ?_, close_score_a, close_score_b, close_score_c, close_c_over_a,
    close_a_over_b, close_b_over_c⟩
  intro srt
  apply pickBest_three
  · rw [scoredLess_false_iff]
    exact preferred_asymm _ _ close_a_over_b
  · rw [scoredLess_false_iff]
    exact preferred_asymm _ _ close_b_over_c

theorem loadWeight_clamped (x : ℚ) :
    (if (if x < 0 then 0 else x) > 1 then 1 else (if x < 0 then 0 else x)) =
      max 0 (min 1 x) := by
  by_cases h0 : x < 0
  · have h1 : ¬ ((0 : ℚ) > 1) := by norm_num
    rw [if_pos h0, if_neg h1, max_eq_left]
    exact le_trans (min_le_right _ _) (le_of_lt h0)
  · rw [if_neg h0]
    by_cases h1 : x > 1
    · rw [if_pos h1, min_eq_left (le_of_lt h1), max_eq_right (by norm_num)]
    · rw [if_neg h1, min_eq_right (not_lt.1 h1), max_eq_right (not_lt.1 h0)]

theorem normalise_fields (c : SessionSelectorConfig) :
    normaliseSessionConfig c =
      { Enabled := c.Enabled
        Providers := c.Providers
        TTL := if c.TTL ≤ 0 then 5 * Minute else c.TTL
        FailureThreshold := if c.FailureThreshold ≤ 0 then 3 else c.FailureThreshold
        Cooldown := if c.Cooldown ≤ 0 then 5 * Minute else c.Cooldown
        LoadWindow := if c.LoadWindow ≤ 0 then 10 * Minute else c.LoadWindow
        LoadWeight := max 0 (min 1 c.LoadWeight)
        HealthWindow := if c.HealthWindow ≤ 0 then 50 else c.HealthWindow
        WeightSuccess := if c.WeightSuccess ≤ 0 ∧ c.WeightQuota ≤ 0 then 3 / 5 else c.WeightSuccess
        WeightQuota := if c.WeightSuccess ≤ 0 ∧ c.WeightQuota ≤ 0 then 2 / 5 else c.WeightQuota
        Penalty429 := if c.Penalty429 ≤ 0 then 1 else c.Penalty429
        Penalty403 := if c.Penalty403 ≤ 0 then 7 / 10 else c.Penalty403
        Penalty5xx := if c.Penalty5xx ≤ 0 then 2 / 5 else c.Penalty5xx } := by
  rw [normalise_eq, loadWeight_clamped]

/-- C20. Config defaults: for every input configuration, `normaliseSessionConfig`
returns the configuration in which `TTL` and `Cooldown` are 5 minutes, `LoadWindow`
is 10 minutes, `FailureThreshold` is 3 and `HealthWindow` is 50 when the input value
is <= 0 and the input value otherwise; `LoadWeight` is the input clamped to [0,1];
`WeightSuccess`/`WeightQuota` are 0.6/0.4 when both inputs are <= 0 and both
unchanged otherwise; `Penalty429`/`Penalty403`/`Penalty5xx` are 1.0/0.7/0.4 when the
input is <= 0 and unchanged otherwise; `Enabled` and `Providers` are unchanged. -/
theorem config_defaults (c : SessionSelectorConfig) :
    normaliseSessionConfig c =
      { Enabled := c.Enabled
        Providers := c.Providers
        TTL := if c.TTL ≤ 0 then 5 * Minute else c.TTL
        FailureThreshold := if c.FailureThreshold ≤ 0 then 3 else c.FailureThreshold
        Cooldown := if c.Cooldown ≤ 0 then 5 * Minute else c.Cooldown
        LoadWindow := if c.LoadWindow ≤ 0 then 10 * Minute else c.LoadWindow
        LoadWeight := max 0 (min 1 c.LoadWeight)
        HealthWindow := if c.HealthWindow ≤ 0 then 50 else c.HealthWindow
        WeightSuccess := if c.WeightSuccess ≤ 0 ∧ c.WeightQuota ≤ 0 then 3 / 5 else c.WeightSuccess
        WeightQuota := if c.WeightSuccess ≤ 0 ∧ c.WeightQuota ≤ 0 then 2 / 5 else c.WeightQuota
        Penalty429 := if c.Penalty429 ≤ 0 then 1 else c.Penalty429
        Penalty403 := if c.Penalty403 ≤ 0 then 7 / 10 else c.Penalty403
        Penalty5xx := if c.Penalty5xx ≤ 0 then 2 / 5 else c.Penalty5xx } :=
  normalise_fields c

theorem normalise_normalise (c : SessionSelectorConfig) :
    normaliseSessionConfig (normaliseSessionConfig c) = normaliseSessionConfig c := by
  rw [normalise_eq (normaliseSessionConfig c), normalise_eq c]
  dsimp only
  congr 1 <;> split_ifs <;> rfl

/-- C21. Normalisation is idempotent: for every configuration `c`,
`normaliseSessionConfig (normaliseSessionConfig c) = normaliseSessionConfig c`. -/
theorem normalise_idempotent (c : SessionSelectorConfig) :
    normaliseSessionConfig (normaliseSessionConfig c) = normaliseSessionConfig c :=
  normalise_normalise c

theorem quotaHealth_governing (auth : Auth) (model : String) (now : Time) :
    quotaHealth auth model now =
      if (governingQuota auth model).Exceeded then 0
      else if !Time.IsZero (governingQuota auth model).NextRecoverAt &&
          Time.After (governingQuota auth model).NextRecoverAt now then 1 / 5
      else 1 := rfl

theorem quota_exceeded_zero (auth : Auth) (model : String) (now : Time)
    (h : (governingQuota auth model).Exceeded = true) : quotaHealth auth model now = 0 := by
  rw [quotaHealth_governing, h]
  rfl

theorem quota_cases (auth : Auth) (model : String) (now : Time) :
    ∃ q : QuotaState,
      (∀ st, model ≠ "" → auth.ModelStates.lookup model = some st → q = st.Quota) ∧
      ((model = "" ∨ auth.ModelStates.lookup model = none) → q = auth.Quota) ∧
      (q.Exceeded = true → quotaHealth auth model now = 0) ∧
      (q.Exceeded = false → q.NextRecoverAt ≠ 0 → now < q.NextRecoverAt →
        quotaHealth auth model now = 1 / 5) ∧
      (q.Exceeded = false → (q.NextRecoverAt = 0 ∨ ¬ now < q.NextRecoverAt) →
        quotaHealth auth model now = 1) := by
  refine ⟨governingQuota auth model, ?_, ?_, ?_, ?_, ?_⟩
  · intro st hm hl
    simp only [governingQuota, hm, ne_eq, not_false_eq_true, ↓reduceIte, hl]
  · rintro (hm | hl)
    · simp only [governingQuota, hm, ne_eq, not_true_eq_false, ↓reduceIte]
    · unfold governingQuota
      split
      · rw [hl]
      · rfl
  · exact quota_exceeded_zero auth model now
  · intro he hz ha
    rw [quotaHealth_governing, he]
    simp only [Bool.false_eq_true, ↓reduceIte, Time.IsZero, Time.After, hz, decide_False,
      Bool.not_false, ha, decide_True, Bool.and_self]
  · intro he h
    rw [quotaHealth_governing, he]
    rcases h with h | h
    · simp only [Bool.false_eq_true, ↓reduceIte, Time.IsZero, h, decide_True, Bool.not_true,
        Bool.false_and]
    · simp only [Bool.false_eq_true, ↓reduceIte, Time.After, h, decide_False, Bool.and_false]

/-- C22. Quota score: for every auth, model and time `now`, `quotaHealth` reads the
quota of `auth.ModelStates[model]` when the model is non-empty and that entry
exists, and the auth's own quota otherwise; on that quota it returns 0 if `Exceeded`
is true, 0.2 if `Exceeded` is false and `NextRecoverAt` is non-zero and after `now`,
and 1 in every other case. -/
theorem quota_score (auth : Auth) (model : String) (now : Time) :
    ∃ q : QuotaState,
      (∀ st, model ≠ "" → auth.ModelStates.lookup model = some st → q = st.Quota) ∧
      ((model = "" ∨ auth.ModelStates.lookup model = none) → q = auth.Quota) ∧
      (q.Exceeded = true → quotaHealth auth model now = 0) ∧
      (q.Exceeded = false → q.NextRecoverAt ≠ 0 → now < q.NextRecoverAt →
        quotaHealth auth model now = 1 / 5) ∧
      (q.Exceeded = false → (q.NextRecoverAt = 0 ∨ ¬ now < q.NextRecoverAt) →
        quotaHealth auth model now = 1) :=
  quota_cases auth model now

/-- C23. The input of `TestResolveAuthCooldown_IgnoresExpiredQuota` under
`quotaHealth`: at time ten minutes the auth whose quota is exceeded with a recovery
time one minute earlier (non-zero and before `now`) scores 0, and the same auth with
`Exceeded` = false scores 1: the expired cooldown lowers the score. -/
theorem expired_quota_scored_zero :
    expiredAuth.Quota.Exceeded = true ∧
    expiredAuth.Quota.NextRecoverAt ≠ 0 ∧
    expiredAuth.Quota.NextRecoverAt < 10 * Minute ∧
    clearedAuth = { expiredAuth with Quota := { expiredAuth.Quota with Exceeded := false } } ∧
    quotaHealth expiredAuth "" (10 * Minute) = 0 ∧
    quotaHealth clearedAuth "" (10 * Minute) = 1 ∧
    quotaHealth expiredAuth "" (10 * Minute) ≠ quotaHealth clearedAuth "" (10 * Minute) := by
  have h0 : quotaHealth expiredAuth "" (10 * Minute) = 0 := rfl
  have h1 : quotaHealth clearedAuth "" (10 * Minute) = 1 := rfl
  refine ⟨rfl, by decide, by decide, rfl, h0, h1, ?_⟩
  rw [h0, h1]
  norm_num

/-- Witness for C22: for the model `gpt-5`, whose state has a quota that is not
exceeded and recovers after `now`, the score is 0.2 although the auth's own quota is
clear. -/
theorem quota_score_witness : quotaHealth modelWarnedAuth "gpt-5" 1000 = 1 / 5 := by
  obtain ⟨q, h1, _, _, h4, _⟩ := quota_score modelWarnedAuth "gpt-5" 1000
  have hq := h1 { Quota := { Exceeded := false, Reason := "", NextRecoverAt := 1000 + 60 * Minute } }
    (by decide) rfl
  subst hq
  exact h4 rfl (by decide) (by decide)

theorem session_roundtrip (c : Context) (sid : String) (h : sid ≠ "") :
    SessionIDFromContext (WithSessionID (some c) sid) = sid := by
  simp [WithSessionID, SessionIDFromContext, Context.Value, h, List.lookup]

theorem session_absent (c : Context)
    (h : ∀ v, (ContextKey.sessionIDContextKey, v) ∉ c) : SessionIDFromContext (some c) = "" := by
  have hl : List.lookup ContextKey.sessionIDContextKey c = none := by
    induction c with
    | nil => rfl
    | cons x xs ih =>
      obtain ⟨k, v⟩ := x
      have hk : ContextKey.sessionIDContextKey ≠ k := by
        intro hk
        exact h v (by rw [hk]; exact List.mem_cons_self _ _)
      have hb : (ContextKey.sessionIDContextKey == k) = false := by
        simpa using hk
      rw [List.lookup_cons, hb]
      exact ih (fun v hv => h v (List.mem_cons_of_mem _ hv))
  simp only [SessionIDFromContext, Context.Value, hl]

/-- C25. Session context round trip: for every non-nil context `ctx` and non-empty
session id `s`, `SessionIDFromContext (WithSessionID ctx s) = s`; for the empty id
`WithSessionID ctx ""` returns `ctx` unchanged (nil or not); and
`SessionIDFromContext` returns the empty string for a nil context and for a context
in which no value was stored under the session key. -/
theorem session_context_round_trip :
    (∀ (c : Context) (sid : String), sid ≠ "" →
      SessionIDFromContext (WithSessionID (some c) sid) = sid) ∧
    (∀ ctx : Option Context, WithSessionID ctx "" = ctx) ∧
    SessionIDFromContext none = "" ∧
    (∀ c : Context, (∀ v, (ContextKey.sessionIDContextKey, v) ∉ c) →
      SessionIDFromContext (some c) = "") := by
  refine ⟨session_roundtrip, ?_, rfl, session_absent⟩
  intro ctx
  cases ctx <;> rfl

/-- Witness for C25: a session id stored over an older one is the one read back. -/
theorem session_context_round_trip_witness :
    SessionIDFromContext (WithSessionID (WithSessionID (some []) "session-1") "session-2") =
      "session-2" :=
  session_context_round_trip.1 [(ContextKey.sessionIDContextKey, AnyValue.str "session-1")]
    "session-2" (by decide)

theorem pick_returns_available (srt : SortSlice scored) (mk : String) (s : SessionSelector)
    (now : Time) (provider model : String) (opts : Options) (available : List Auth)
    (hne : available ≠ []) :
    ∃ a, (s.Pick srt mk now provider model opts (Except.ok available)).1 = Except.ok a ∧
      a ∈ available := by
  rcases lookupBinding_cases (s.cleanupLocked now) now (s.isProviderEnabled provider) provider
    (extractSessionIDFromOptions mk opts) available with
    ⟨a, s2, b, hl, _, _, _, hmem, _, _, _⟩ | ⟨ex, s2, hl, _, _⟩
  · rw [pick_of_sticky srt mk s now provider model opts available a s2 hl]
    exact ⟨a, rfl, hmem⟩
  · rw [pick_of_fresh srt mk s now provider model opts available ex s2 hl]
    have hcne : (if (filterAuthsByID available ex).length = 0 then available
        else filterAuthsByID available ex) ≠ [] := by
      split
      · exact hne
      · rename_i h
        intro h0
        exact h (by rw [h0]; rfl)
    have hsub : ∀ a ∈ (if (filterAuthsByID available ex).length = 0 then available
        else filterAuthsByID available ex), a ∈ available := by
      intro a ha
      split at ha
      · exact ha
      · exact (mem_filterAuthsByID ha).1
    obtain ⟨a, ha, hmem⟩ := pickBest_mem srt s2 _ model now hcne
    refine ⟨a, ?_, hsub a hmem⟩
    generalize s2.pickBestCandidateLocked srt
      (if (filterAuthsByID available ex).length = 0 then available
        else filterAuthsByID available ex) model now = r at ha
    obtain ⟨r1, r2⟩ := r
    simp only at ha
    subst ha
    rfl

/-- C29. Pick returns one of the available candidates: for every selector state,
provider, model, options and non-empty list of available auths, `Pick` succeeds and
the returned auth is an element of that list, also when the only available auth is
the one excluded by a binding cooldown. -/
theorem pick_among_available (srt : SortSlice scored) (mk : String) (s : SessionSelector)
    (now : Time) (provider model : String) (opts : Options) (available : List Auth)
    (hne : available ≠ []) :
    ∃ a, (s.Pick srt mk now provider model opts (Except.ok available)).1 = Except.ok a ∧
      a ∈ available :=
  pick_returns_available srt mk s now provider model opts available hne

/-- Witness for C29: `auth-a` is bound to `session-1` and in cooldown until
2000 + 5 minutes; at time 3000 it is the only available auth and is returned. -/
theorem pick_among_available_witness :
    (∃ b, (cooledState testConfig 500).sessions (sessionKey "codex" "session-1") = some b ∧
      b.authID = "auth-a" ∧ (3000 : Time) < b.cooldownUntil) ∧
    ∃ a, ((cooledState testConfig 500).Pick (insertionSlice scored) "session_id" 3000 "codex"
        "test-model" sessionOpts (Except.ok [authA])).1 = Except.ok a ∧ a ∈ [authA] :=
  ⟨⟨⟨"auth-a", 2000, 0, 2000 + 5 * Minute⟩, by decide, rfl, by decide⟩,
   pick_among_available (insertionSlice scored) "session_id" (cooledState testConfig 500) 3000
    "codex" "test-model" sessionOpts [authA] (List.cons_ne_nil _ _)⟩

theorem quotaHealth_le_one (a : Auth) (model : String) (now : Time) :
    quotaHealth a model now ≤ 1 := by
  unfold quotaHealth
  dsimp only
  split_ifs <;> norm_num

theorem clamp01_nonneg (x : ℚ) : 0 ≤ clamp01 x := by
  unfold clamp01
  split_ifs with h0 h1
  · exact le_refl _
  · norm_num
  · exact not_lt.1 h0

theorem rates_bounds (cfg : SessionSelectorConfig) (recent : List resultSample) :
    0 ≤ (if recent.length > 0 then
        match countSamples recent with
        | (successCount, count429, count403, count5xx) =>
          ((successCount : ℚ) / (recent.length : ℚ),
            clamp01 (((count429 : ℚ) * cfg.Penalty429 + (count403 : ℚ) * cfg.Penalty403 +
              (count5xx : ℚ) * cfg.Penalty5xx) / (recent.length : ℚ)))
      else ((1 / 2 : ℚ), (0 : ℚ))).1 ∧
    (if recent.length > 0 then
        match countSamples recent with
        | (successCount, count429, count403, count5xx) =>
          ((successCount : ℚ) / (recent.length : ℚ),
            clamp01 (((count429 : ℚ) * cfg.Penalty429 + (count403 : ℚ) * cfg.Penalty403 +
              (count5xx : ℚ) * cfg.Penalty5xx) / (recent.length : ℚ)))
      else ((1 / 2 : ℚ), (0 : ℚ))).1 ≤ 1 ∧
    0 ≤ (if recent.length > 0 then
        match countSamples recent with
        | (successCount, count429, count403, count5xx) =>
          ((successCount : ℚ) / (recent.length : ℚ),
            clamp01 (((count429 : ℚ) * cfg.Penalty429 + (count403 : ℚ) * cfg.Penalty403 +
              (count5xx : ℚ) * cfg.Penalty5xx) / (recent.length : ℚ)))
      else ((1 / 2 : ℚ), (0 : ℚ))).2 := by
  by_cases hl : recent.length > 0
  · rw [if_pos hl, countSamples_eq]
    dsimp only
    have hlq : (0 : ℚ) < (recent.length : ℚ) := by exact_mod_cast hl
    have hle : ((recent.filter (fun x => x.success)).length : ℚ) ≤ (recent.length : ℚ) := by
      exact_mod_cast List.length_filter_le _ _
    refine ⟨div_nonneg (Nat.cast_nonneg _) (le_of_lt hlq), ?_, clamp01_nonneg _⟩
    rw [div_le_one hlq]
    exact hle
  · rw [if_neg hl]
    norm_num

theorem value_nonneg (cfg : SessionSelectorConfig) (recent : List resultSample) (q : ℚ)
    (n : Int) : 0 ≤ scoreValue cfg recent q n := by
  have hx : ∀ x : ℚ, 0 ≤ (if x < 0 then 0 else x) := by
    intro x
    split_ifs with h
    · exact le_refl _
    · exact not_lt.1 h
  unfold scoreValue
  simp only
  exact hx _

theorem value_le_one (cfg : SessionSelectorConfig) (recent : List resultSample) (q : ℚ)
    (n : Int) (hq1 : q ≤ 1) (hlw : 0 ≤ cfg.LoadWeight)
    (hws : 0 ≤ cfg.WeightSuccess) (hwq : 0 ≤ cfg.WeightQuota) :
    scoreValue cfg recent q n ≤ 1 := by
  unfold scoreValue
  simp only
  obtain ⟨hr0, hr1, hp0⟩ := rates_bounds cfg recent
  have hp1 := rates_penalty_le_one cfg recent
  have hlp := loadPenalty_nonneg n
  generalize (if recent.length > 0 then
        match countSamples recent with
        | (successCount, count429, count403, count5xx) =>
          ((successCount : ℚ) / (recent.length : ℚ),
            clamp01 (((count429 : ℚ) * cfg.Penalty429 + (count403 : ℚ) * cfg.Penalty403 +
              (count5xx : ℚ) * cfg.Penalty5xx) / (recent.length : ℚ)))
      else ((1 / 2 : ℚ), (0 : ℚ))) = rates at hr0 hr1 hp0 hp1 ⊢
  generalize (if n > 0 then (n : ℚ) / ((n + 1 : Int) : ℚ) else 0) = ln at hlp ⊢
  have hw : (if cfg.WeightSuccess + cfg.WeightQuota > 0 then
      (rates.1 * cfg.WeightSuccess + q * cfg.WeightQuota) /
        (cfg.WeightSuccess + cfg.WeightQuota) else 0) ≤ 1 := by
    split_ifs with ht
    · rw [div_le_one ht]
      nlinarith
    · norm_num
  generalize (if cfg.WeightSuccess + cfg.WeightQuota > 0 then
      (rates.1 * cfg.WeightSuccess + q * cfg.WeightQuota) /
        (cfg.WeightSuccess + cfg.WeightQuota) else 0) = w at hw ⊢
  have hx : w - ln * cfg.LoadWeight ≤ 1 := by
    have := mul_nonneg hlp hlw
    linarith
  split_ifs with h
  · norm_num
  · by_cases hx0 : 0 ≤ w - ln * cfg.LoadWeight
    · have : (w - ln * cfg.LoadWeight) * (1 - rates.2) ≤ 1 * 1 :=
        mul_le_mul hx (by linarith) (by linarith) (by norm_num)
      linarith
    · have : (w - ln * cfg.LoadWeight) * (1 - rates.2) ≤ 0 :=
        mul_nonpos_of_nonpos_of_nonneg (le_of_lt (not_le.1 hx0)) (by linarith)
      linarith

theorem score_bounds (s : SessionSelector) (c : SessionSelectorConfig) (a : Auth)
    (model : String) (now : Time) (hcfg : s.cfg = normaliseSessionConfig c) :
    0 ≤ s.scoreOf a model now ∧ 0 ≤ s.loadOf a model now ∧
    (0 ≤ s.cfg.WeightSuccess → 0 ≤ s.cfg.WeightQuota → s.scoreOf a model now ≤ 1) := by
  have hlw : 0 ≤ s.cfg.LoadWeight := by rw [hcfg]; exact (normalised_loadWeight c).1
  refine ⟨?_, load_nonneg s a model now, ?_⟩
  · rw [score_eq_value]
    exact value_nonneg _ _ _ _
  · intro hws hwq
    rw [score_eq_value]
    exact value_le_one _ _ _ _ (quotaHealth_le_one a model now) hlw hws hwq

/-- C30, amended. Score is bounded: for every state whose configuration was produced
by `normaliseSessionConfig` and every auth, model and time, the score returned by
`scoreAuthLocked` is at least 0 and the returned load count is non-negative; and
when neither `WeightSuccess` nor `WeightQuota` is negative the score is at most 1. -/
theorem score_bounded (s : SessionSelector) (c : SessionSelectorConfig) (a : Auth)
    (model : String) (now : Time) (hcfg : s.cfg = normaliseSessionConfig c) :
    0 ≤ s.scoreOf a model now ∧ 0 ≤ s.loadOf a model now ∧
    (0 ≤ s.cfg.WeightSuccess → 0 ≤ s.cfg.WeightQuota → s.scoreOf a model now ≤ 1) :=
  score_bounds s c a model now hcfg

/-- Witness for C30: `auth-a` with one pending request, scored under the test
configuration (normalised weights 0.6 and 0.4). -/
theorem score_bounded_witness :
    0 ≤ boundState.scoreOf authA "test-model" 2000 ∧
    0 ≤ boundState.loadOf authA "test-model" 2000 ∧
    boundState.scoreOf authA "test-model" 2000 ≤ 1 := by
  have h := score_bounded boundState testConfig authA "test-model" 2000 rfl
  have hc : boundState.cfg = normaliseSessionConfig testConfig := rfl
  refine ⟨h.1, h.2.1, h.2.2 ?_ ?_⟩
  · rw [hc, normalise_eq]; norm_num [testConfig]
  · rw [hc, normalise_eq]; norm_num [testConfig]

/-- Counterexample to C30 as stated: the configuration with weights -1 and 3 is left
as it is by `normaliseSessionConfig`, and under it an auth without statistics and
with a clear quota scores 5/4. -/
theorem score_bounded_counterexample :
    (NewSessionSelector negativeWeightConfig).cfg = normaliseSessionConfig negativeWeightConfig ∧
    (normaliseSessionConfig negativeWeightConfig).WeightSuccess = -1 ∧
    (normaliseSessionConfig negativeWeightConfig).WeightQuota = 3 ∧
    (NewSessionSelector negativeWeightConfig).scoreOf authA "test-model" 1000 = 5 / 4 ∧
    ¬ (NewSessionSelector negativeWeightConfig).scoreOf authA "test-model" 1000 ≤ 1 := by
  have hc : (NewSessionSelector negativeWeightConfig).cfg =
      normaliseSessionConfig negativeWeightConfig := rfl
  have hq : quotaHealth authA "test-model" 1000 = 1 := rfl
  have hst : (NewSessionSelector negativeWeightConfig).stats authA.ID = none := rfl
  have hs : (NewSessionSelector negativeWeightConfig).scoreOf authA "test-model" 1000 = 5 / 4 := by
    unfold SessionSelector.scoreOf SessionSelector.scoreAuthLocked
    rw [hst, hc, normalise_eq]
    norm_num [hq, negativeWeightConfig, testConfig]
  refine ⟨rfl, ?_, ?_, hs, ?_⟩
  · rw [normalise_eq]; norm_num [negativeWeightConfig, testConfig]
  · rw [normalise_eq]; norm_num [negativeWeightConfig, testConfig]
  · rw [hs]; norm_num

theorem lookup_mem_keys {α : Type} (l : List (String × α)) (k : String) (v : α)
    (h : l.lookup k = some v) : k ∈ l.map Prod.fst := by
  induction l with
  | nil => simp at h
  | cons x xs ih =>
    obtain ⟨k1, v1⟩ := x
    by_cases hk : k = k1
    · subst hk; simp
    · have hb : (k == k1) = false := by simpa using hk
      rw [List.lookup_cons, hb] at h
      exact List.mem_cons_of_mem _ (ih h)

theorem mem_cooldownCandidates (auth : Auth) (q : QuotaState) :
    q ∈ cooldownCandidates auth ↔
      q = auth.Quota ∨ ∃ model st, auth.ModelStates.lookup model = some st ∧ q = st.Quota := by
  unfold cooldownCandidates
  rw [List.mem_cons, List.mem_filterMap]
  constructor
  · rintro (h | ⟨model, _, hl⟩)
    · exact Or.inl h
    · right
      cases hlk : auth.ModelStates.lookup model with
      | none => rw [hlk] at hl; simp at hl
      | some st =>
        rw [hlk] at hl
        simp only [Option.map_some', Option.some.injEq] at hl
        exact ⟨model, st, hlk, hl.symm⟩
  · rintro (h | ⟨model, st, hl, hq⟩)
    · exact Or.inl h
    · right
      refine ⟨model, List.mem_dedup.2 (lookup_mem_keys _ _ _ hl), ?_⟩
      rw [hl, hq]
      rfl

theorem earliestRecover_spec (l : List QuotaState) :
    (l = [] → earliestRecover l = none) ∧
    (l ≠ [] → ∃ q, earliestRecover l = some q ∧ q ∈ l ∧
      ∀ q2 ∈ l, q.NextRecoverAt ≤ q2.NextRecoverAt) := by
  induction l with
  | nil => exact ⟨fun _ => rfl, fun h => absurd rfl h⟩
  | cons x xs ih =>
    refine ⟨fun h => absurd h (List.cons_ne_nil _ _), fun _ => ?_⟩
    by_cases hxs : xs = []
    · subst hxs
      refine ⟨x, rfl, List.mem_singleton_self _, ?_⟩
      intro q2 hq2
      rw [List.mem_singleton.1 hq2]
    · obtain ⟨best, hb, hmem, hmin⟩ := ih.2 hxs
      simp only [earliestRecover, hb]
      by_cases hlt : Time.Before best.NextRecoverAt x.NextRecoverAt = true
      · rw [if_pos hlt]
        refine ⟨best, rfl, List.mem_cons_of_mem _ hmem, ?_⟩
        intro q2 hq2
        rcases List.mem_cons.1 hq2 with h | h
        · rw [h]
          simp only [Time.Before, decide_eq_true_eq] at hlt
          exact le_of_lt hlt
        · exact hmin q2 h
      · rw [if_neg hlt]
        refine ⟨x, rfl, List.mem_cons_self _ _, ?_⟩
        have hle : x.NextRecoverAt ≤ best.NextRecoverAt := by
          simp only [Time.Before, decide_eq_true_eq, not_lt] at hlt
          exact hlt
        intro q2 hq2
        rcases List.mem_cons.1 hq2 with h | h
        · rw [h]
        · exact le_trans hle (hmin q2 h)

theorem resolve_cooldown (auth : Auth) (now : Time) :
    ((∃ q, (q = auth.Quota ∨ ∃ model st, auth.ModelStates.lookup model = some st ∧ q = st.Quota) ∧
        q.Exceeded = true ∧ now < q.NextRecoverAt) →
      ∃ q, (q = auth.Quota ∨ ∃ model st, auth.ModelStates.lookup model = some st ∧ q = st.Quota) ∧
        q.Exceeded = true ∧ now < q.NextRecoverAt ∧
        resolveAuthCooldown auth now = (true, q.Reason, q.NextRecoverAt) ∧
        ∀ q2, (q2 = auth.Quota ∨
            ∃ model st, auth.ModelStates.lookup model = some st ∧ q2 = st.Quota) →
          q2.Exceeded = true → now < q2.NextRecoverAt → q.NextRecoverAt ≤ q2.NextRecoverAt) ∧
    ((∀ q, (q = auth.Quota ∨ ∃ model st, auth.ModelStates.lookup model = some st ∧ q = st.Quota) →
        q.Exceeded = true → ¬ now < q.NextRecoverAt) →
      (resolveAuthCooldown auth now).1 = false) := by
  have hfilter : ∀ q, q ∈ (cooldownCandidates auth).filter
      (fun q => q.Exceeded && Time.After q.NextRecoverAt now) ↔
      (q = auth.Quota ∨ ∃ model st, auth.ModelStates.lookup model = some st ∧ q = st.Quota) ∧
        q.Exceeded = true ∧ now < q.NextRecoverAt := by
    intro q
    rw [List.mem_filter, mem_cooldownCandidates]
    simp only [Bool.and_eq_true, Time.After, decide_eq_true_eq]
  constructor
  · rintro ⟨q0, hq0⟩
    have hne : (cooldownCandidates auth).filter
        (fun q => q.Exceeded && Time.After q.NextRecoverAt now) ≠ [] :=
      List.ne_nil_of_mem ((hfilter q0).2 hq0)
    obtain ⟨q, hq, hmem, hmin⟩ := (earliestRecover_spec _).2 hne
    obtain ⟨h1, h2, h3⟩ := (hfilter q).1 hmem
    refine ⟨q, h1, h2, h3, ?_, ?_⟩
    · simp only [resolveAuthCooldown, hq]
    · intro q2 hq2 he ha
      exact hmin q2 ((hfilter q2).2 ⟨hq2, he, ha⟩)
  · intro hall
    have hnil : (cooldownCandidates auth).filter
        (fun q => q.Exceeded && Time.After q.NextRecoverAt now) = [] := by
      rw [List.eq_nil_iff_forall_not_mem]
      intro q hq
      obtain ⟨h1, h2, h3⟩ := (hfilter q).1 hq
      exact hall q h1 h2 h3
    simp only [resolveAuthCooldown, hnil, earliestRecover]

/-- C24. Cooldown earliest wins: for every auth and time `now`, if at least one of the
auth's own quota and per-model quotas is exceeded with `NextRecoverAt` after `now`,
`resolveAuthCooldown auth now` returns `active = true` together with the reason and
`NextRecoverAt` of an exceeded quota whose `NextRecoverAt` is the minimum among those
after `now`; a quota whose `NextRecoverAt` is not after `now` is ignored, so an auth
none of whose exceeded quotas recovers after `now` yields `active = false`. -/
theorem cooldown_earliest_wins (auth : Auth) (now : Time) :
    ((∃ q, (q = auth.Quota ∨ ∃ model st, auth.ModelStates.lookup model = some st ∧ q = st.Quota) ∧
        q.Exceeded = true ∧ now < q.NextRecoverAt) →
      ∃ q, (q = auth.Quota ∨ ∃ model st, auth.ModelStates.lookup model = some st ∧ q = st.Quota) ∧
        q.Exceeded = true ∧ now < q.NextRecoverAt ∧
        resolveAuthCooldown auth now = (true, q.Reason, q.NextRecoverAt) ∧
        ∀ q2, (q2 = auth.Quota ∨
            ∃ model st, auth.ModelStates.lookup model = some st ∧ q2 = st.Quota) →
          q2.Exceeded = true → now < q2.NextRecoverAt → q.NextRecoverAt ≤ q2.NextRecoverAt) ∧
    ((∀ q, (q = auth.Quota ∨ ∃ model st, auth.ModelStates.lookup model = some st ∧ q = st.Quota) →
        q.Exceeded = true → ¬ now < q.NextRecoverAt) →
      (resolveAuthCooldown auth now).1 = false) :=
  resolve_cooldown auth now

/-- Witness for C24: the two tests of the repository. With the weekly limit
recovering in seven days and the limit of `gpt-5` in five hours the resolver is
active; and the auth whose only exceeded quota recovered one minute ago is not. -/
theorem cooldown_earliest_wins_witness :
    resolveAuthCooldown twoLimitsAuth 1000 = (true, "codex_5h_limit", 1000 + 5 * Hour) ∧
    (∃ q, (q = twoLimitsAuth.Quota ∨
        ∃ model st, twoLimitsAuth.ModelStates.lookup model = some st ∧ q = st.Quota) ∧
      q.Exceeded = true ∧ (1000 : Time) < q.NextRecoverAt ∧
      resolveAuthCooldown twoLimitsAuth 1000 = (true, q.Reason, q.NextRecoverAt) ∧
      ∀ q2, (q2 = twoLimitsAuth.Quota ∨
          ∃ model st, twoLimitsAuth.ModelStates.lookup model = some st ∧ q2 = st.Quota) →
        q2.Exceeded = true → (1000 : Time) < q2.NextRecoverAt →
        q.NextRecoverAt ≤ q2.NextRecoverAt) ∧
    (resolveAuthCooldown recoveredAuth (10 * Minute)).1 = false :=
  ⟨by decide,
   (cooldown_earliest_wins twoLimitsAuth 1000).1
    ⟨twoLimitsAuth.Quota, Or.inl rfl, rfl, by decide⟩,
   (cooldown_earliest_wins recoveredAuth (10 * Minute)).2 (by
    rintro q (h | ⟨model, st, hl, _⟩) _
    · rw [h]; decide
    · simp [recoveredAuth, activeAuth] at hl)⟩

theorem recordStats_recent (s : SessionSelector) (now : Time) (result : Result) :
    (s.recordStats now result).recentOf result.AuthID =
      if s.cfg.HealthWindow > 0 ∧
          (((s.recentOf result.AuthID ++ [sampleOf now result]).length : Nat) : Int) >
            s.cfg.HealthWindow then
        (s.recentOf result.AuthID ++ [sampleOf now result]).drop
          ((s.recentOf result.AuthID ++ [sampleOf now result]).length - s.cfg.HealthWindow.toNat)
      else s.recentOf result.AuthID ++ [sampleOf now result] := by
  unfold SessionSelector.recentOf SessionSelector.recordStats sampleOf
  simp only [mapSet, ↓reduceIte]
  cases s.stats result.AuthID with
  | none => dsimp only; split_ifs <;> rfl
  | some st => dsimp only; split_ifs <;> rfl

theorem normalised_healthWindow_pos (c : SessionSelectorConfig) :
    (normaliseSessionConfig c).HealthWindow > 0 := by
  rw [normalise_eq]
  dsimp only
  split_ifs with h
  · decide
  · omega

theorem recordResult_recent (s : SessionSelector) (c : SessionSelectorConfig) (now : Time)
    (ctx : Option Context) (result : Result) (hcfg : s.cfg = normaliseSessionConfig c)
    (hid : result.AuthID ≠ "") :
    (s.RecordResult now ctx result).recentOf result.AuthID =
      (s.recentOf result.AuthID ++ [sampleOf now result]).drop
        ((s.recentOf result.AuthID).length + 1 - s.cfg.HealthWindow.toNat) ∧
    (((s.RecordResult now ctx result).recentOf result.AuthID).length : Int) =
      min (((s.recentOf result.AuthID).length : Int) + 1) s.cfg.HealthWindow ∧
    ((s.RecordResult now ctx result).recentOf result.AuthID).getLast? =
      some (sampleOf now result) ∧
    List.IsSuffix ((s.RecordResult now ctx result).recentOf result.AuthID)
      (s.recentOf result.AuthID ++ [sampleOf now result]) := by
  have hw : s.cfg.HealthWindow > 0 := by rw [hcfg]; exact normalised_healthWindow_pos c
  have hrec : (s.RecordResult now ctx result).recentOf result.AuthID =
      (s.recordStats now result).recentOf result.AuthID := by
    unfold SessionSelector.RecordResult
    rw [if_neg hid]
    unfold SessionSelector.recentOf
    rw [recordBinding_stats]
  have heq : (s.RecordResult now ctx result).recentOf result.AuthID =
      (s.recentOf result.AuthID ++ [sampleOf now result]).drop
        ((s.recentOf result.AuthID).length + 1 - s.cfg.HealthWindow.toNat) := by
    rw [hrec, recordStats_recent]
    split_ifs with h
    · simp only [List.length_append, List.length_singleton]
    · have h2 : (s.recentOf result.AuthID).length + 1 - s.cfg.HealthWindow.toNat = 0 := by
        simp only [List.length_append, List.length_singleton, not_and, not_lt] at h
        have := h hw
        push_cast at this
        omega
      rw [h2, List.drop_zero]
  have hlen : (((s.recentOf result.AuthID ++ [sampleOf now result]).drop
        ((s.recentOf result.AuthID).length + 1 - s.cfg.HealthWindow.toNat)).length : Int) =
      min (((s.recentOf result.AuthID).length : Int) + 1) s.cfg.HealthWindow := by
    rw [List.length_drop, List.length_append, List.length_singleton]
    rcases le_total (((s.recentOf result.AuthID).length : Int) + 1) s.cfg.HealthWindow with h | h
    · rw [min_eq_left h]; omega
    · rw [min_eq_right h]; omega
  have hpos : (s.recentOf result.AuthID).length + 1 - s.cfg.HealthWindow.toNat <
      (s.recentOf result.AuthID ++ [sampleOf now result]).length := by
    rw [List.length_append, List.length_singleton]
    omega
  refine ⟨heq, ?_, ?_, ?_⟩
  · rw [heq]; exact hlen
  · rw [heq, List.getLast?_drop, if_neg (not_le.2 hpos), List.getLast?_append]
    rfl
  · rw [heq]
    exact List.drop_suffix _ _

/-- C27. Health window cap: for every state with a normalised configuration and every
`RecordResult` with a non-empty `AuthID`, afterwards that auth's `recentResults` is
the old list followed by the new sample `{now, success, status}` without its first
`old length + 1 - HealthWindow` elements: it has length
`min(old length + 1, HealthWindow)`, its last element is the new sample, and it is a
suffix of the old list followed by the new sample. -/
theorem health_window_cap (s : SessionSelector) (c : SessionSelectorConfig) (now : Time)
    (ctx : Option Context) (result : Result) (hcfg : s.cfg = normaliseSessionConfig c)
    (hid : result.AuthID ≠ "") :
    (s.RecordResult now ctx result).recentOf result.AuthID =
      (s.recentOf result.AuthID ++ [sampleOf now result]).drop
        ((s.recentOf result.AuthID).length + 1 - s.cfg.HealthWindow.toNat) ∧
    (((s.RecordResult now ctx result).recentOf result.AuthID).length : Int) =
      min (((s.recentOf result.AuthID).length : Int) + 1) s.cfg.HealthWindow ∧
    ((s.RecordResult now ctx result).recentOf result.AuthID).getLast? =
      some (sampleOf now result) ∧
    List.IsSuffix ((s.RecordResult now ctx result).recentOf result.AuthID)
      (s.recentOf result.AuthID ++ [sampleOf now result]) :=
  recordResult_recent s c now ctx result hcfg hid

/-- Witness for C27: with health window 2 and two samples stored, a third result
drops the oldest sample. -/
theorem health_window_cap_witness :
    smallWindowState.recentOf "auth-a" = [⟨1000, false, 500⟩, ⟨2000, true, 0⟩] ∧
    (smallWindowState.RecordResult 3000 none (failedResult "codex" 429)).recentOf "auth-a" =
      [⟨2000, true, 0⟩, ⟨3000, false, 429⟩] := by
  have h := (health_window_cap smallWindowState smallWindowConfig 3000 none
    (failedResult "codex" 429) rfl (by decide)).1
  have h0 : smallWindowState.recentOf "auth-a" = [⟨1000, false, 500⟩, ⟨2000, true, 0⟩] := by
    decide
  refine ⟨h0, ?_⟩
  have hA : (failedResult "codex" 429).AuthID = "auth-a" := rfl
  rw [hA, h0] at h
  rw [h]
  rfl

theorem recordAll_snoc (ctx : Option Context) (fs : List (Time × Result)) (call : Time × Result) :
    ∀ s : SessionSelector,
      s.recordAll ctx (fs ++ [call]) = (s.recordAll ctx fs).RecordResult call.1 ctx call.2 := by
  induction fs with
  | nil => intro s; rfl
  | cons x xs ih =>
    intro s
    simp only [List.cons_append, SessionSelector.recordAll]
    exact ih _

theorem recordAll_cfg (ctx : Option Context) (fs : List (Time × Result)) :
    ∀ s : SessionSelector, (s.recordAll ctx fs).cfg = s.cfg := by
  induction fs with
  | nil => intro s; rfl
  | cons x xs ih =>
    intro s
    simp only [SessionSelector.recordAll]
    rw [ih, recordResult_cfg]

theorem failures_from_zero (s : SessionSelector) (c : SessionSelectorConfig)
    (ctx : Option Context) (p : String) (b : sessionBinding)
    (hcfg : s.cfg = normaliseSessionConfig c)
    (hsid : SessionIDFromContext ctx ≠ "")
    (hen : s.isProviderEnabled p = true)
    (hb : s.sessions (ToLower p ++ ":" ++ SessionIDFromContext ctx) = some b)
    (hid : b.authID ≠ "") (hf0 : b.failCount = 0) (hc0 : b.cooldownUntil = 0)
    (fs : List (Time × Result)) :
    (∀ call ∈ fs, call.2.AuthID = b.authID ∧ call.2.Provider = p ∧ call.2.Success = false) →
    (fs.length : Int) ≤ s.cfg.FailureThreshold →
    ∃ b1, (s.recordAll ctx fs).sessions (ToLower p ++ ":" ++ SessionIDFromContext ctx) = some b1 ∧
      b1.authID = b.authID ∧
      ((fs.length : Int) < s.cfg.FailureThreshold →
        b1.failCount = fs.length ∧ b1.cooldownUntil = 0) ∧
      ((fs.length : Int) = s.cfg.FailureThreshold →
        b1.failCount = 0 ∧
        ∃ pre last, fs = pre ++ [last] ∧ b1.cooldownUntil = last.1 + s.cfg.Cooldown) := by
  have hN : s.cfg.FailureThreshold > 0 := by rw [hcfg]; exact normalised_threshold_pos c
  induction fs using List.reverseRecOn with
  | nil =>
    intro _ _
    refine ⟨b, hb, rfl, fun _ => ⟨by simpa using hf0, hc0⟩, fun h => ?_⟩
    simp only [List.length_nil, Nat.cast_zero] at h
    omega
  | append_singleton fs call ih =>
    intro hall hlen
    rw [List.length_append, List.length_singleton] at hlen
    push_cast at hlen
    obtain ⟨b1, hb1, hid1, hlt1, _⟩ := ih
      (fun x hx => hall x (List.mem_append.2 (Or.inl hx))) (by omega)
    obtain ⟨hf1, hc1⟩ := hlt1 (by omega)
    obtain ⟨hcA, hcP, hcS⟩ := hall call (List.mem_append.2 (Or.inr (List.mem_singleton_self _)))
    have hcfg1 : (s.recordAll ctx fs).cfg = normaliseSessionConfig c := by
      rw [recordAll_cfg, hcfg]
    have hen1 : (s.recordAll ctx fs).isProviderEnabled call.2.Provider = true := by
      rw [hcP, isProviderEnabled_congr _ s _ (recordAll_cfg ctx fs s)]
      exact hen
    have hb1p : (s.recordAll ctx fs).sessions
        (ToLower call.2.Provider ++ ":" ++ SessionIDFromContext ctx) = some b1 := by
      rw [hcP]; exact hb1
    obtain ⟨b2, hb2, hid2, _, _, hbelow, hreach, _⟩ :=
      recordResult_binding (s.recordAll ctx fs) c call.1 ctx call.2 b1 hcfg1
        (by rw [hcA]; exact hid) hsid hen1 hb1p (by rw [hid1, hcA])
    rw [recordAll_cfg] at hbelow hreach
    rw [hcP] at hb2
    refine ⟨b2, by rw [recordAll_snoc]; exact hb2, by rw [hid2, hid1], ?_, ?_⟩
    · intro hlt
      rw [List.length_append, List.length_singleton] at hlt ⊢
      push_cast at hlt ⊢
      obtain ⟨h1, h2⟩ := hbelow hcS (by rw [hf1]; exact hlt)
      exact ⟨by rw [h1, hf1], by rw [h2, hc1]⟩
    · intro heq
      rw [List.length_append, List.length_singleton] at heq
      push_cast at heq
      obtain ⟨h1, h2⟩ := hreach hcS (by rw [hf1]; omega)
      exact ⟨h1, fs, call, rfl, h2⟩

theorem success_resets (s : SessionSelector) (c : SessionSelectorConfig)
    (ctx : Option Context) (b : sessionBinding) (now : Time) (result : Result)
    (hcfg : s.cfg = normaliseSessionConfig c)
    (hsid : SessionIDFromContext ctx ≠ "")
    (hen : s.isProviderEnabled result.Provider = true)
    (hb : s.sessions (ToLower result.Provider ++ ":" ++ SessionIDFromContext ctx) = some b)
    (hid : b.authID ≠ "") (hA : result.AuthID = b.authID) (hS : result.Success = true) :
    ∃ b1, (s.RecordResult now ctx result).sessions
        (ToLower result.Provider ++ ":" ++ SessionIDFromContext ctx) = some b1 ∧
      b1.authID = b.authID ∧ b1.failCount = 0 ∧ b1.cooldownUntil = 0 ∧
      (s.RecordResult now ctx result).cfg = s.cfg := by
  obtain ⟨b1, hb1, hid1, _, hsucc, _⟩ :=
    recordResult_binding s c now ctx result b hcfg (by rw [hA]; exact hid) hsid hen hb hA.symm
  exact ⟨b1, hb1, hid1, (hsucc hS).1, (hsucc hS).2, recordResult_cfg s now ctx result⟩

theorem strikes (s : SessionSelector) (c : SessionSelectorConfig)
    (ctx : Option Context) (p : String) (b : sessionBinding)
    (hcfg : s.cfg = normaliseSessionConfig c)
    (hsid : SessionIDFromContext ctx ≠ "")
    (hen : s.isProviderEnabled p = true)
    (hb : s.sessions (ToLower p ++ ":" ++ SessionIDFromContext ctx) = some b)
    (hid : b.authID ≠ "") :
    (b.failCount = 0 → b.cooldownUntil = 0 →
      ∀ fs : List (Time × Result),
        (∀ call ∈ fs, call.2.AuthID = b.authID ∧ call.2.Provider = p ∧ call.2.Success = false) →
        (fs.length : Int) ≤ s.cfg.FailureThreshold →
        ∃ b1, (s.recordAll ctx fs).sessions (ToLower p ++ ":" ++ SessionIDFromContext ctx) =
            some b1 ∧
          b1.authID = b.authID ∧
          ((fs.length : Int) < s.cfg.FailureThreshold →
            b1.failCount = fs.length ∧ b1.cooldownUntil = 0) ∧
          ((fs.length : Int) = s.cfg.FailureThreshold →
            b1.failCount = 0 ∧
            ∃ pre last, fs = pre ++ [last] ∧ b1.cooldownUntil = last.1 + s.cfg.Cooldown)) ∧
    (∀ (now : Time) (result : Result),
      result.AuthID = b.authID → result.Provider = p → result.Success = true →
      ∃ b1, (s.RecordResult now ctx result).sessions
          (ToLower p ++ ":" ++ SessionIDFromContext ctx) = some b1 ∧
        b1.authID = b.authID ∧ b1.failCount = 0 ∧ b1.cooldownUntil = 0 ∧
        (s.RecordResult now ctx result).cfg = s.cfg) := by
  constructor
  · intro hf0 hc0 fs
    exact failures_from_zero s c ctx p b hcfg hsid hen hb hid hf0 hc0 fs
  · intro now result hA hP hS
    subst hP
    exact success_resets s c ctx b now result hcfg hsid hen hb hid hA hS

/-- C26, amended. Cooldown after exactly `FailureThreshold` consecutive failures: for
a binding with a non-empty auth id, `failCount = 0` and no cooldown (as `Pick`
creates it) under a normalised configuration with `FailureThreshold = N`, after
`k < N` consecutive failed `RecordResult` calls matching the binding its
`cooldownUntil` is still zero and `failCount = k`; after the `N`-th consecutive
failure `cooldownUntil` = (time of that call) + `Cooldown` and `failCount = 0`; and a
successful matching `RecordResult` sets `failCount = 0` and `cooldownUntil` = zero
under the same configuration, so that the count restarts from 0. -/
theorem consecutive_failures (s : SessionSelector) (c : SessionSelectorConfig)
    (ctx : Option Context) (p : String) (b : sessionBinding)
    (hcfg : s.cfg = normaliseSessionConfig c)
    (hsid : SessionIDFromContext ctx ≠ "")
    (hen : s.isProviderEnabled p = true)
    (hb : s.sessions (ToLower p ++ ":" ++ SessionIDFromContext ctx) = some b)
    (hid : b.authID ≠ "") :
    (b.failCount = 0 → b.cooldownUntil = 0 →
      ∀ fs : List (Time × Result),
        (∀ call ∈ fs, call.2.AuthID = b.authID ∧ call.2.Provider = p ∧ call.2.Success = false) →
        (fs.length : Int) ≤ s.cfg.FailureThreshold →
        ∃ b1, (s.recordAll ctx fs).sessions (ToLower p ++ ":" ++ SessionIDFromContext ctx) =
            some b1 ∧
          b1.authID = b.authID ∧
          ((fs.length : Int) < s.cfg.FailureThreshold →
            b1.failCount = fs.length ∧ b1.cooldownUntil = 0) ∧
          ((fs.length : Int) = s.cfg.FailureThreshold →
            b1.failCount = 0 ∧
            ∃ pre last, fs = pre ++ [last] ∧ b1.cooldownUntil = last.1 + s.cfg.Cooldown)) ∧
    (∀ (now : Time) (result : Result),
      result.AuthID = b.authID → result.Provider = p → result.Success = true →
      ∃ b1, (s.RecordResult now ctx result).sessions
          (ToLower p ++ ":" ++ SessionIDFromContext ctx) = some b1 ∧
        b1.authID = b.authID ∧ b1.failCount = 0 ∧ b1.cooldownUntil = 0 ∧
        (s.RecordResult now ctx result).cfg = s.cfg) :=
  strikes s c ctx p b hcfg hsid hen hb hid

/-- Witness for C26: with failure threshold 3 the binding of `session-1` to `auth-a`
counts two failures without cooldown and is cooled by the third, at time 4000, until
4000 + 5 minutes. -/
theorem consecutive_failures_witness :
    (threeStrikesState.recordAll sessionCtx
        [(2000, failedResult "codex" 500), (3000, failedResult "codex" 500)]).sessions
      "codex:session-1" = some ⟨"auth-a", 3000, 2, 0⟩ ∧
    (threeStrikesState.recordAll sessionCtx
        [(2000, failedResult "codex" 500), (3000, failedResult "codex" 500),
         (4000, failedResult "codex" 500)]).sessions
      "codex:session-1" = some ⟨"auth-a", 4000, 0, 4000 + 5 * Minute⟩ ∧
    ∃ b1, (threeStrikesState.recordAll sessionCtx
        [(2000, failedResult "codex" 500), (3000, failedResult "codex" 500),
         (4000, failedResult "codex" 500)]).sessions
        (ToLower "codex" ++ ":" ++ SessionIDFromContext sessionCtx) = some b1 ∧
      b1.authID = "auth-a" ∧
      ((([(2000, failedResult "codex" 500), (3000, failedResult "codex" 500),
          (4000, failedResult "codex" 500)] : List (Time × Result)).length : Int) <
          threeStrikesState.cfg.FailureThreshold →
        b1.failCount = ([(2000, failedResult "codex" 500), (3000, failedResult "codex" 500),
          (4000, failedResult "codex" 500)] : List (Time × Result)).length ∧
        b1.cooldownUntil = 0) ∧
      ((([(2000, failedResult "codex" 500), (3000, failedResult "codex" 500),
          (4000, failedResult "codex" 500)] : List (Time × Result)).length : Int) =
          threeStrikesState.cfg.FailureThreshold →
        b1.failCount = 0 ∧
        ∃ pre last, [(2000, failedResult "codex" 500), (3000, failedResult "codex" 500),
            (4000, failedResult "codex" 500)] = pre ++ [last] ∧
          b1.cooldownUntil = last.1 + threeStrikesState.cfg.Cooldown) :=
  ⟨by decide, by decide,
   (consecutive_failures threeStrikesState threeStrikesConfig sessionCtx "codex"
      ⟨"auth-a", 1000, 0, 0⟩ rfl (by decide) (by decide) (by decide) (by decide)).1 rfl rfl
    [(2000, failedResult "codex" 500), (3000, failedResult "codex" 500),
     (4000, failedResult "codex" 500)] (by decide) (by decide)⟩

/-- Counterexample to C26 as stated: the binding that `Pick` creates for `session-1`
over an auth whose id is empty has `failCount = 0` and no cooldown; under failure
threshold 1 a failed result matching it (same empty auth id, session and provider)
at time 2000 leaves `cooldownUntil` zero. -/
theorem consecutive_failures_counterexample :
    emptyBoundState.cfg.FailureThreshold = 1 ∧
    emptyBoundState.isProviderEnabled emptyIDResult.Provider = true ∧
    SessionIDFromContext sessionCtx = "session-1" ∧
    (∃ b, emptyBoundState.sessions "codex:session-1" = some b ∧
      b.authID = emptyIDResult.AuthID ∧ b.failCount = 0 ∧ b.cooldownUntil = 0) ∧
    emptyIDResult.Success = false ∧
    (∃ b1, (emptyBoundState.recordAll sessionCtx [(2000, emptyIDResult)]).sessions
        "codex:session-1" = some b1 ∧
      b1.cooldownUntil = 0 ∧ b1.cooldownUntil ≠ 2000 + emptyBoundState.cfg.Cooldown) :=
  ⟨by decide, by decide, by decide, ⟨⟨"", 1000, 0, 0⟩, by decide, rfl, rfl, rfl⟩, rfl,
   ⟨⟨"", 1000, 0, 0⟩, by decide, rfl, by decide⟩⟩

theorem prune_sublist (l : List Time) (c : Time) : (pruneOldTimestamps l c).Sublist l :=
  List.dropWhile_sublist _

theorem prune_eq_filter (l : List Time) (c : Time) (h : l.Pairwise (fun a b => a ≤ b)) :
    pruneOldTimestamps l c = l.filter (fun v => !Time.Before v c) := by
  unfold pruneOldTimestamps
  induction l with
  | nil => rfl
  | cons x xs ih =>
    rw [List.pairwise_cons] at h
    by_cases hx : Time.Before x c = true
    · simp only [List.dropWhile_cons, hx, ↓reduceIte, List.filter_cons, Bool.not_true,
        Bool.false_eq_true]
      exact ih h.2
    · simp only [List.dropWhile_cons, hx, ↓reduceIte, Bool.false_eq_true]
      rw [List.filter_eq_self.2]
      intro y hy
      have hxc : ¬ x < c := by simpa [Time.Before] using hx
      rcases List.mem_cons.1 hy with hy | hy
      · subst hy; simpa [Time.Before] using hxc
      · have := h.1 y hy
        simp only [Time.Before, Bool.not_eq_eq_eq_not, Bool.not_true, decide_eq_false_iff_not]
        simp only [Time, Duration] at *
        omega

theorem prune_ge (l : List Time) (c : Time) (h : l.Pairwise (fun a b => a ≤ b)) :
    ∀ t ∈ pruneOldTimestamps l c, c ≤ t := by
  intro t ht
  rw [prune_eq_filter l c h, List.mem_filter] at ht
  have := ht.2
  simp only [Time.Before, Bool.not_eq_eq_eq_not, Bool.not_true, decide_eq_false_iff_not,
    not_lt] at this
  exact this

theorem pruned_sublists (st : authStats) (cfg : SessionSelectorConfig) (now : Time) :
    (st.pruned cfg now).recentRequests.Sublist st.recentRequests ∧
    (st.pruned cfg now).pendingRequests.Sublist st.pendingRequests := by
  unfold authStats.pruned
  split
  · exact ⟨prune_sublist _ _, prune_sublist _ _⟩
  · exact ⟨List.Sublist.refl _, List.Sublist.refl _⟩

theorem statsAll_map_pruned (Q : List Time → Prop)
    (hsub : ∀ l l2 : List Time, l2.Sublist l → Q l → Q l2)
    (stats : String → Option authStats) (cfg : SessionSelectorConfig) (now : Time)
    (h : StatsAll Q stats) :
    StatsAll Q (fun x => (stats x).map (fun st => st.pruned cfg now)) := by
  intro id st hst
  cases hs : stats id with
  | none => simp [hs] at hst
  | some st0 =>
    simp only [hs, Option.map_some', Option.some.injEq] at hst
    subst hst
    obtain ⟨h1, h2⟩ := h id st0 hs
    obtain ⟨p1, p2⟩ := pruned_sublists st0 cfg now
    exact ⟨hsub _ _ p1 h1, hsub _ _ p2 h2⟩

theorem cleanup_statsAll (Q : List Time → Prop)
    (hsub : ∀ l l2 : List Time, l2.Sublist l → Q l → Q l2)
    (s : SessionSelector) (now : Time) (h : StatsAll Q s.stats) :
    StatsAll Q (s.cleanupLocked now).stats := by
  have := statsAll_map_pruned Q hsub s.stats s.cfg now h
  intro id st hst
  rw [cleanupLocked_stats] at hst
  exact this id st hst

theorem scoreAuthLocked_statsAll (Q : List Time → Prop)
    (hsub : ∀ l l2 : List Time, l2.Sublist l → Q l → Q l2)
    (s : SessionSelector) (a : Auth) (model : String) (now : Time) (h : StatsAll Q s.stats) :
    StatsAll Q (s.scoreAuthLocked a model now).2.2.stats := by
  intro id st hst
  rw [scoreAuthLocked_stats] at hst
  split at hst
  · rename_i hid
    rw [← hid] at hst
    exact statsAll_map_pruned Q hsub s.stats s.cfg now h id st hst
  · exact h id st hst

theorem scoreAll_statsAll (Q : List Time → Prop)
    (hsub : ∀ l l2 : List Time, l2.Sublist l → Q l → Q l2)
    (model : String) (now : Time) (cands : List Auth) :
    ∀ (s : SessionSelector) (acc : List scored), StatsAll Q s.stats →
      StatsAll Q (scoreAll s model now cands acc).2.stats := by
  induction cands with
  | nil => intro s acc h; exact h
  | cons a rest ih =>
    intro s acc h
    simp only [scoreAll]
    exact ih _ _ (scoreAuthLocked_statsAll Q hsub s a model now h)

theorem pickBest_statsAll (Q : List Time → Prop)
    (hsub : ∀ l l2 : List Time, l2.Sublist l → Q l → Q l2)
    (srt : SortSlice scored) (s : SessionSelector) (cands : List Auth) (model : String)
    (now : Time) (h : StatsAll Q s.stats) :
    StatsAll Q (s.pickBestCandidateLocked srt cands model now).2.stats := by
  unfold SessionSelector.pickBestCandidateLocked
  split
  · exact h
  · exact scoreAll_statsAll Q hsub model now _ s [] h

theorem addPending_statsAll (Q Q2 : List Time → Prop)
    (hkeep : ∀ l l2 : List Time, l2.Sublist l → Q l → Q2 l2)
    (s : SessionSelector) (id : String) (now : Time)
    (hadd : ∀ l l2 : List Time, l2.Sublist (l ++ [now]) → Q l → Q2 l2)
    (hnil : Q [])
    (h : StatsAll Q s.stats) : StatsAll Q2 (s.addPending id now).stats := by
  intro x st hst
  unfold SessionSelector.addPending at hst
  split at hst
  · by_cases hx : x = id
    · simp only [mapSet, hx, ↓reduceIte, Option.some.injEq] at hst
      subst hst
      cases hs : s.stats id with
      | none =>
        exact ⟨hkeep _ _ (List.Sublist.refl _) hnil, hadd _ _ (prune_sublist _ _) hnil⟩
      | some st0 =>
        obtain ⟨h1, h2⟩ := h id st0 hs
        exact ⟨hkeep _ _ (List.Sublist.refl _) h1, hadd _ _ (prune_sublist _ _) h2⟩
    · simp only [mapSet, hx, ↓reduceIte] at hst
      obtain ⟨h1, h2⟩ := h x st hst
      exact ⟨hkeep _ _ (List.Sublist.refl _) h1, hkeep _ _ (List.Sublist.refl _) h2⟩
  · obtain ⟨h1, h2⟩ := h x st hst
    exact ⟨hkeep _ _ (List.Sublist.refl _) h1, hkeep _ _ (List.Sublist.refl _) h2⟩

theorem lookupBinding_sticky_stats (s : SessionSelector) (now : Time) (en : Bool)
    (provider sessionID : String) (available : List Auth) (a : Auth) (s2 : SessionSelector)
    (h : s.lookupBinding now en provider sessionID available = BindingLookup.sticky a s2) :
    ∃ s1 : SessionSelector, s1.stats = s.stats ∧ s2 = s1.addPending a.ID now := by
  unfold SessionSelector.lookupBinding at h
  split at h
  · dsimp only at h
    cases hb : s.sessions (sessionKey provider sessionID) with
    | none =>
      rw [hb] at h
      exact absurd h (by simp)
    | some b =>
      rw [hb] at h
      dsimp only at h
      split at h
      · exact absurd h (by simp)
      · split at h
        · cases hf : findAuthByID available b.authID with
          | none =>
            rw [hf] at h
            exact absurd h (by simp)
          | some auth =>
            rw [hf] at h
            simp only [BindingLookup.sticky.injEq] at h
            obtain ⟨ha, hs2⟩ := h
            subst ha
            refine ⟨_, ?_, hs2.symm⟩
            rfl
        · exact absurd h (by simp)
  · exact absurd h (by simp)

theorem pick_statsAll (Q Q2 : List Time → Prop)
    (hsub : ∀ l l2 : List Time, l2.Sublist l → Q l → Q l2)
    (hkeep : ∀ l l2 : List Time, l2.Sublist l → Q l → Q2 l2)
    (srt : SortSlice scored) (mk : String) (s : SessionSelector) (now : Time)
    (provider model : String) (opts : Options) (available : List Auth)
    (hadd : ∀ l l2 : List Time, l2.Sublist (l ++ [now]) → Q l → Q2 l2)
    (hnil : Q [])
    (h : StatsAll Q (s.cleanupLocked now).stats) :
    StatsAll Q2 (s.Pick srt mk now provider model opts (Except.ok available)).2.stats := by
  cases hl : (s.cleanupLocked now).lookupBinding now (s.isProviderEnabled provider) provider
      (extractSessionIDFromOptions mk opts) available with
  | sticky a s2 =>
    rw [pick_of_sticky srt mk s now provider model opts available a s2 hl]
    obtain ⟨s1, hs1, hs2⟩ := lookupBinding_sticky_stats _ _ _ _ _ _ _ _ hl
    rw [hs2]
    exact addPending_statsAll Q Q2 hkeep s1 a.ID now hadd hnil (by rw [hs1]; exact h)
  | fresh ex s2 =>
    rw [pick_of_fresh srt mk s now provider model opts available ex s2 hl]
    have hs2 : s2.stats = (s.cleanupLocked now).stats := lookupBinding_fresh_stats _ _ _ _ _ _ _ _ hl
    have hbest := pickBest_statsAll Q hsub srt s2
      (if (filterAuthsByID available ex).length = 0 then available
        else filterAuthsByID available ex) model now (by rw [hs2]; exact h)
    generalize s2.pickBestCandidateLocked srt
      (if (filterAuthsByID available ex).length = 0 then available
        else filterAuthsByID available ex) model now = r at hbest
    obtain ⟨r1, r2⟩ := r
    cases r1 with
    | none =>
      intro id st hst
      obtain ⟨h1, h2⟩ := hbest id st hst
      exact ⟨hkeep _ _ (List.Sublist.refl _) h1, hkeep _ _ (List.Sublist.refl _) h2⟩
    | some selected =>
      dsimp only
      apply addPending_statsAll Q Q2 hkeep _ selected.ID now hadd hnil
      split
      · exact hbest
      · exact hbest

theorem recordStats_statsAll (Q Q2 : List Time → Prop)
    (hkeep : ∀ l l2 : List Time, l2.Sublist l → Q l → Q2 l2)
    (s : SessionSelector) (now : Time) (result : Result)
    (hadd : ∀ l l2 : List Time, l2.Sublist (l ++ [now]) → Q l → Q2 l2)
    (hnil : Q [])
    (h : StatsAll Q s.stats) : StatsAll Q2 (s.recordStats now result).stats := by
  have hdrop : ∀ l : List Time, (if l.length > 0 then l.drop 1 else l).Sublist l := by
    intro l
    split
    · exact List.drop_sublist _ _
    · exact List.Sublist.refl _
  have hst0 : Q (match s.stats result.AuthID with
      | some stats => stats
      | none => { recentResults := [], recentRequests := [], pendingRequests := [] }
      : authStats).recentRequests ∧
      Q (match s.stats result.AuthID with
      | some stats => stats
      | none => { recentResults := [], recentRequests := [], pendingRequests := [] }
      : authStats).pendingRequests := by
    cases hs : s.stats result.AuthID with
    | none => exact ⟨hnil, hnil⟩
    | some st0 => exact h _ st0 hs
  intro x st hst
  unfold SessionSelector.recordStats at hst
  by_cases hx : x = result.AuthID
  · simp only [mapSet, hx, ↓reduceIte, Option.some.injEq] at hst
    subst hst
    generalize (match s.stats result.AuthID with
      | some stats => stats
      | none => { recentResults := [], recentRequests := [], pendingRequests := [] }
      : authStats) = st0 at hst0 ⊢
    obtain ⟨h1, h2⟩ := hst0
    split
    · exact ⟨hadd _ _ (prune_sublist _ _) h1,
        hkeep _ _ ((prune_sublist _ _).trans (hdrop _)) h2⟩
    · exact ⟨hkeep _ _ (List.Sublist.refl _) h1, hkeep _ _ (List.Sublist.refl _) h2⟩
  · simp only [mapSet, hx, ↓reduceIte] at hst
    obtain ⟨h1, h2⟩ := h x st hst
    exact ⟨hkeep _ _ (List.Sublist.refl _) h1, hkeep _ _ (List.Sublist.refl _) h2⟩

theorem recordResult_statsAll (Q Q2 : List Time → Prop)
    (hkeep : ∀ l l2 : List Time, l2.Sublist l → Q l → Q2 l2)
    (s : SessionSelector) (now : Time) (ctx : Option Context) (result : Result)
    (hadd : ∀ l l2 : List Time, l2.Sublist (l ++ [now]) → Q l → Q2 l2)
    (hnil : Q [])
    (h : StatsAll Q s.stats) : StatsAll Q2 (s.RecordResult now ctx result).stats := by
  unfold SessionSelector.RecordResult
  split
  · intro id st hst
    obtain ⟨h1, h2⟩ := h id st hst
    exact ⟨hkeep _ _ (List.Sublist.refl _) h1, hkeep _ _ (List.Sublist.refl _) h2⟩
  · rw [recordBinding_stats]
    exact recordStats_statsAll Q Q2 hkeep s now result hadd hnil h

theorem runSel_snoc (srt : SortSlice scored) (mk : String) (c0 : SessionSelectorConfig)
    (ops : List SelOp) (op : SelOp) :
    runSel srt mk c0 (ops ++ [op]) = SelOp.apply srt mk (runSel srt mk c0 ops) op := by
  simp [runSel, List.foldl_append]

theorem runSel_cfg (srt : SortSlice scored) (mk : String) (c0 : SessionSelectorConfig)
    (ops : List SelOp) : ∃ c, (runSel srt mk c0 ops).cfg = normaliseSessionConfig c := by
  induction ops using List.reverseRecOn with
  | nil => exact ⟨c0, rfl⟩
  | append_singleton ops op ih =>
    obtain ⟨c, hc⟩ := ih
    rw [runSel_snoc]
    cases op with
    | pick now provider model opts available =>
      exact ⟨c, by simp only [SelOp.apply]; rw [pick_cfg, hc]⟩
    | record now ctx result =>
      exact ⟨c, by simp only [SelOp.apply]; rw [recordResult_cfg, hc]⟩
    | config cfg => exact ⟨cfg, rfl⟩

theorem runSel_within (srt : SortSlice scored) (mk : String) (c0 : SessionSelectorConfig)
    (ops : List SelOp) :
    StatsAll (fun l => l.Sublist (ops.filterMap SelOp.clock)) (runSel srt mk c0 ops).stats := by
  induction ops using List.reverseRecOn with
  | nil =>
    intro id st hst
    simp [runSel, NewSessionSelector] at hst
  | append_singleton ops op ih =>
    rw [runSel_snoc, List.filterMap_append]
    have hsub : ∀ l l2 : List Time, l2.Sublist l →
        l.Sublist (ops.filterMap SelOp.clock) → l2.Sublist (ops.filterMap SelOp.clock) :=
      fun _ _ h1 h2 => h1.trans h2
    cases op with
    | pick now provider model opts available =>
      have hkeep : ∀ l l2 : List Time, l2.Sublist l →
          l.Sublist (ops.filterMap SelOp.clock) →
          l2.Sublist (ops.filterMap SelOp.clock ++ [now]) :=
        fun _ _ h1 h2 => (h1.trans h2).trans (List.sublist_append_left _ _)
      have hadd : ∀ l l2 : List Time, l2.Sublist (l ++ [now]) →
          l.Sublist (ops.filterMap SelOp.clock) →
          l2.Sublist (ops.filterMap SelOp.clock ++ [now]) :=
        fun _ _ h1 h2 => h1.trans (List.Sublist.append h2 (List.Sublist.refl _))
      simp only [SelOp.apply, List.filterMap_cons, SelOp.clock, List.filterMap_nil]
      cases available with
      | error err =>
        intro id st hst
        obtain ⟨h1, h2⟩ := ih id st hst
        exact ⟨hkeep _ _ (List.Sublist.refl _) h1, hkeep _ _ (List.Sublist.refl _) h2⟩
      | ok available =>
        exact pick_statsAll _ _ hsub hkeep srt mk _ now provider model opts available hadd
          (List.nil_sublist _) (cleanup_statsAll _ hsub _ now ih)
    | record now ctx result =>
      have hkeep : ∀ l l2 : List Time, l2.Sublist l →
          l.Sublist (ops.filterMap SelOp.clock) →
          l2.Sublist (ops.filterMap SelOp.clock ++ [now]) :=
        fun _ _ h1 h2 => (h1.trans h2).trans (List.sublist_append_left _ _)
      have hadd : ∀ l l2 : List Time, l2.Sublist (l ++ [now]) →
          l.Sublist (ops.filterMap SelOp.clock) →
          l2.Sublist (ops.filterMap SelOp.clock ++ [now]) :=
        fun _ _ h1 h2 => h1.trans (List.Sublist.append h2 (List.Sublist.refl _))
      simp only [SelOp.apply, List.filterMap_cons, SelOp.clock, List.filterMap_nil]
      exact recordResult_statsAll _ _ hkeep _ now ctx result hadd (List.nil_sublist _) ih
    | config cfg =>
      simp only [SelOp.apply, List.filterMap_cons, SelOp.clock, List.filterMap_nil,
        List.append_nil]
      exact ih

theorem runSel_sorted (srt : SortSlice scored) (mk : String) (c0 : SessionSelectorConfig)
    (ops : List SelOp) (hmono : (ops.filterMap SelOp.clock).Pairwise (fun a b => a ≤ b)) :
    StatsAll (fun l => l.Pairwise (fun a b => a ≤ b)) (runSel srt mk c0 ops).stats := by
  intro id st hst
  obtain ⟨h1, h2⟩ := runSel_within srt mk c0 ops id st hst
  exact ⟨hmono.sublist h1, hmono.sublist h2⟩

theorem cleanup_pruned (s : SessionSelector) (now : Time) (hw : s.cfg.LoadWindow > 0)
    (h : StatsAll (fun l => l.Pairwise (fun a b => a ≤ b)) s.stats) :
    StatsAll (fun l => ∀ t ∈ l, now - s.cfg.LoadWindow ≤ t) (s.cleanupLocked now).stats := by
  intro id st hst
  rw [cleanupLocked_stats] at hst
  cases hs : s.stats id with
  | none => simp [hs] at hst
  | some st0 =>
    simp only [hs, Option.map_some', Option.some.injEq] at hst
    subst hst
    obtain ⟨h1, h2⟩ := h id st0 hs
    simp only [authStats.pruned, hw, ↓reduceIte]
    exact ⟨prune_ge _ _ h1, prune_ge _ _ h2⟩

theorem pick_pruned (srt : SortSlice scored) (mk : String) (s : SessionSelector) (now : Time)
    (provider model : String) (opts : Options) (available : List Auth)
    (hw : s.cfg.LoadWindow > 0)
    (h : StatsAll (fun l => l.Pairwise (fun a b => a ≤ b)) s.stats) :
    StatsAll (fun l => ∀ t ∈ l, now - s.cfg.LoadWindow ≤ t)
      (s.Pick srt mk now provider model opts (Except.ok available)).2.stats := by
  have hsub : ∀ l l2 : List Time, l2.Sublist l →
      (∀ t ∈ l, now - s.cfg.LoadWindow ≤ t) → ∀ t ∈ l2, now - s.cfg.LoadWindow ≤ t :=
    fun _ _ h1 h2 t ht => h2 t (h1.subset ht)
  refine pick_statsAll _ _ hsub hsub srt mk s now provider model opts available ?_ ?_
    (cleanup_pruned s now hw h)
  · intro l l2 h1 h2 t ht
    rcases List.mem_append.1 (h1.subset ht) with h3 | h3
    · exact h2 t h3
    · rw [List.mem_singleton.1 h3]
      simp only [Time, Duration] at *
      omega
  · intro t ht
    exact absurd ht (List.not_mem_nil t)

theorem runSel_timestamps (srt : SortSlice scored) (mk : String)
    (c0 : SessionSelectorConfig) (ops : List SelOp)
    (hmono : (ops.filterMap SelOp.clock).Pairwise (fun a b => a ≤ b)) :
    (∀ id st, (runSel srt mk c0 ops).stats id = some st →
      st.recentRequests.Pairwise (fun a b => a ≤ b) ∧
      st.pendingRequests.Pairwise (fun a b => a ≤ b)) ∧
    (∀ pre now provider model opts available,
      ops = pre ++ [SelOp.pick now provider model opts (Except.ok available)] →
      ∀ id st, (runSel srt mk c0 ops).stats id = some st →
        ∀ t, t ∈ st.recentRequests ∨ t ∈ st.pendingRequests →
          now - (runSel srt mk c0 ops).cfg.LoadWindow ≤ t) ∧
    (∀ (l : List Time) (cutoff : Time), l.Pairwise (fun a b => a ≤ b) →
      pruneOldTimestamps l cutoff = l.filter (fun v => !Time.Before v cutoff)) := by
  refine ⟨runSel_sorted srt mk c0 ops hmono, ?_, prune_eq_filter⟩
  intro pre now provider model opts available hops id st hst t ht
  subst hops
  rw [runSel_snoc] at hst ⊢
  simp only [SelOp.apply] at hst ⊢
  rw [pick_cfg]
  obtain ⟨c, hc⟩ := runSel_cfg srt mk c0 pre
  have hw : (runSel srt mk c0 pre).cfg.LoadWindow > 0 := by
    rw [hc]; exact normalised_loadWindow_pos c
  have hpre : (pre.filterMap SelOp.clock).Pairwise (fun a b => a ≤ b) := by
    rw [List.filterMap_append] at hmono
    exact (List.pairwise_append.1 hmono).1
  obtain ⟨h1, h2⟩ := pick_pruned srt mk _ now provider model opts available hw
    (runSel_sorted srt mk c0 pre hpre) id st hst
  rcases ht with ht | ht
  · exact h1 t ht
  · exact h2 t ht

/-- C28, amended. Timestamp list invariant: if the clock readings of successive `Pick`
and `RecordResult` calls are non-decreasing, then in every reachable selector state
each auth's `recentRequests` and `pendingRequests` lists are non-decreasing, and
immediately after any `Pick` at time `now` for which `getAvailableAuths` returned no
error every timestamp in every auth's two lists is not before `now - LoadWindow`;
`pruneOldTimestamps` on a non-decreasing list returns exactly its elements that are
not before the cutoff, in order. -/
theorem timestamp_invariant (srt : SortSlice scored) (mk : String)
    (c0 : SessionSelectorConfig) (ops : List SelOp)
    (hmono : (ops.filterMap SelOp.clock).Pairwise (fun a b => a ≤ b)) :
    (∀ id st, (runSel srt mk c0 ops).stats id = some st →
      st.recentRequests.Pairwise (fun a b => a ≤ b) ∧
      st.pendingRequests.Pairwise (fun a b => a ≤ b)) ∧
    (∀ pre now provider model opts available,
      ops = pre ++ [SelOp.pick now provider model opts (Except.ok available)] →
      ∀ id st, (runSel srt mk c0 ops).stats id = some st →
        ∀ t, t ∈ st.recentRequests ∨ t ∈ st.pendingRequests →
          now - (runSel srt mk c0 ops).cfg.LoadWindow ≤ t) ∧
    (∀ (l : List Time) (cutoff : Time), l.Pairwise (fun a b => a ≤ b) →
      pruneOldTimestamps l cutoff = l.filter (fun v => !Time.Before v cutoff)) :=
  runSel_timestamps srt mk c0 ops hmono

/-- Witness for C28: a pick at time 1000, a failed result at 2000 and a pick among two
auths at 3000. -/
theorem timestamp_invariant_witness :
    (timelineOps.filterMap SelOp.clock) = [1000, 2000, 3000] ∧
    (∀ id st, (runSel (insertionSlice scored) "session_id" testConfig timelineOps).stats id =
        some st →
      st.recentRequests.Pairwise (fun a b => a ≤ b) ∧
      st.pendingRequests.Pairwise (fun a b => a ≤ b)) ∧
    (∀ id st, (runSel (insertionSlice scored) "session_id" testConfig timelineOps).stats id =
        some st →
      ∀ t, t ∈ st.recentRequests ∨ t ∈ st.pendingRequests →
        3000 - (runSel (insertionSlice scored) "session_id" testConfig timelineOps).cfg.LoadWindow
          ≤ t) :=
  ⟨rfl,
   (timestamp_invariant (insertionSlice scored) "session_id" testConfig timelineOps
      (by decide)).1,
   (timestamp_invariant (insertionSlice scored) "session_id" testConfig timelineOps
      (by decide)).2.1
      [SelOp.pick 1000 "codex" "test-model" sessionOpts (Except.ok [authA]),
       SelOp.record 2000 sessionCtx (failedResult "codex" 500)]
      3000 "codex" "test-model" sessionOpts [authA, authB] rfl⟩

/-- Counterexample to C28 as stated: the clock readings 1000 and 1000 + 20 minutes are
non-decreasing and the last call is a `Pick` at 1000 + 20 minutes, but
`getAvailableAuths` returned an error, so `Pick` returned before any pruning: the
pending timestamp 1000 of `auth-a` is still there, before `now - LoadWindow` with the
window of ten minutes. -/
theorem timestamp_invariant_counterexample :
    (failedPickOps.filterMap SelOp.clock) = [1000, 1000 + 20 * Minute] ∧
    (failedPickOps.filterMap SelOp.clock).Pairwise (fun a b => a ≤ b) ∧
    failedPickOps.getLast? =
      some (SelOp.pick (1000 + 20 * Minute) "codex" "test-model" sessionOpts
        (Except.error { HTTPStatus := 503, Message := "no auth available" })) ∧
    (runSel (insertionSlice scored) "session_id" testConfig failedPickOps).cfg.LoadWindow =
      10 * Minute ∧
    (runSel (insertionSlice scored) "session_id" testConfig failedPickOps).stats "auth-a" =
      some ⟨[], [], [1000]⟩ ∧
    (1000 : Time) < 1000 + 20 * Minute - 10 * Minute :=
  ⟨rfl, by decide, rfl, rfl, by decide, by decide⟩

end CLIProxy
